import Mathlib

/-!
MeshcatVisualizer: a shallow embedding.

Embedding of `towr/src/meshcat_visualizer.cc`.

* Scalars (`double` in the source) are taken in an arbitrary linearly ordered field `K`.
  The geometry (vectors, norms, frames, thresholds) is exact arithmetic in `K`.  Where a
  `double` result decides a discrete outcome the rounding is part of the model: the
  variable of a `double`-stepped loop is advanced by `roundDouble (v + step)`, and a
  value cast to `int` is rounded before it is truncated.  `roundDouble` is IEEE 754
  binary64 rounding (to nearest, ties to even, gradual underflow); infinities and NaN
  are left out.  The square root behind `norm()` and `normalized()` is a parameter
  `sqrt : K → K`; the theorems that need its properties take `K = ℝ` and `Real.sqrt`,
  and every definition can be evaluated over `ℚ`.
* Calls to the collaborators (`meshcat_->set_object`, `set_transform`, `delete_object`,
  `terrain_->GetHeight`) are recorded, in program order, as a list of `Call`s.  The
  effect of the scene calls on the remote scene is a separate interpretation,
  `Scene.run`.
* `int` counters are natural numbers, `n_ee_` is an integer; `std::to_string` is
  `toString`.  An unchecked `operator[]` read outside a vector makes the result `none`,
  and so does a `static_cast<int>` whose truncated value is not an `int`.
* The `double`-stepped loops carry a fuel bound and report whether they returned
  (`Run` for `CreateTerrainMesh`, `Progress` for the trajectory functions, which can
  also throw).
* `towr::SplineHolder`, `towr::BaseState` and `EulerConverter` are not part of the
  sources at hand: splines are functions of time, the Euler conversion is a parameter.
-/

namespace towr

/-! ## Eigen vectors and matrices -/

/-- `Eigen::Vector3d`. -/
structure Vector3d (K : Type) where
  x : K
  y : K
  z : K
deriving DecidableEq, Repr

namespace Vector3d

variable {K : Type}

/-- `v(i)` for `i = 0, 1, 2`. -/
def coeff (v : Vector3d K) (i : Nat) : K :=
  match i with
  | 0 => v.x
  | 1 => v.y
  | _ => v.z

/-- `Vector3d::UnitX()`. -/
def UnitX [Zero K] [One K] : Vector3d K := ⟨1, 0, 0⟩

/-- `Vector3d::UnitY()`. -/
def UnitY [Zero K] [One K] : Vector3d K := ⟨0, 1, 0⟩

/-- `a + b`. -/
def add [Add K] (a b : Vector3d K) : Vector3d K := ⟨a.x + b.x, a.y + b.y, a.z + b.z⟩

/-- `a - b`. -/
def sub [Sub K] (a b : Vector3d K) : Vector3d K := ⟨a.x - b.x, a.y - b.y, a.z - b.z⟩

/-- `s * v`. -/
def smul [Mul K] (s : K) (v : Vector3d K) : Vector3d K := ⟨s * v.x, s * v.y, s * v.z⟩

/-- `a.dot(b)`. -/
def dot [Add K] [Mul K] (a b : Vector3d K) : K := a.x * b.x + a.y * b.y + a.z * b.z

/-- `a.cross(b)`. -/
def cross [Sub K] [Mul K] (a b : Vector3d K) : Vector3d K :=
  ⟨a.y * b.z - a.z * b.y, a.z * b.x - a.x * b.z, a.x * b.y - a.y * b.x⟩

/-- `v.squaredNorm()`. -/
def squaredNorm [Add K] [Mul K] (v : Vector3d K) : K := v.dot v

/-- `v.norm()`, the square root of the squared norm. -/
def norm [Add K] [Mul K] (sqrt : K → K) (v : Vector3d K) : K := sqrt v.squaredNorm

/-- `v.normalized()`: Eigen divides by the norm when the squared norm is positive and
returns the vector unchanged otherwise. -/
def normalized [LinearOrderedField K] (sqrt : K → K) (v : Vector3d K) : Vector3d K :=
  if 0 < v.squaredNorm then
    ⟨v.x / sqrt v.squaredNorm, v.y / sqrt v.squaredNorm, v.z / sqrt v.squaredNorm⟩
  else v

end Vector3d

/-- `Eigen::Matrix3d`, stored by columns (`m.col(0)`, `m.col(1)`, `m.col(2)`). -/
structure Matrix3d (K : Type) where
  col0 : Vector3d K
  col1 : Vector3d K
  col2 : Vector3d K
deriving DecidableEq, Repr

namespace Matrix3d

variable {K : Type}

/-- `m.col(c)`. -/
def col (m : Matrix3d K) (c : Nat) : Vector3d K :=
  match c with
  | 0 => m.col0
  | 1 => m.col1
  | _ => m.col2

/-- `m(row, col)`. -/
def coeff (m : Matrix3d K) (row col : Nat) : K := (m.col col).coeff row

/-- `Eigen::Matrix3d::Identity()`. -/
def Identity [Zero K] [One K] : Matrix3d K := ⟨⟨1, 0, 0⟩, ⟨0, 1, 0⟩, ⟨0, 0, 1⟩⟩

/-- Determinant, as the triple product `(col0 × col1) · col2`. -/
def determinant [Add K] [Sub K] [Mul K] (m : Matrix3d K) : K :=
  (m.col0.cross m.col1).dot m.col2

end Matrix3d

/-! ## The transform builder -/

/-- The reference axis of line 204-205:
`(std::abs(z_axis.dot(Vector3d::UnitX())) < 0.9) ? Vector3d::UnitX() : Vector3d::UnitY()`. -/
def referenceAxis {K : Type} [LinearOrderedField K] (z_axis : Vector3d K) : Vector3d K :=
  if |z_axis.dot Vector3d.UnitX| < 0.9 then Vector3d.UnitX else Vector3d.UnitY

/-- Lines 204-212 of `UpdateRobotVisualization` (repeated verbatim for force arrows and
trajectory segments): the reference axis, then `y_axis`, then the recomputed `x_axis`,
stored as columns 0, 1, 2 of the rotation. -/
def FrameAboutAxis {K : Type} [LinearOrderedField K] (sqrt : K → K)
    (z_axis : Vector3d K) : Matrix3d K :=
  let x_axis : Vector3d K := referenceAxis z_axis
  let y_axis := (z_axis.cross x_axis).normalized sqrt
  let x_axis := y_axis.cross z_axis
  ⟨x_axis, y_axis, z_axis⟩

/-- The frame construction of lines 203-212 (the spec's `BuildFrame`):
`z_axis = forward.normalized()` followed by the block above. -/
def BuildFrame {K : Type} [LinearOrderedField K] (sqrt : K → K)
    (forward : Vector3d K) : Matrix3d K :=
  let z_axis := forward.normalized sqrt
  FrameAboutAxis sqrt z_axis

/-- `MeshcatVisualizer::EigenToMeshcatTransform`: the 16 entries of the
`std::array<double, 16>` after the two nested loops and the four final assignments.
The array starts out as sixteen zeros (every entry is assigned by the code). -/
def EigenToMeshcatTransform {K : Type} [Zero K] [One K]
    (position : Vector3d K) (rotation : Matrix3d K) : List K :=
  let transform : List K := List.replicate 16 0
  let transform := (List.range 3).foldl (fun transform col =>
      let transform := (List.range 3).foldl (fun transform row =>
          transform.set (col * 4 + row) (rotation.coeff row col)) transform
      transform.set (col * 4 + 3) (position.coeff col)) transform
  let transform := transform.set 12 0
  let transform := transform.set 13 0
  let transform := transform.set 14 0
  let transform := transform.set 15 1
  transform

/-- `EigenToMeshcatTransform(position)` with the default argument
`rotation = Eigen::Matrix3d::Identity()` of the header. -/
def EigenToMeshcatTransformDefault {K : Type} [Zero K] [One K]
    (position : Vector3d K) : List K :=
  EigenToMeshcatTransform position Matrix3d.Identity

/-! ## Remote scene calls -/

/-- Geometry descriptors of `MeshcatCpp/Shape.h` used by the visualizer. -/
inductive Shape (K : Type) where
  | Box (length width height : K)
  | Sphere (radius : K)
  | Cylinder (radius height : K)
deriving DecidableEq, Repr

/-- The fields of a `MeshcatCpp::Material` the visualizer sets: `set_color(r, g, b)` and
`set_opacity(a)`. -/
structure Material (K : Type) where
  r : Nat
  g : Nat
  b : Nat
  opacity : K
deriving DecidableEq, Repr

/-- One call issued to a collaborator: the three scene primitives of `meshcat_` and the
height query of `terrain_`. -/
inductive Call (K : Type) where
  | set_object (path : String) (shape : Shape K) (material : Material K)
  | set_transform (path : String) (transform : List K)
  | delete_object (path : String)
  | GetHeight (x y : K)
deriving DecidableEq, Repr

/-- The visualizer's own state read by the functions below: `n_ee_` and `terrain_`
(`none` for a null pointer). -/
structure MeshcatVisualizer (K : Type) where
  n_ee_ : Int
  terrain_ : Option (K → K → K)

/-- `robot_material_` after `SetupMaterials`. -/
def robot_material_ {K : Type} [DivisionRing K] : Material K := ⟨66, 133, 244, 0.8⟩

/-- `foot_material_` after `SetupMaterials`. -/
def foot_material_ {K : Type} [DivisionRing K] : Material K := ⟨234, 67, 53, 0.9⟩

/-- `force_material_` after `SetupMaterials`. -/
def force_material_ {K : Type} [DivisionRing K] : Material K := ⟨251, 188, 5, 1.0⟩

/-- `terrain_material_` after `SetupMaterials`. -/
def terrain_material_ {K : Type} [DivisionRing K] : Material K := ⟨128, 128, 128, 0.6⟩

/-! ## Force arrows -/

/-- `for (int ee = 0; ee < n; ++ee) body(ee)`: the calls of iterations `0, ..., n-1`
in that order; `none` when some iteration is undefined. -/
def forRange {K : Type} : Nat → (Nat → Option (List (Call K))) → Option (List (Call K))
  | 0, _ => some []
  | n + 1, body => do
    let before ← forRange n body
    let last ← body n
    pure (before ++ last)

/-- `MeshcatVisualizer::UpdateForceVisualization`.  The result is `none` when an
unchecked `operator[]` read falls outside its vector (undefined behaviour in the
source); otherwise it is the list of scene calls, in program order.  The unused local
`arrow_end` is left out. -/
def UpdateForceVisualization {K : Type} [LinearOrderedField K]
    (self : MeshcatVisualizer K) (sqrt : K → K)
    (ee_positions ee_forces : List (Vector3d K)) (contact_states : List Bool) :
    Option (List (Call K)) :=
  forRange (min self.n_ee_ (ee_forces.length : Int)).toNat (fun ee => do
    let force_name := "forces/force_" ++ toString ee
    let in_contact ←
      if ee < contact_states.length then contact_states[ee]? else pure false
    let pushing ←
      if in_contact && decide (ee < ee_forces.length) then do
        let f ← ee_forces[ee]?
        pure (decide (f.norm sqrt > 1e-3))
      else pure false
    if pushing then do
      let force ← ee_forces[ee]?
      let force_magnitude := force.norm sqrt
      let force_direction := force.normalized sqrt
      let force_scale : K := 0.001
      let arrow_length := force_magnitude * force_scale
      if arrow_length > 1e-6 then do
        let arrow_start ← ee_positions[ee]?
        let arrow_center := arrow_start.add (Vector3d.smul (0.5 * arrow_length) force_direction)
        let z_axis := force_direction
        let arrow_rotation := FrameAboutAxis sqrt z_axis
        pure [Call.set_object force_name (Shape.Cylinder 0.005 arrow_length) force_material_,
              Call.set_transform force_name
                (EigenToMeshcatTransform arrow_center arrow_rotation)]
      else pure []
    else
      pure [Call.delete_object force_name])

/-! ## Double arithmetic -/

/-- Round to the nearest integer, ties to the even one. -/
def roundHalfEven {K : Type} [LinearOrderedField K] [FloorRing K] (q : K) : Int :=
  if q - ⌊q⌋ < 1 / 2 then ⌊q⌋
  else if 1 / 2 < q - ⌊q⌋ then ⌊q⌋ + 1
  else if ⌊q⌋ % 2 = 0 then ⌊q⌋ else ⌊q⌋ + 1

/-- Halving `n` until it is below `2`, at most `fuel` times: the number of halvings. -/
def floorLog2Aux : Nat → Nat → Nat
  | 0, _ => 0
  | fuel + 1, n => if 2 ≤ n then floorLog2Aux fuel (n / 2) + 1 else 0

/-- The position of the leading bit of `n`: `⌊log₂ n⌋` for `n ≥ 1`. -/
def floorLog2 (n : Nat) : Nat := floorLog2Aux n n

/-- The binary exponent of a positive magnitude `q`: the `e` with `2^e ≤ q < 2^(e+1)`. -/
def binaryExponent {K : Type} [LinearOrderedField K] [FloorRing K] (q : K) : Int :=
  if 1 ≤ q then (floorLog2 ⌊q⌋₊ : Int)
  else -((floorLog2 (⌈q⁻¹⌉₊ - 1) : Int) + 1)

/-- The spacing of the doubles around a magnitude `q`: `2^(e-52)` for the binary exponent
`e` of `q` (53 significant bits), and `2^(-1074)` below `2^(-1022)` (subnormal
numbers). -/
def ulp {K : Type} [LinearOrderedField K] [FloorRing K] (q : K) : K :=
  2 ^ (max (binaryExponent q) (-1022) - 52)

/-- A magnitude rounded to the nearest multiple of its spacing, ties to even. -/
def roundMagnitude {K : Type} [LinearOrderedField K] [FloorRing K] (q : K) : K :=
  (roundHalfEven (q / ulp q) : K) * ulp q

/-- The `double` nearest to `q`: IEEE 754 binary64, round to nearest, ties to even.
The result of a `double` operation is `roundDouble` of the exact result (overflow to
an infinity is not modelled). -/
def roundDouble {K : Type} [LinearOrderedField K] [FloorRing K] (q : K) : K :=
  if 0 ≤ q then roundMagnitude q else -roundMagnitude (-q)

/-- `static_cast<int>(v)`: truncation toward zero; the behaviour is undefined (`none`)
when the truncated value is not a 32-bit `int`. -/
def static_cast_int {K : Type} [LinearOrderedField K] [FloorRing K] (v : K) : Option Int :=
  if -2147483648 ≤ (if 0 ≤ v then ⌊v⌋ else ⌈v⌉) ∧
      (if 0 ≤ v then ⌊v⌋ else ⌈v⌉) ≤ 2147483647 then
    some (if 0 ≤ v then ⌊v⌋ else ⌈v⌉)
  else none

/-- How far a function with a loop over `double` has got. -/
inductive Status where
  /-- The function has returned. -/
  | returned
  /-- The fuel ran out before the loop ended. -/
  | running
  /-- An exception left the function (`at()` out of range, a negative vector size) or
  its behaviour is undefined. -/
  | threw
deriving DecidableEq, Repr

/-! ## Terrain mesh -/

/-- What a possibly non-terminating piece of code has done after a bounded number of
loop iterations: the calls issued so far and the status reached. -/
structure Run (K : Type) where
  calls : List (Call K)
  status : Status
deriving DecidableEq, Repr

/-- `for (double v = v0; v <= hi; v += step) body(v)`, run for at most `fuel`
iterations starting from the current value `v`; `v += step` is a `double` addition. -/
def forLoop {K : Type} [LinearOrderedField K] [FloorRing K] (body : K → Run K) (hi step : K) :
    Nat → K → Run K
  | 0, v => ⟨[], if v ≤ hi then Status.running else Status.returned⟩
  | fuel + 1, v =>
    if v ≤ hi then
      let r := body v
      match r.status with
      | Status.returned =>
        let rest := forLoop body hi step fuel (roundDouble (v + step))
        ⟨r.calls ++ rest.calls, rest.status⟩
      | _ => r
    else ⟨[], Status.returned⟩

/-- `MeshcatVisualizer::CreateTerrainMesh`, each of the two loops run for at most `fuel`
iterations.  `x * 100` and `y * 100` are `double` products. -/
def CreateTerrainMesh {K : Type} [LinearOrderedField K] [FloorRing K]
    (self : MeshcatVisualizer K) (fuel : Nat)
    (x_range y_range : K × K) (resolution : K) : Run K :=
  match self.terrain_ with
  | none => ⟨[], Status.returned⟩
  | some terrain =>
    forLoop (fun x =>
      forLoop (fun y =>
        let height := terrain x y
        if |height| > 1e-6 then
          match static_cast_int (roundDouble (x * 100)),
              static_cast_int (roundDouble (y * 100)) with
          | some ix, some iy =>
            let terrain_name := "terrain/tile_" ++ toString ix ++ "_" ++ toString iy
            let position : Vector3d K := ⟨x, y, height / 2.0⟩
            ⟨[Call.GetHeight x y,
              Call.set_object terrain_name (Shape.Box resolution resolution |height|)
                terrain_material_,
              Call.set_transform terrain_name (EigenToMeshcatTransformDefault position)],
              Status.returned⟩
          | _, _ => ⟨[Call.GetHeight x y], Status.threw⟩
        else ⟨[Call.GetHeight x y], Status.returned⟩)
        y_range.2 resolution fuel y_range.1)
      x_range.2 resolution fuel x_range.1

/-! ## The remote scene -/

/-- Modelled from the spec: the state of the remote scene (the MeshCat server is not
part of the repository).  A path has at most one object (geometry and material) and
one last-applied transform. -/
structure Scene (K : Type) where
  objects : String → Option (Shape K × Material K)
  transforms : String → Option (List K)

/-- Modelled from the spec: `q` is the node `p` itself or lies below it in the
hierarchy of `/`-separated paths. -/
def pathUnder (p q : String) : Bool :=
  decide (q = p) || decide (p.data ++ ['/'] <+: q.data)

/-- Modelled from the spec: the effect of one call on the scene.  `set_object` and
`set_transform` replace what the path holds (upsert), `delete_object` removes the node
and everything below it, a height query leaves the scene alone. -/
def Scene.apply {K : Type} (s : Scene K) : Call K → Scene K
  | Call.set_object p shape material =>
    { s with objects := fun q => if q = p then some (shape, material) else s.objects q }
  | Call.set_transform p t =>
    { s with transforms := fun q => if q = p then some t else s.transforms q }
  | Call.delete_object p =>
    { objects := fun q => if pathUnder p q then none else s.objects q
      transforms := fun q => if pathUnder p q then none else s.transforms q }
  | Call.GetHeight _ _ => s

/-- The scene after a list of calls, applied in order. -/
def Scene.run {K : Type} (s : Scene K) (calls : List (Call K)) : Scene K :=
  calls.foldl Scene.apply s

/-- Modelled from the spec: a node exists at a path when the path holds an object. -/
def Scene.exists_node {K : Type} (s : Scene K) (path : String) : Bool :=
  (s.objects path).isSome

/-- The scene with no node. -/
def Scene.empty {K : Type} : Scene K := ⟨fun _ => none, fun _ => none⟩

/-! ## Robot geometry and the per-frame update -/

/-- `MeshcatVisualizer::CreateRobotGeometry`: the body box, then one sphere per
end-effector. -/
def CreateRobotGeometry {K : Type} [DivisionRing K] (self : MeshcatVisualizer K) :
    List (Call K) :=
  let body_length : K := 0.4
  let body_width : K := 0.2
  let body_height : K := 0.1
  let body_length : K :=
    if self.n_ee_ = 1 then 0.2 else if self.n_ee_ = 2 then 0.3
    else if self.n_ee_ = 4 then 0.5 else body_length
  let body_width : K :=
    if self.n_ee_ = 1 then 0.1 else if self.n_ee_ = 2 then 0.15
    else if self.n_ee_ = 4 then 0.25 else body_width
  Call.set_object "robot/body" (Shape.Box body_length body_width body_height)
      robot_material_ ::
    (List.range self.n_ee_.toNat).map (fun ee =>
      let foot_name := "robot/foot_" ++ toString ee
      Call.set_object foot_name (Shape.Sphere 0.03) foot_material_)

/-- `MeshcatVisualizer::Initialize` for a robot model with `n` end-effectors: the
visualizer afterwards and the calls issued (console output is left out). -/
def Initialize {K : Type} [DivisionRing K] (self : MeshcatVisualizer K) (n : Int) :
    MeshcatVisualizer K × List (Call K) :=
  let self : MeshcatVisualizer K := { self with n_ee_ := n }
  (self, CreateRobotGeometry self)

/-- A `towr::State` as far as the visualizer reads it: the value `p`. -/
structure State (K : Type) where
  p : Vector3d K
deriving DecidableEq, Repr

/-- `towr::BaseState`: the linear and the angular state of the base. -/
structure BaseState (K : Type) where
  lin : State K
  ang : State K
deriving DecidableEq, Repr

/-- `MeshcatVisualizer::UpdateRobotVisualization`.  The conversion
`EulerConverter::GetRotationMatrixBaseToWorld` is a parameter.  The result is `none`
when an `operator[]` read falls outside its vector. -/
def UpdateRobotVisualization {K : Type} [LinearOrderedField K]
    (self : MeshcatVisualizer K) (sqrt : K → K)
    (GetRotationMatrixBaseToWorld : Vector3d K → Matrix3d K)
    (base_state : BaseState K) (ee_positions : List (Vector3d K))
    (contact_states : List Bool) : Option (List (Call K)) := do
  let rotation := GetRotationMatrixBaseToWorld base_state.ang.p
  let body_transform := EigenToMeshcatTransform base_state.lin.p rotation
  let feet ← forRange (min self.n_ee_ (ee_positions.length : Int)).toNat (fun ee => do
    let foot_name := "robot/foot_" ++ toString ee
    let in_contact ←
      if ee < contact_states.length then contact_states[ee]? else pure false
    let material : Material K :=
      if in_contact then ⟨234, 67, 53, 0.9⟩ else ⟨52, 168, 83, 0.9⟩
    let position ← ee_positions[ee]?
    let foot_transform := EigenToMeshcatTransformDefault position
    let leg_vector := position.sub base_state.lin.p
    let leg_length := leg_vector.norm sqrt
    let leg_calls : List (Call K) :=
      if leg_length > 1e-6 then
        let leg_center := base_state.lin.p.add (Vector3d.smul 0.5 leg_vector)
        let z_axis := leg_vector.normalized sqrt
        let leg_rotation := FrameAboutAxis sqrt z_axis
        let leg_name := "robot/leg_" ++ toString ee
        let leg_material : Material K := ⟨100, 100, 100, 0.7⟩
        [Call.set_object leg_name (Shape.Cylinder 0.01 leg_length) leg_material,
         Call.set_transform leg_name (EigenToMeshcatTransform leg_center leg_rotation)]
      else []
    pure ([Call.set_object foot_name (Shape.Sphere 0.03) material,
           Call.set_transform foot_name foot_transform] ++ leg_calls))
  pure (Call.set_transform "robot/body" body_transform :: feet)

/-- `MeshcatVisualizer::VisualizeState` (the time `t` is not used by the source). -/
def VisualizeState {K : Type} [LinearOrderedField K]
    (self : MeshcatVisualizer K) (sqrt : K → K)
    (GetRotationMatrixBaseToWorld : Vector3d K → Matrix3d K) (_t : K)
    (base_state : BaseState K) (ee_positions ee_forces : List (Vector3d K))
    (contact_states : List Bool) : Option (List (Call K)) := do
  let robot ← UpdateRobotVisualization self sqrt GetRotationMatrixBaseToWorld base_state
    ee_positions contact_states
  let forces ← UpdateForceVisualization self sqrt ee_positions ee_forces contact_states
  pure (robot ++ forces)

/-! ## Trajectories -/

/-- The items produced so far and the status reached. -/
structure Progress (α : Type) where
  items : List α
  status : Status

/-- `for (double t = t0; t <= hi; t += dt) body(t)`, run for at most `fuel` iterations
from the current value `t`; `body` yields an item, or `none` when it throws; `t += dt`
is a `double` addition. -/
def stepLoop {K α : Type} [LinearOrderedField K] [FloorRing K] (body : K → Option α)
    (hi dt : K) : Nat → K → Progress α
  | 0, t => ⟨[], if t ≤ hi then Status.running else Status.returned⟩
  | fuel + 1, t =>
    if t ≤ hi then
      match body t with
      | none => ⟨[], Status.threw⟩
      | some a =>
        let rest := stepLoop body hi dt fuel (roundDouble (t + dt))
        ⟨a :: rest.items, rest.status⟩
    else ⟨[], Status.returned⟩

/-- `do { pass } while (loop);` for a pass that does the same every time, run for at
most `fuel` passes. -/
def doWhile {α : Type} (pass : Progress α) (loop : Bool) : Nat → Progress α
  | 0 => ⟨[], Status.running⟩
  | fuel + 1 =>
    match pass.status with
    | Status.returned =>
      if loop then
        let rest := doWhile pass loop fuel
        ⟨pass.items ++ rest.items, rest.status⟩
      else pass
    | _ => pass

/-- `towr::SplineHolder` as far as the visualizer reads it: `GetPoint(t)` of each
spline and `base_linear_->GetTotalTime()`. -/
structure SplineHolder (K : Type) where
  base_linear_ : K → State K
  base_angular_ : K → State K
  total_time : K
  ee_motion_ : List (K → State K)
  ee_force_ : List (K → State K)

/-- One of the two segment loops of `VisualizeTrajectory` (lines 349-383 for the base,
lines 387-421 for an end-effector): `for (size_t i = 1; i < trajectory.size(); ++i)`.
Both reads are below `size()` by the loop condition. -/
def trajectorySegments {K : Type} [LinearOrderedField K] (sqrt : K → K)
    (segment_name : Nat → String) (radius : K) (material : Material K)
    (trajectory : List (Vector3d K)) : List (Call K) :=
  ((List.range (trajectory.length - 1)).map (fun k =>
    let i := k + 1
    let start := trajectory.getD (i - 1) ⟨0, 0, 0⟩
    let finish := trajectory.getD i ⟨0, 0, 0⟩
    let segment := finish.sub start
    let length := segment.norm sqrt
    if length > 1e-6 then
      let center := start.add (Vector3d.smul 0.5 segment)
      let direction := segment.normalized sqrt
      let z_axis := direction
      let rotation := FrameAboutAxis sqrt z_axis
      [Call.set_object (segment_name i) (Shape.Cylinder radius length) material,
       Call.set_transform (segment_name i) (EigenToMeshcatTransform center rotation)]
    else [])).flatten

/-- `MeshcatVisualizer::VisualizeTrajectory`.  The sampling loop keeps the times `t` at
which it ran, the trajectories being the splines at those times; it throws when
`std::vector(n_ee_)` gets a negative size or when `ee_motion_.at(ee)` has no spline
for some `ee < n_ee_`.  The segments are drawn once the sampling loop has ended. -/
def VisualizeTrajectory {K : Type} [LinearOrderedField K] [FloorRing K]
    (self : MeshcatVisualizer K) (sqrt : K → K) (fuel : Nat)
    (splines : SplineHolder K) (dt total_duration : K) : Progress (Call K) :=
  let total_duration := if total_duration < 0 then splines.total_time else total_duration
  if self.n_ee_ < 0 then ⟨[], Status.threw⟩
  else
    let times := stepLoop (fun t =>
      if self.n_ee_.toNat ≤ splines.ee_motion_.length then some t else none)
      total_duration dt fuel 0
    match times.status with
    | Status.returned =>
      let base_trajectory := times.items.map (fun t => (splines.base_linear_ t).p)
      let ee_trajectories := (splines.ee_motion_.take self.n_ee_.toNat).map (fun spline =>
        times.items.map (fun t => (spline t).p))
      ⟨trajectorySegments sqrt (fun i => "trajectory/base_segment_" ++ toString i)
          0.005 ⟨66, 133, 244, 0.5⟩ base_trajectory ++
        ((List.range self.n_ee_.toNat).map (fun ee =>
          trajectorySegments sqrt
            (fun i => "trajectory/ee" ++ toString ee ++ "_segment_" ++ toString i)
            0.003 ⟨234, 67, 53, 0.3⟩ (ee_trajectories.getD ee []))).flatten,
        Status.returned⟩
    | status => ⟨[], status⟩

/-- One frame of `PlayTrajectory`: the arguments passed to `VisualizeState`, the scene
calls it issued and the argument of `sleep_for` in milliseconds. -/
structure Frame (K : Type) where
  t : K
  base_state : BaseState K
  ee_positions : List (Vector3d K)
  ee_forces : List (Vector3d K)
  contact_states : List Bool
  calls : List (Call K)
  sleep_ms : Int

/-- The body of the `for` loop of `PlayTrajectory` at time `t`; `none` when
`std::vector(n_ee_)` gets a negative size, when `at(ee)` has no spline for some
`ee < n_ee_`, when `VisualizeState` is undefined, or when the delay
`static_cast<int>(dt * 1000.0 / playback_speed)` is undefined (a quotient that does not
fit an `int`, or a division by zero, which gives an infinity or NaN).  The product and
the quotient are `double` operations. -/
def PlayFrame {K : Type} [LinearOrderedField K] [FloorRing K]
    (self : MeshcatVisualizer K) (sqrt : K → K)
    (GetRotationMatrixBaseToWorld : Vector3d K → Matrix3d K)
    (splines : SplineHolder K) (playback_speed dt t : K) : Option (Frame K) :=
  let base_state : BaseState K := ⟨splines.base_linear_ t, splines.base_angular_ t⟩
  if 0 ≤ self.n_ee_ ∧ self.n_ee_.toNat ≤ splines.ee_motion_.length ∧
      self.n_ee_.toNat ≤ splines.ee_force_.length then
    let ee_positions := (splines.ee_motion_.take self.n_ee_.toNat).map (fun spline =>
      (spline t).p)
    let ee_forces := (splines.ee_force_.take self.n_ee_.toNat).map (fun spline =>
      (spline t).p)
    let contact_states := ee_forces.map (fun force => decide (force.norm sqrt > 1.0))
    match VisualizeState self sqrt GetRotationMatrixBaseToWorld t base_state ee_positions
        ee_forces contact_states with
    | none => none
    | some calls =>
      if playback_speed = 0 then none
      else
        match static_cast_int (roundDouble (roundDouble (dt * 1000.0) / playback_speed)) with
        | none => none
        | some sleep_ms =>
          some ⟨t, base_state, ee_positions, ee_forces, contact_states, calls, sleep_ms⟩
  else none

/-- `MeshcatVisualizer::PlayTrajectory`, with at most `fuel` frames per pass and at most
`fuel` passes. -/
def PlayTrajectory {K : Type} [LinearOrderedField K] [FloorRing K]
    (self : MeshcatVisualizer K) (sqrt : K → K)
    (GetRotationMatrixBaseToWorld : Vector3d K → Matrix3d K) (fuel : Nat)
    (splines : SplineHolder K) (playback_speed dt : K) (loop : Bool) :
    Progress (Frame K) :=
  let total_duration := splines.total_time
  doWhile
    (stepLoop (PlayFrame self sqrt GetRotationMatrixBaseToWorld splines playback_speed dt)
      total_duration dt fuel 0)
    loop fuel

/-! ## Clearing the scene -/

/-- `MeshcatVisualizer::Clear` (lines 282-286): three `delete_object` calls, on `robot`,
`forces` and `terrain`. -/
def Clear {K : Type} : List (Call K) :=
  [Call.delete_object "robot", Call.delete_object "forces", Call.delete_object "terrain"]

/-! ## Auxiliary definitions for the statements -/

/-- The calls of one iteration of the loop of `UpdateForceVisualization` written without
the inner `arrow_length > 1e-6` test, for an end-effector whose contact flag, force and
position have been read. -/
def forceArrowCalls {K : Type} [LinearOrderedField K] (sqrt : K → K) (ee : Nat)
    (contact : Bool) (force position : Vector3d K) : List (Call K) :=
  if contact = true ∧ force.norm sqrt > 1e-3 then
    [Call.set_object ("forces/force_" ++ toString ee)
       (Shape.Cylinder 0.005 (force.norm sqrt * 0.001)) force_material_,
     Call.set_transform ("forces/force_" ++ toString ee)
       (EigenToMeshcatTransform
         (position.add (Vector3d.smul (0.5 * (force.norm sqrt * 0.001))
           (force.normalized sqrt)))
         (BuildFrame sqrt force))]
  else [Call.delete_object ("forces/force_" ++ toString ee)]

/-- `UpdateForceVisualization` written without the inner `if (arrow_length > 1e-6)` test
of line 247: the arrow is drawn whenever the outer condition holds.  Everything else is
as in the source. -/
def UpdateForceVisualizationNoGuard {K : Type} [LinearOrderedField K]
    (self : MeshcatVisualizer K) (sqrt : K → K)
    (ee_positions ee_forces : List (Vector3d K)) (contact_states : List Bool) :
    Option (List (Call K)) :=
  forRange (min self.n_ee_ (ee_forces.length : Int)).toNat (fun ee => do
    let force_name := "forces/force_" ++ toString ee
    let in_contact ←
      if ee < contact_states.length then contact_states[ee]? else pure false
    let pushing ←
      if in_contact && decide (ee < ee_forces.length) then do
        let f ← ee_forces[ee]?
        pure (decide (f.norm sqrt > 1e-3))
      else pure false
    if pushing then do
      let force ← ee_forces[ee]?
      let force_magnitude := force.norm sqrt
      let force_direction := force.normalized sqrt
      let force_scale : K := 0.001
      let arrow_length := force_magnitude * force_scale
      let arrow_start ← ee_positions[ee]?
      let arrow_center := arrow_start.add (Vector3d.smul (0.5 * arrow_length) force_direction)
      let z_axis := force_direction
      let arrow_rotation := FrameAboutAxis sqrt z_axis
      pure [Call.set_object force_name (Shape.Cylinder 0.005 arrow_length) force_material_,
            Call.set_transform force_name
              (EigenToMeshcatTransform arrow_center arrow_rotation)]
    else
      pure [Call.delete_object force_name])

/-- The value of the variable of `for (double v = v0; ...; v += step)` after `i`
increments: each sum is rounded to `double`. -/
def loopValue {K : Type} [LinearOrderedField K] [FloorRing K] (v0 step : K) : Nat → K
  | 0 => v0
  | i + 1 => roundDouble (loopValue v0 step i + step)

/-- The local `terrain_name` of `CreateTerrainMesh` at the grid point `(x, y)`; `none`
when one of the two casts is undefined. -/
def terrain_name {K : Type} [LinearOrderedField K] [FloorRing K] (x y : K) : Option String :=
  match static_cast_int (roundDouble (x * 100)), static_cast_int (roundDouble (y * 100)) with
  | some ix, some iy => some ("terrain/tile_" ++ toString ix ++ "_" ++ toString iy)
  | _, _ => none

/-- One pass through the inner loop body of `CreateTerrainMesh` at the grid point
`(x, y)`. -/
def terrainTile {K : Type} [LinearOrderedField K] [FloorRing K]
    (terrain : K → K → K) (resolution x y : K) : Run K :=
  if |terrain x y| > 1e-6 then
    match terrain_name x y with
    | some name =>
      ⟨[Call.GetHeight x y,
        Call.set_object name (Shape.Box resolution resolution |terrain x y|)
          terrain_material_,
        Call.set_transform name (EigenToMeshcatTransformDefault ⟨x, y, terrain x y / 2.0⟩)],
        Status.returned⟩
    | none => ⟨[Call.GetHeight x y], Status.threw⟩
  else ⟨[Call.GetHeight x y], Status.returned⟩

/-- The arguments of the height queries among a list of calls, in order. -/
def heightQueries {K : Type} (calls : List (Call K)) : List (K × K) :=
  calls.filterMap (fun c =>
    match c with
    | Call.GetHeight x y => some (x, y)
    | _ => none)

/-- The calls of one iteration of the loop of `UpdateRobotVisualization` for an
end-effector at `position` with contact flag `contact` (false when the flag is
missing). -/
def footCalls {K : Type} [LinearOrderedField K] (sqrt : K → K) (base : Vector3d K) (ee : Nat)
    (contact : Bool) (position : Vector3d K) : List (Call K) :=
  [Call.set_object ("robot/foot_" ++ toString ee) (Shape.Sphere 0.03)
     (if contact then ⟨234, 67, 53, 0.9⟩ else ⟨52, 168, 83, 0.9⟩),
   Call.set_transform ("robot/foot_" ++ toString ee)
     (EigenToMeshcatTransform position Matrix3d.Identity)] ++
  (if (position.sub base).norm sqrt > 1e-6 then
    [Call.set_object ("robot/leg_" ++ toString ee)
       (Shape.Cylinder 0.01 ((position.sub base).norm sqrt)) ⟨100, 100, 100, 0.7⟩,
     Call.set_transform ("robot/leg_" ++ toString ee)
       (EigenToMeshcatTransform (base.add (Vector3d.smul 0.5 (position.sub base)))
         (BuildFrame sqrt (position.sub base)))]
  else [])

/-- The segment the static path mode is to draw between two consecutive samples `a` and
`b` of a track: a cylinder of the given radius and of length `|b - a|`, with the
transform built from the midpoint `(a + b) / 2` and the frame of `b - a`, when
`|b - a| > 1e-6`; nothing otherwise. -/
def staticPathSegment {K : Type} [LinearOrderedField K] (sqrt : K → K) (path : String)
    (radius : K) (material : Material K) (a b : Vector3d K) : List (Call K) :=
  if (b.sub a).norm sqrt > 1e-6 then
    [Call.set_object path (Shape.Cylinder radius ((b.sub a).norm sqrt)) material,
     Call.set_transform path
       (EigenToMeshcatTransform (Vector3d.smul (1 / 2) (a.add b)) (BuildFrame sqrt (b.sub a)))]
  else []

/-- Value of a decimal digit character. -/
def digitValue (c : Char) : Nat := c.toNat - 48

/-- The call acts on the node at `path`: it sets its object or transform, or deletes a
node the path lies under. -/
def Call.touches {K : Type} (c : Call K) (path : String) : Prop :=
  match c with
  | Call.set_object q _ _ => q = path
  | Call.set_transform q _ => q = path
  | Call.delete_object q => pathUnder q path = true
  | Call.GetHeight _ _ => False

/-! ## Theorems: decimal rendering and paths -/

theorem digitValue_digitChar (d : Nat) (h : d < 10) : digitValue (Nat.digitChar d) = d := by
  interval_cases d <;> rfl

theorem digitChar_ne_slash (d : Nat) (h : d < 10) : Nat.digitChar d ≠ '/' := by
  interval_cases d <;> decide

theorem toDigitsCore_value (fuel : Nat) : ∀ (n : Nat) (ds : List Char), n < fuel →
    (Nat.toDigitsCore 10 fuel n ds).foldl (fun a c => a * 10 + digitValue c) 0
      = ds.foldl (fun a c => a * 10 + digitValue c) n := by
  induction fuel with
  | zero => intro n ds h; omega
  | succ fuel ih =>
    intro n ds h
    have hn : n / 10 * 10 + n % 10 = n := by
      have := Nat.div_add_mod n 10
      omega
    simp only [Nat.toDigitsCore]
    split_ifs with h0
    · simp only [List.foldl_cons, zero_mul, zero_add]
      rw [digitValue_digitChar _ (Nat.mod_lt _ (by norm_num))]
      congr 1
      omega
    · rw [ih (n / 10) _ (by omega)]
      simp only [List.foldl_cons]
      rw [digitValue_digitChar _ (Nat.mod_lt _ (by norm_num)), hn]

theorem toDigitsCore_no_slash (fuel : Nat) : ∀ (n : Nat) (ds : List Char), '/' ∉ ds →
    '/' ∉ Nat.toDigitsCore 10 fuel n ds := by
  induction fuel with
  | zero => intro n ds h; simpa [Nat.toDigitsCore] using h
  | succ fuel ih =>
    intro n ds h
    have hd : '/' ∉ Nat.digitChar (n % 10) :: ds := by
      simp only [List.mem_cons, not_or]
      exact ⟨(digitChar_ne_slash _ (Nat.mod_lt _ (by norm_num))).symm, h⟩
    simp only [Nat.toDigitsCore]
    split_ifs with h0
    · exact hd
    · exact ih _ _ hd

theorem toString_nat_data (n : Nat) : (toString n).data = Nat.toDigits 10 n := rfl

/-- `std::to_string` on non-negative integers is injective. -/
theorem toString_nat_injective (a b : Nat) (h : toString a = toString b) : a = b := by
  have h1 : Nat.toDigits 10 a = Nat.toDigits 10 b := by
    rw [← toString_nat_data, ← toString_nat_data]; exact congrArg String.data h
  have h2 := congrArg (List.foldl (fun a c => a * 10 + digitValue c) 0) h1
  simp only [Nat.toDigits] at h2
  rw [toDigitsCore_value _ _ _ (by omega), toDigitsCore_value _ _ _ (by omega)] at h2
  simpa using h2

theorem toString_nat_no_slash (n : Nat) : '/' ∉ (toString n).data := by
  rw [toString_nat_data]
  exact toDigitsCore_no_slash _ _ _ (by simp)

/-- Two indexed paths with the same stem and different indices are different. -/
theorem indexed_path_ne (stem : String) (i j : Nat) (h : i ≠ j) :
    stem ++ toString i ≠ stem ++ toString j := by
  intro he
  have hd := congrArg String.data he
  simp only [String.data_append] at hd
  have hs : toString i = toString j := String.ext (List.append_cancel_left hd)
  exact h (toString_nat_injective i j hs)

/-- An indexed path does not lie below the path of a different index. -/
theorem indexed_path_not_under (stem : String) (i j : Nat) (h : i ≠ j) :
    pathUnder (stem ++ toString j) (stem ++ toString i) = false := by
  simp only [pathUnder, Bool.or_eq_false_iff, decide_eq_false_iff_not]
  refine ⟨indexed_path_ne stem i j h, ?_⟩
  intro hp
  simp only [String.data_append, List.append_assoc] at hp
  have hp2 := (List.prefix_append_right_inj _).mp hp
  have hmem : '/' ∈ (toString i).data := hp2.subset (by simp)
  exact toString_nat_no_slash i hmem

/-! ## Theorems: the transform builder -/

/-- Every entry of the array produced by `EigenToMeshcatTransform`. -/
theorem EigenToMeshcatTransform_entries {K : Type} [Zero K] [One K]
    (p : Vector3d K) (R : Matrix3d K) :
    EigenToMeshcatTransform p R =
      [R.col0.x, R.col0.y, R.col0.z, p.x, R.col1.x, R.col1.y, R.col1.z, p.y,
       R.col2.x, R.col2.y, R.col2.z, p.z, 0, 0, 0, 1] := by
  simp [EigenToMeshcatTransform, List.range, List.range.loop, Matrix3d.coeff, Matrix3d.col,
    Vector3d.coeff, List.replicate]

/-- C1 (evaluation at the failing input): for `p = (1, 2, 3)` and the identity rotation
the entries at indices 12, 13, 14 of the array are `0, 0, 0`, not `p.x, p.y, p.z`; only
index 15 holds the `1` the claim expects. -/
theorem EigenToMeshcatTransform_column3_at_123 :
    (EigenToMeshcatTransform (⟨1, 2, 3⟩ : Vector3d ℚ) Matrix3d.Identity)[12]? = some 0 ∧
    (EigenToMeshcatTransform (⟨1, 2, 3⟩ : Vector3d ℚ) Matrix3d.Identity)[13]? = some 0 ∧
    (EigenToMeshcatTransform (⟨1, 2, 3⟩ : Vector3d ℚ) Matrix3d.Identity)[14]? = some 0 ∧
    (EigenToMeshcatTransform (⟨1, 2, 3⟩ : Vector3d ℚ) Matrix3d.Identity)[15]? = some 1 := by
  simp [EigenToMeshcatTransform_entries]

/-- C2 (evaluation at the failing input): for `p = (1, 2, 3)` and the identity rotation
the bottom row of the column-major matrix, indices 3, 7, 11, 15, is `(1, 2, 3, 1)`, that
is `(p, 1)`, not `(0, 0, 0, 1)`. -/
theorem EigenToMeshcatTransform_bottom_row_at_123 :
    (EigenToMeshcatTransform (⟨1, 2, 3⟩ : Vector3d ℚ) Matrix3d.Identity)[3]? = some 1 ∧
    (EigenToMeshcatTransform (⟨1, 2, 3⟩ : Vector3d ℚ) Matrix3d.Identity)[7]? = some 2 ∧
    (EigenToMeshcatTransform (⟨1, 2, 3⟩ : Vector3d ℚ) Matrix3d.Identity)[11]? = some 3 ∧
    (EigenToMeshcatTransform (⟨1, 2, 3⟩ : Vector3d ℚ) Matrix3d.Identity)[15]? = some 1 := by
  simp [EigenToMeshcatTransform_entries, Matrix3d.Identity]

/-- C3: for every position `p` and every 3x3 matrix `R`, the entry at index `4*c + r` of
`EigenToMeshcatTransform p R` is `R(r, c)` for all `r, c` in `{0, 1, 2}`; with the default
(identity) rotation that entry is `1` when `r = c` and `0` otherwise. -/
theorem EigenToMeshcatTransform_rotation_block {K : Type} [Zero K] [One K]
    (p : Vector3d K) (R : Matrix3d K) (r c : Fin 3) :
    (EigenToMeshcatTransform p R)[4 * c.val + r.val]? = some (R.coeff r.val c.val) ∧
    (EigenToMeshcatTransformDefault p)[4 * c.val + r.val]? =
      some (if r = c then 1 else 0) := by
  rw [EigenToMeshcatTransformDefault, EigenToMeshcatTransform_entries,
    EigenToMeshcatTransform_entries]
  fin_cases r <;> fin_cases c <;>
    simp [Matrix3d.coeff, Matrix3d.col, Vector3d.coeff, Matrix3d.Identity]

/-! ## Theorems: the frame construction, over the reals -/

theorem Vector3d.squaredNorm_pos (v : Vector3d ℝ) (hv : v ≠ ⟨0, 0, 0⟩) :
    0 < v.squaredNorm := by
  obtain ⟨a, b, c⟩ := v
  simp only [Vector3d.squaredNorm, Vector3d.dot]
  by_contra hle
  have ha : a = 0 := by nlinarith [mul_self_nonneg a, mul_self_nonneg b, mul_self_nonneg c]
  have hb : b = 0 := by nlinarith [mul_self_nonneg a, mul_self_nonneg b, mul_self_nonneg c]
  have hc : c = 0 := by nlinarith [mul_self_nonneg a, mul_self_nonneg b, mul_self_nonneg c]
  exact hv (by rw [ha, hb, hc])

theorem Vector3d.normalized_of_pos (v : Vector3d ℝ) (h : 0 < v.squaredNorm) :
    v.normalized Real.sqrt = Vector3d.smul (1 / v.norm Real.sqrt) v := by
  simp only [Vector3d.normalized, if_pos h, Vector3d.smul, Vector3d.norm]
  congr 1 <;> ring

theorem Vector3d.squaredNorm_normalized (v : Vector3d ℝ) (h : 0 < v.squaredNorm) :
    (v.normalized Real.sqrt).squaredNorm = 1 := by
  have hs : Real.sqrt v.squaredNorm * Real.sqrt v.squaredNorm = v.squaredNorm :=
    Real.mul_self_sqrt h.le
  have hpos : 0 < Real.sqrt v.squaredNorm := Real.sqrt_pos.mpr h
  simp only [Vector3d.normalized, if_pos h]
  simp only [Vector3d.squaredNorm, Vector3d.dot] at hs hpos ⊢
  generalize Real.sqrt (v.x * v.x + v.y * v.y + v.z * v.z) = s at hs hpos
  have hsum : v.x / s * (v.x / s) + v.y / s * (v.y / s) + v.z / s * (v.z / s)
      = (v.x * v.x + v.y * v.y + v.z * v.z) / (s * s) := by ring
  rw [hsum, hs, ← hs]
  exact div_self (mul_pos hpos hpos).ne.symm

theorem Vector3d.normalized_dot (v w : Vector3d ℝ) (h : 0 < v.squaredNorm) :
    (v.normalized Real.sqrt).dot w = v.dot w / Real.sqrt v.squaredNorm := by
  simp only [Vector3d.normalized, if_pos h, Vector3d.dot]
  ring

/-- The cross product of a unit vector with the reference axis chosen for it has
squared length above `0.19`. -/
theorem cross_referenceAxis_squaredNorm (z : Vector3d ℝ) (hz : z.squaredNorm = 1) :
    0.19 < (z.cross (referenceAxis z)).squaredNorm := by
  obtain ⟨a, b, c⟩ := z
  simp only [Vector3d.squaredNorm, Vector3d.dot] at hz
  unfold referenceAxis
  split_ifs with h
  · simp only [Vector3d.dot, Vector3d.UnitX, mul_one, mul_zero, add_zero] at h
    simp only [Vector3d.squaredNorm, Vector3d.dot, Vector3d.cross, Vector3d.UnitX]
    have h1 := abs_lt.mp h
    norm_num at h1 ⊢
    nlinarith [h1.1, h1.2]
  · simp only [Vector3d.dot, Vector3d.UnitX, mul_one, mul_zero, add_zero, not_lt] at h
    simp only [Vector3d.squaredNorm, Vector3d.dot, Vector3d.cross, Vector3d.UnitY]
    have h1 := le_abs.mp h
    norm_num at h1 ⊢
    rcases h1 with h1 | h1 <;> nlinarith [mul_self_nonneg c]

/-- The frame about a unit axis: its columns have squared length one, are pairwise
orthogonal, and the first two multiply (cross product) to the third. -/
theorem FrameAboutAxis_spec (z : Vector3d ℝ) (hz : z.squaredNorm = 1) :
    (FrameAboutAxis Real.sqrt z).col2 = z ∧
    (FrameAboutAxis Real.sqrt z).col0.squaredNorm = 1 ∧
    (FrameAboutAxis Real.sqrt z).col1.squaredNorm = 1 ∧
    (FrameAboutAxis Real.sqrt z).col0.dot (FrameAboutAxis Real.sqrt z).col1 = 0 ∧
    (FrameAboutAxis Real.sqrt z).col0.dot z = 0 ∧
    (FrameAboutAxis Real.sqrt z).col1.dot z = 0 ∧
    (FrameAboutAxis Real.sqrt z).col0.cross (FrameAboutAxis Real.sqrt z).col1 = z := by
  have hw : 0 < (z.cross (referenceAxis z)).squaredNorm :=
    lt_trans (by norm_num) (cross_referenceAxis_squaredNorm z hz)
  have hy1 := Vector3d.squaredNorm_normalized _ hw
  have hyz : ((z.cross (referenceAxis z)).normalized Real.sqrt).dot z = 0 := by
    rw [Vector3d.normalized_dot _ _ hw]
    have : (z.cross (referenceAxis z)).dot z = 0 := by
      simp only [Vector3d.dot, Vector3d.cross]; ring
    rw [this, zero_div]
  simp only [FrameAboutAxis]
  generalize (z.cross (referenceAxis z)).normalized Real.sqrt = y at hy1 hyz
  obtain ⟨a, b, c⟩ := z
  obtain ⟨u, v, w⟩ := y
  simp only [Vector3d.squaredNorm, Vector3d.dot, Vector3d.cross] at hz hy1 hyz ⊢
  refine ⟨trivial, ?_, hy1, by ring, by ring, hyz, ?_⟩
  · linear_combination (a * a + b * b + c * c) * hy1 + hz - (u * a + v * b + w * c) * hyz
  · have e1 : (w * a - u * c) * w - (u * b - v * a) * v = a := by
      linear_combination a * hy1 - u * hyz
    have e2 : (u * b - v * a) * u - (v * c - w * b) * w = b := by
      linear_combination b * hy1 - v * hyz
    have e3 : (v * c - w * b) * v - (w * a - u * c) * u = c := by
      linear_combination c * hy1 - w * hyz
    rw [e1, e2, e3]

theorem BuildFrame_axis_unit (v : Vector3d ℝ) (hv : v ≠ ⟨0, 0, 0⟩) :
    (v.normalized Real.sqrt).squaredNorm = 1 :=
  Vector3d.squaredNorm_normalized v (Vector3d.squaredNorm_pos v hv)

theorem BuildFrame_at_unitX :
    BuildFrame Real.sqrt (⟨1, 0, 0⟩ : Vector3d ℝ) = ⟨⟨0, 1, 0⟩, ⟨0, 0, 1⟩, ⟨1, 0, 0⟩⟩ := by
  have hn : (⟨1, 0, 0⟩ : Vector3d ℝ).normalized Real.sqrt = ⟨1, 0, 0⟩ := by
    simp [Vector3d.normalized, Vector3d.squaredNorm, Vector3d.dot]
  have hr : referenceAxis (⟨1, 0, 0⟩ : Vector3d ℝ) = ⟨0, 1, 0⟩ := by
    simp only [referenceAxis, Vector3d.dot, Vector3d.UnitX, Vector3d.UnitY]
    norm_num
  have hy : (⟨0, 0, 1⟩ : Vector3d ℝ).normalized Real.sqrt = ⟨0, 0, 1⟩ := by
    simp [Vector3d.normalized, Vector3d.squaredNorm, Vector3d.dot]
  simp only [BuildFrame, FrameAboutAxis, hn, hr]
  simp only [Vector3d.cross, mul_zero, mul_one, sub_zero, sub_self, zero_mul, hy]

/-- C4: for every non-zero vector `v`, the three columns `x_axis`, `y_axis`, `z_axis` of
the frame built from `v` have length one and are pairwise orthogonal (all three dot
products are zero), over exact real arithmetic. -/
theorem BuildFrame_orthonormal (v : Vector3d ℝ) (hv : v ≠ ⟨0, 0, 0⟩) :
    (BuildFrame Real.sqrt v).col0.norm Real.sqrt = 1 ∧
    (BuildFrame Real.sqrt v).col1.norm Real.sqrt = 1 ∧
    (BuildFrame Real.sqrt v).col2.norm Real.sqrt = 1 ∧
    (BuildFrame Real.sqrt v).col0.dot (BuildFrame Real.sqrt v).col1 = 0 ∧
    (BuildFrame Real.sqrt v).col0.dot (BuildFrame Real.sqrt v).col2 = 0 ∧
    (BuildFrame Real.sqrt v).col1.dot (BuildFrame Real.sqrt v).col2 = 0 := by
  have hz := BuildFrame_axis_unit v hv
  obtain ⟨h2, hx, hy, hxy, hxz, hyz, -⟩ := FrameAboutAxis_spec _ hz
  simp only [BuildFrame, Vector3d.norm]
  rw [hx, hy, h2, hz, Real.sqrt_one]
  exact ⟨rfl, rfl, rfl, hxy, hxz, hyz⟩

theorem BuildFrame_orthonormal_witness :
    (⟨3, 0, 4⟩ : Vector3d ℝ) ≠ ⟨0, 0, 0⟩ ∧
    (BuildFrame Real.sqrt (⟨3, 0, 4⟩ : Vector3d ℝ)).col0.norm Real.sqrt = 1 ∧
    (BuildFrame Real.sqrt (⟨3, 0, 4⟩ : Vector3d ℝ)).col1.norm Real.sqrt = 1 ∧
    (BuildFrame Real.sqrt (⟨3, 0, 4⟩ : Vector3d ℝ)).col2.norm Real.sqrt = 1 ∧
    (BuildFrame Real.sqrt (⟨3, 0, 4⟩ : Vector3d ℝ)).col0.dot
      (BuildFrame Real.sqrt (⟨3, 0, 4⟩ : Vector3d ℝ)).col1 = 0 ∧
    (BuildFrame Real.sqrt (⟨3, 0, 4⟩ : Vector3d ℝ)).col0.dot
      (BuildFrame Real.sqrt (⟨3, 0, 4⟩ : Vector3d ℝ)).col2 = 0 ∧
    (BuildFrame Real.sqrt (⟨3, 0, 4⟩ : Vector3d ℝ)).col1.dot
      (BuildFrame Real.sqrt (⟨3, 0, 4⟩ : Vector3d ℝ)).col2 = 0 :=
  ⟨by simp, BuildFrame_orthonormal ⟨3, 0, 4⟩ (by simp)⟩

/-- C5: for every non-zero vector `v`, the frame built from `v` is right-handed with
determinant `+1`: `x_axis × y_axis = z_axis`, the axes being columns 0, 1, 2. -/
theorem BuildFrame_right_handed (v : Vector3d ℝ) (hv : v ≠ ⟨0, 0, 0⟩) :
    (BuildFrame Real.sqrt v).col0.cross (BuildFrame Real.sqrt v).col1
      = (BuildFrame Real.sqrt v).col2 ∧
    (BuildFrame Real.sqrt v).determinant = 1 := by
  have hz := BuildFrame_axis_unit v hv
  obtain ⟨h2, -, -, -, -, -, hc⟩ := FrameAboutAxis_spec _ hz
  simp only [BuildFrame, Matrix3d.determinant]
  rw [hc, h2]
  exact ⟨rfl, hz⟩

theorem BuildFrame_right_handed_witness :
    (⟨0, 2, 0⟩ : Vector3d ℝ) ≠ ⟨0, 0, 0⟩ ∧
    (BuildFrame Real.sqrt (⟨0, 2, 0⟩ : Vector3d ℝ)).col0.cross
      (BuildFrame Real.sqrt (⟨0, 2, 0⟩ : Vector3d ℝ)).col1
      = (BuildFrame Real.sqrt (⟨0, 2, 0⟩ : Vector3d ℝ)).col2 ∧
    (BuildFrame Real.sqrt (⟨0, 2, 0⟩ : Vector3d ℝ)).determinant = 1 :=
  ⟨by simp, BuildFrame_right_handed ⟨0, 2, 0⟩ (by simp)⟩

/-- C6: for every non-zero `forward`, the third column of the frame is
`z = forward / |forward|`; the reference axis is world X exactly when `|z·X| < 0.9` and
world Y exactly when `|z·X| ≥ 0.9`; the second column is `normalize(z × reference)` and
the first is `y × z`; and `forward = (1, 0, 0)` gives `x = (0, 1, 0)`, `y = (0, 0, 1)`,
`z = (1, 0, 0)`. -/
theorem BuildFrame_reference_axis (forward : Vector3d ℝ) (hf : forward ≠ ⟨0, 0, 0⟩) :
    (BuildFrame Real.sqrt forward).col2 =
      ⟨forward.x / forward.norm Real.sqrt, forward.y / forward.norm Real.sqrt,
       forward.z / forward.norm Real.sqrt⟩ ∧
    (referenceAxis (BuildFrame Real.sqrt forward).col2 = Vector3d.UnitX ↔
      |(BuildFrame Real.sqrt forward).col2.dot Vector3d.UnitX| < 0.9) ∧
    (referenceAxis (BuildFrame Real.sqrt forward).col2 = Vector3d.UnitY ↔
      0.9 ≤ |(BuildFrame Real.sqrt forward).col2.dot Vector3d.UnitX|) ∧
    (BuildFrame Real.sqrt forward).col1 =
      ((BuildFrame Real.sqrt forward).col2.cross
        (referenceAxis (BuildFrame Real.sqrt forward).col2)).normalized Real.sqrt ∧
    (BuildFrame Real.sqrt forward).col0 =
      (BuildFrame Real.sqrt forward).col1.cross (BuildFrame Real.sqrt forward).col2 ∧
    BuildFrame Real.sqrt (⟨1, 0, 0⟩ : Vector3d ℝ) = ⟨⟨0, 1, 0⟩, ⟨0, 0, 1⟩, ⟨1, 0, 0⟩⟩ := by
  have hpos := Vector3d.squaredNorm_pos forward hf
  have hXY : (Vector3d.UnitX : Vector3d ℝ) ≠ Vector3d.UnitY := by
    simp [Vector3d.UnitX, Vector3d.UnitY]
  refine ⟨?_, ?_, ?_, rfl, rfl, BuildFrame_at_unitX⟩
  · simp only [BuildFrame, FrameAboutAxis, Vector3d.normalized, if_pos hpos, Vector3d.norm]
  · unfold referenceAxis
    split_ifs with h
    · simp [h]
    · simp [h, hXY.symm]
  · unfold referenceAxis
    split_ifs with h
    · simp only [hXY, false_iff, not_le]; exact h
    · simp only [true_iff]; exact not_lt.mp h

theorem BuildFrame_reference_axis_witness :
    (⟨1, 0, 0⟩ : Vector3d ℝ) ≠ ⟨0, 0, 0⟩ ∧
    (referenceAxis (BuildFrame Real.sqrt (⟨1, 0, 0⟩ : Vector3d ℝ)).col2 = Vector3d.UnitY ↔
      0.9 ≤ |(BuildFrame Real.sqrt (⟨1, 0, 0⟩ : Vector3d ℝ)).col2.dot Vector3d.UnitX|) :=
  ⟨by simp, (BuildFrame_reference_axis ⟨1, 0, 0⟩ (by simp)).2.2.1⟩

/-! ## Theorems: force arrows -/

theorem forRange_eq_some {K : Type} (body : Nat → Option (List (Call K)))
    (f : Nat → List (Call K)) : ∀ n : Nat, (∀ i < n, body i = some (f i)) →
    forRange n body = some ((List.range n).map f).flatten := by
  intro n
  induction n with
  | zero => intro _; rfl
  | succ n ih =>
    intro h
    simp only [forRange]
    rw [ih (fun i hi => h i (Nat.lt_succ_of_lt hi)), h n (Nat.lt_succ_self n)]
    simp [List.range_succ]

theorem arrow_length_gt {K : Type} [LinearOrderedField K] (m : K) (h : m > 1e-3) :
    m * 0.001 > 1e-6 := by
  norm_num at h ⊢
  linarith

/-- With arrays of the expected length, `UpdateForceVisualization` issues, for
`ee = 0, ..., n-1` in order, the calls of `forceArrowCalls`. -/
theorem UpdateForceVisualization_eq {K : Type} [LinearOrderedField K]
    (self : MeshcatVisualizer K) (sqrt : K → K) (n : Nat)
    (ee_positions ee_forces : List (Vector3d K)) (contact_states : List Bool)
    (hn : self.n_ee_ = n) (hp : ee_positions.length = n) (hf : ee_forces.length = n)
    (hc : contact_states.length = n) :
    UpdateForceVisualization self sqrt ee_positions ee_forces contact_states =
      some ((List.range n).map (fun i => forceArrowCalls sqrt i
        (contact_states.getD i false) (ee_forces.getD i ⟨0, 0, 0⟩)
        (ee_positions.getD i ⟨0, 0, 0⟩))).flatten := by
  unfold UpdateForceVisualization
  have hmin : (min self.n_ee_ (ee_forces.length : Int)).toNat = n := by
    rw [hn, hf]; simp
  rw [hmin]
  apply forRange_eq_some
  intro i hi
  have hci : contact_states[i]? = some (contact_states.getD i false) := by
    rw [List.getD_eq_getElem?_getD, List.getElem?_eq_getElem (by omega)]; rfl
  have hfi : ee_forces[i]? = some (ee_forces.getD i ⟨0, 0, 0⟩) := by
    rw [List.getD_eq_getElem?_getD, List.getElem?_eq_getElem (by omega)]; rfl
  have hpi : ee_positions[i]? = some (ee_positions.getD i ⟨0, 0, 0⟩) := by
    rw [List.getD_eq_getElem?_getD, List.getElem?_eq_getElem (by omega)]; rfl
  rw [hci, hfi, hpi]
  generalize contact_states.getD i false = c
  generalize ee_forces.getD i ⟨0, 0, 0⟩ = f
  generalize ee_positions.getD i ⟨0, 0, 0⟩ = q
  have hic : i < contact_states.length := by omega
  have hif : i < ee_forces.length := by omega
  simp only [hic, hif, if_true, forceArrowCalls]
  cases c
  · simp
  · by_cases hm : f.norm sqrt > 1e-3
    · have := arrow_length_gt _ hm
      simp [hm, this, BuildFrame]
    · simp [hm]

theorem Scene.run_append {K : Type} (s : Scene K) (a b : List (Call K)) :
    s.run (a ++ b) = (s.run a).run b := by
  simp [Scene.run, List.foldl_append]

/-- Blocks of calls indexed by `0, ..., n-1`, run in order: an observation `proj i` that
block `i` fixes to `v i` and the other blocks leave alone ends up as `v i`. -/
theorem Scene.run_blocks {K α : Type} (g : Nat → List (Call K))
    (proj : Nat → Scene K → α) (v : Nat → α)
    (hother : ∀ i j, i ≠ j → ∀ s : Scene K, proj i (s.run (g j)) = proj i s)
    (hself : ∀ (i : Nat) (s : Scene K), proj i (s.run (g i)) = v i) :
    ∀ (n : Nat) (s : Scene K) (i : Nat), i < n →
      proj i (s.run ((List.range n).map g).flatten) = v i := by
  intro n
  induction n with
  | zero => intro s i hi; omega
  | succ n ih =>
    intro s i hi
    rw [List.range_succ, List.map_append, List.flatten_append, Scene.run_append]
    simp only [List.map_cons, List.map_nil, List.flatten_cons, List.flatten_nil,
      List.append_nil]
    by_cases hin : i = n
    · subst hin; exact hself i _
    · rw [hother i n hin]
      exact ih s i (by omega)

theorem pathUnder_self (p : String) : pathUnder p p = true := by
  simp [pathUnder]

/-- The calls for end-effector `j` leave the node of another end-effector as it was. -/
theorem forceArrowCalls_other {K : Type} [LinearOrderedField K] (sqrt : K → K)
    (i j : Nat) (h : i ≠ j) (c : Bool) (f q : Vector3d K) (s : Scene K) :
    (s.run (forceArrowCalls sqrt j c f q)).objects ("forces/force_" ++ toString i)
      = s.objects ("forces/force_" ++ toString i) ∧
    (s.run (forceArrowCalls sqrt j c f q)).transforms ("forces/force_" ++ toString i)
      = s.transforms ("forces/force_" ++ toString i) := by
  have hne := indexed_path_ne "forces/force_" i j h
  have hnu := indexed_path_not_under "forces/force_" i j h
  unfold forceArrowCalls
  split_ifs with hcond
  · simp [Scene.run, Scene.apply, hne]
  · simp [Scene.run, Scene.apply, hnu]

/-- The calls for end-effector `i` fix its node: the arrow when in contact with a force
above the threshold, nothing otherwise. -/
theorem forceArrowCalls_self {K : Type} [LinearOrderedField K] (sqrt : K → K)
    (i : Nat) (c : Bool) (f q : Vector3d K) (s : Scene K) :
    (s.run (forceArrowCalls sqrt i c f q)).objects ("forces/force_" ++ toString i)
      = (if c = true ∧ f.norm sqrt > 1e-3 then
          some (Shape.Cylinder 0.005 (f.norm sqrt * 0.001), force_material_) else none) ∧
    (s.run (forceArrowCalls sqrt i c f q)).transforms ("forces/force_" ++ toString i)
      = (if c = true ∧ f.norm sqrt > 1e-3 then
          some (EigenToMeshcatTransform
            (q.add (Vector3d.smul (0.5 * (f.norm sqrt * 0.001)) (f.normalized sqrt)))
            (BuildFrame sqrt f)) else none) := by
  unfold forceArrowCalls
  split_ifs with hcond
  · simp [Scene.run, Scene.apply]
  · simp [Scene.run, Scene.apply, pathUnder_self]

/-- C7: for every prior scene, every end-effector count `n` and every sample whose
position, force and contact arrays all have length `n`, `UpdateForceVisualization`
returns, and afterwards a node exists at `forces/force_i`, for each `i < n`, if and only
if `contact[i]` is true and `|force[i]| > 1e-3`. -/
theorem UpdateForceVisualization_node_exists {K : Type} [LinearOrderedField K]
    (self : MeshcatVisualizer K) (sqrt : K → K) (scene : Scene K) (n : Nat)
    (ee_positions ee_forces : List (Vector3d K)) (contact_states : List Bool)
    (hn : self.n_ee_ = n) (hp : ee_positions.length = n) (hf : ee_forces.length = n)
    (hc : contact_states.length = n) :
    ∃ calls, UpdateForceVisualization self sqrt ee_positions ee_forces contact_states
        = some calls ∧
      ∀ i, i < n →
        ((scene.run calls).exists_node ("forces/force_" ++ toString i) = true ↔
          (contact_states[i]? = some true ∧
            ∃ f, ee_forces[i]? = some f ∧ f.norm sqrt > 1e-3)) := by
  refine ⟨_, UpdateForceVisualization_eq self sqrt n _ _ _ hn hp hf hc, ?_⟩
  intro i hi
  have hrun := Scene.run_blocks
    (fun i => forceArrowCalls sqrt i (contact_states.getD i false)
      (ee_forces.getD i ⟨0, 0, 0⟩) (ee_positions.getD i ⟨0, 0, 0⟩))
    (fun i s => s.objects ("forces/force_" ++ toString i))
    (fun i => if contact_states.getD i false = true ∧
        (ee_forces.getD i ⟨0, 0, 0⟩).norm sqrt > 1e-3 then
      some (Shape.Cylinder 0.005 ((ee_forces.getD i ⟨0, 0, 0⟩).norm sqrt * 0.001),
        force_material_) else none)
    (fun i j hij s => (forceArrowCalls_other sqrt i j hij _ _ _ s).1)
    (fun i s => (forceArrowCalls_self sqrt i _ _ _ s).1) n scene i hi
  have hci : contact_states[i]? = some (contact_states.getD i false) := by
    rw [List.getD_eq_getElem?_getD, List.getElem?_eq_getElem (by omega)]; rfl
  have hfi : ee_forces[i]? = some (ee_forces.getD i ⟨0, 0, 0⟩) := by
    rw [List.getD_eq_getElem?_getD, List.getElem?_eq_getElem (by omega)]; rfl
  simp only [Scene.exists_node, hrun, hci, hfi, Option.some.injEq, exists_eq_left']
  split_ifs with hcond
  · simpa using hcond
  · simpa using hcond

theorem norm_005_gt : Vector3d.norm Real.sqrt (⟨0, 0, 5⟩ : Vector3d ℝ) > 1e-3 := by
  have h5 : Real.sqrt (5 * 5) = 5 := Real.sqrt_mul_self (by norm_num)
  simp only [Vector3d.norm, Vector3d.squaredNorm, Vector3d.dot, mul_zero, zero_add, h5]
  norm_num

theorem UpdateForceVisualization_node_exists_witness :
    ∃ calls, UpdateForceVisualization (⟨2, none⟩ : MeshcatVisualizer ℝ) Real.sqrt
        [⟨0, 0, 0⟩, ⟨1, 0, 0⟩] [⟨0, 0, 5⟩, ⟨0, 0, 5⟩] [true, false] = some calls ∧
      (Scene.empty.run calls).exists_node "forces/force_0" = true ∧
      (Scene.empty.run calls).exists_node "forces/force_1" = false := by
  obtain ⟨calls, hcalls, hiff⟩ := UpdateForceVisualization_node_exists
    (⟨2, none⟩ : MeshcatVisualizer ℝ) Real.sqrt Scene.empty 2
    [⟨0, 0, 0⟩, ⟨1, 0, 0⟩] [⟨0, 0, 5⟩, ⟨0, 0, 5⟩] [true, false] rfl rfl rfl rfl
  refine ⟨calls, hcalls, ?_, ?_⟩
  · exact (hiff 0 (by norm_num)).mpr ⟨rfl, ⟨0, 0, 5⟩, rfl, norm_005_gt⟩
  · have h1 := hiff 1 (by norm_num)
    cases hex : (Scene.empty.run calls).exists_node "forces/force_1" with
    | false => rfl
    | true =>
      have h2 := (h1.mp hex).1
      simp at h2

/-! ## Theorems: double arithmetic -/

theorem floorLog2Aux_eq : ∀ (fuel n : Nat), n ≤ fuel → floorLog2Aux fuel n = Nat.log2 n := by
  intro fuel
  induction fuel with
  | zero =>
    intro n hn
    have : n = 0 := by omega
    subst this
    simp [floorLog2Aux, Nat.log2_zero]
  | succ fuel ih =>
    intro n hn
    rw [floorLog2Aux, Nat.log2]
    split_ifs with h
    · rw [ih (n / 2) (by omega)]
    · rfl

theorem floorLog2_eq (n : Nat) : floorLog2 n = Nat.log2 n := floorLog2Aux_eq n n (le_refl n)

theorem roundHalfEven_intCast {K : Type} [LinearOrderedField K] [FloorRing K] (n : Int) : roundHalfEven (n : K) = n := by
  simp [roundHalfEven]

theorem floor_le_roundHalfEven {K : Type} [LinearOrderedField K] [FloorRing K] (q : K) : ⌊q⌋ ≤ roundHalfEven q := by
  unfold roundHalfEven
  split_ifs <;> omega

theorem roundHalfEven_le_floor_add_one {K : Type} [LinearOrderedField K] [FloorRing K] (q : K) : roundHalfEven q ≤ ⌊q⌋ + 1 := by
  unfold roundHalfEven
  split_ifs <;> omega

theorem roundHalfEven_mono {K : Type} [LinearOrderedField K] [FloorRing K] {a b : K} (h : a ≤ b) : roundHalfEven a ≤ roundHalfEven b := by
  rcases (Int.floor_mono h).lt_or_eq with hlt | heq
  · exact le_trans (roundHalfEven_le_floor_add_one a)
      (le_trans (by omega) (floor_le_roundHalfEven b))
  · unfold roundHalfEven
    rw [← heq]
    have hd : a - ⌊a⌋ ≤ b - ⌊a⌋ := by linarith
    split_ifs <;> first | omega | (exfalso; linarith)

theorem binaryExponent_spec {K : Type} [LinearOrderedField K] [FloorRing K] (q : K) (hq : 0 < q) :
    (2 : K) ^ binaryExponent q ≤ q ∧ q < (2 : K) ^ (binaryExponent q + 1) := by
  unfold binaryExponent
  simp only [floorLog2_eq]
  split_ifs with h1
  · have hn : ⌊q⌋₊ ≠ 0 := (Nat.floor_pos.mpr h1).ne'
    constructor
    · have h2 := Nat.log2_self_le hn
      have h3 : ((2 ^ (⌊q⌋₊).log2 : ℕ) : K) ≤ (⌊q⌋₊ : K) := by exact_mod_cast h2
      rw [zpow_natCast]
      push_cast at h3
      exact le_trans h3 (Nat.floor_le hq.le)
    · have h2 : ⌊q⌋₊ + 1 ≤ 2 ^ ((⌊q⌋₊).log2 + 1) := Nat.lt_log2_self
      have h3 : ((⌊q⌋₊ + 1 : ℕ) : K) ≤ ((2 ^ ((⌊q⌋₊).log2 + 1) : ℕ) : K) := by exact_mod_cast h2
      have h4 : (((⌊q⌋₊).log2 : ℤ) + 1) = (((⌊q⌋₊).log2 + 1 : ℕ) : ℤ) := by push_cast; ring
      rw [h4, zpow_natCast]
      push_cast at h3
      exact lt_of_lt_of_le (Nat.lt_floor_add_one q) h3
  · have hq1 : q < 1 := not_le.mp h1
    have hinv : 1 < q⁻¹ := (one_lt_inv₀ hq).mpr hq1
    have hN : 1 < ⌈q⁻¹⌉₊ := Nat.lt_ceil.mpr (by exact_mod_cast hinv)
    have hM : ⌈q⁻¹⌉₊ - 1 ≠ 0 := by omega
    have hpos : (0 : K) < 2 ^ ((⌈q⁻¹⌉₊ - 1).log2 + 1) := by positivity
    have hpos2 : (0 : K) < 2 ^ ((⌈q⁻¹⌉₊ - 1).log2) := by positivity
    constructor
    · have h2 : ⌈q⁻¹⌉₊ ≤ 2 ^ ((⌈q⁻¹⌉₊ - 1).log2 + 1) := by
        have := @Nat.lt_log2_self (⌈q⁻¹⌉₊ - 1)
        omega
      have h3 : ((⌈q⁻¹⌉₊ : ℕ) : K) ≤ ((2 ^ ((⌈q⁻¹⌉₊ - 1).log2 + 1) : ℕ) : K) := by
        exact_mod_cast h2
      push_cast at h3
      have h4 : q⁻¹ ≤ 2 ^ ((⌈q⁻¹⌉₊ - 1).log2 + 1) := le_trans (Nat.le_ceil _) h3
      have h5 : -(((⌈q⁻¹⌉₊ - 1).log2 : ℤ) + 1) = -(((⌈q⁻¹⌉₊ - 1).log2 + 1 : ℕ) : ℤ) := by
        push_cast; ring
      rw [h5, zpow_neg, zpow_natCast]
      exact (inv_le_comm₀ hq hpos).mp h4
    · have h2 := Nat.log2_self_le hM
      have h3 : ((2 ^ (⌈q⁻¹⌉₊ - 1).log2 : ℕ) : K) ≤ ((⌈q⁻¹⌉₊ - 1 : ℕ) : K) := by
        exact_mod_cast h2
      have h4 : ((⌈q⁻¹⌉₊ - 1 : ℕ) : K) < q⁻¹ := Nat.lt_ceil.mp (by omega)
      push_cast at h3
      have h5 : (2 : K) ^ ((⌈q⁻¹⌉₊ - 1).log2) < q⁻¹ := lt_of_le_of_lt h3 h4
      have h6 : -(((⌈q⁻¹⌉₊ - 1).log2 : ℤ) + 1) + 1 = -(((⌈q⁻¹⌉₊ - 1).log2 : ℕ) : ℤ) := by
        ring
      rw [h6, zpow_neg, zpow_natCast]
      exact (lt_inv_comm₀ hpos2 hq).mp h5


theorem ulp_pos {K : Type} [LinearOrderedField K] [FloorRing K] (q : K) : 0 < ulp q := by
  unfold ulp
  positivity

theorem ulp_mul_two_pow_53 {K : Type} [LinearOrderedField K] [FloorRing K] (q : K) :
    (2 : K) ^ (53 : ℕ) * ulp q = 2 ^ (max (binaryExponent q) (-1022) + 1) := by
  unfold ulp
  rw [← zpow_natCast, ← zpow_add₀ (two_ne_zero)]
  congr 1
  push_cast
  ring

theorem ulp_mul_two_pow_52 {K : Type} [LinearOrderedField K] [FloorRing K] (q : K) :
    (2 : K) ^ (52 : ℕ) * ulp q = 2 ^ (max (binaryExponent q) (-1022)) := by
  unfold ulp
  rw [← zpow_natCast, ← zpow_add₀ (two_ne_zero)]
  congr 1
  push_cast
  ring

theorem lt_two_zpow_exponent {K : Type} [LinearOrderedField K] [FloorRing K] (q : K) (hq : 0 < q) :
    q < 2 ^ (max (binaryExponent q) (-1022) + 1) :=
  lt_of_lt_of_le (binaryExponent_spec q hq).2
    (zpow_le_zpow_right₀ (by norm_num) (by omega))

theorem roundMagnitude_zero {K : Type} [LinearOrderedField K] [FloorRing K] : roundMagnitude (0 : K) = 0 := by
  simp [roundMagnitude, roundHalfEven]

theorem roundMagnitude_nonneg {K : Type} [LinearOrderedField K] [FloorRing K] (q : K) (hq : 0 ≤ q) : 0 ≤ roundMagnitude q := by
  unfold roundMagnitude
  have h0 : (0 : K) ≤ q / ulp q := div_nonneg hq (ulp_pos q).le
  have h1 : roundHalfEven ((0 : Int) : K) ≤ roundHalfEven (q / ulp q) :=
    roundHalfEven_mono (by simpa using h0)
  rw [roundHalfEven_intCast] at h1
  exact mul_nonneg (by exact_mod_cast h1) (ulp_pos q).le

theorem roundMagnitude_le {K : Type} [LinearOrderedField K] [FloorRing K] (q : K) (hq : 0 < q) :
    roundMagnitude q ≤ 2 ^ (max (binaryExponent q) (-1022) + 1) := by
  unfold roundMagnitude
  have hlt := lt_two_zpow_exponent q hq
  rw [← ulp_mul_two_pow_53] at hlt ⊢
  have h1 : q / ulp q ≤ (((2 ^ 53 : ℕ) : Int) : K) := by
    rw [div_le_iff₀ (ulp_pos q)]
    have e : (((2 ^ 53 : ℕ) : Int) : K) = (2 : K) ^ (53 : ℕ) := by norm_num
    rw [e]
    exact hlt.le
  have h2 := roundHalfEven_mono h1
  rw [roundHalfEven_intCast] at h2
  have h3 : ((roundHalfEven (q / ulp q) : Int) : K) ≤ (2 : K) ^ (53 : ℕ) := by
    exact_mod_cast h2
  exact mul_le_mul_of_nonneg_right h3 (ulp_pos q).le

theorem le_roundMagnitude {K : Type} [LinearOrderedField K] [FloorRing K] (q : K)
    (hq : (2 : K) ^ (max (binaryExponent q) (-1022)) ≤ q) :
    2 ^ (max (binaryExponent q) (-1022)) ≤ roundMagnitude q := by
  unfold roundMagnitude
  rw [← ulp_mul_two_pow_52] at hq ⊢
  have h1 : (((2 ^ 52 : ℕ) : Int) : K) ≤ q / ulp q := by
    rw [le_div_iff₀ (ulp_pos q)]
    have e : (((2 ^ 52 : ℕ) : Int) : K) = (2 : K) ^ (52 : ℕ) := by norm_num
    rw [e]
    exact hq
  have h2 := roundHalfEven_mono h1
  rw [roundHalfEven_intCast] at h2
  have h3 : (2 : K) ^ (52 : ℕ) ≤ ((roundHalfEven (q / ulp q) : Int) : K) := by
    exact_mod_cast h2
  exact mul_le_mul_of_nonneg_right h3 (ulp_pos q).le

theorem binaryExponent_mono {K : Type} [LinearOrderedField K] [FloorRing K] {a b : K} (ha : 0 < a) (h : a ≤ b) :
    binaryExponent a ≤ binaryExponent b := by
  have h1 := (binaryExponent_spec a ha).1
  have h2 := (binaryExponent_spec b (lt_of_lt_of_le ha h)).2
  have h3 : (2 : K) ^ binaryExponent a < 2 ^ (binaryExponent b + 1) :=
    lt_of_le_of_lt (le_trans h1 h) h2
  have h4 := (zpow_lt_zpow_iff_right₀ (by norm_num : (1 : K) < 2)).mp h3
  omega

theorem roundMagnitude_mono {K : Type} [LinearOrderedField K] [FloorRing K] {a b : K} (ha : 0 ≤ a) (h : a ≤ b) :
    roundMagnitude a ≤ roundMagnitude b := by
  rcases ha.lt_or_eq with ha | ha
  · have hb : 0 < b := lt_of_lt_of_le ha h
    have hE := binaryExponent_mono ha h
    by_cases heq : max (binaryExponent a) (-1022) = max (binaryExponent b) (-1022)
    · have hu : ulp a = ulp b := by unfold ulp; rw [heq]
      unfold roundMagnitude
      rw [hu]
      have h1 : a / ulp b ≤ b / ulp b := div_le_div_of_nonneg_right h (ulp_pos b).le
      have h2 := roundHalfEven_mono h1
      exact mul_le_mul_of_nonneg_right (by exact_mod_cast h2) (ulp_pos b).le
    · have hlt : max (binaryExponent a) (-1022) + 1 ≤ max (binaryExponent b) (-1022) := by
        omega
      have hEb : max (binaryExponent b) (-1022) = binaryExponent b := by omega
      have hb2 : (2 : K) ^ (max (binaryExponent b) (-1022)) ≤ b := by
        rw [hEb]; exact (binaryExponent_spec b hb).1
      exact le_trans (roundMagnitude_le a ha)
        (le_trans (zpow_le_zpow_right₀ (by norm_num) hlt) (le_roundMagnitude b hb2))
  · rw [← ha, roundMagnitude_zero]
    exact roundMagnitude_nonneg b (by linarith)

/-- Rounding to `double` is monotone. -/
theorem roundDouble_mono {K : Type} [LinearOrderedField K] [FloorRing K] {a b : K} (h : a ≤ b) : roundDouble a ≤ roundDouble b := by
  unfold roundDouble
  split_ifs with ha hb hb
  · exact roundMagnitude_mono ha h
  · exact absurd (le_trans ha h) hb
  · have := roundMagnitude_nonneg (-a) (by linarith)
    have := roundMagnitude_nonneg b hb
    linarith
  · have := roundMagnitude_mono (a := -b) (b := -a) (by linarith) (by linarith)
    linarith

theorem roundMagnitude_of_int {K : Type} [LinearOrderedField K] [FloorRing K] (q : K) (z : Int) (h : q / ulp q = (z : K)) :
    roundMagnitude q = q := by
  unfold roundMagnitude
  rw [h, roundHalfEven_intCast, ← h]
  exact div_mul_cancel₀ q (ulp_pos q).ne'

theorem roundMagnitude_natCast {K : Type} [LinearOrderedField K] [FloorRing K] (n : Nat) (hn : n < 2 ^ 53) :
    roundMagnitude (n : K) = n := by
  rcases Nat.eq_zero_or_pos n with h0 | hpos
  · subst h0
    simpa using (roundMagnitude_zero : roundMagnitude (0 : K) = 0)
  · have h1 : (1 : K) ≤ n := by exact_mod_cast hpos
    have hlog : n.log2 < 53 := (Nat.log2_lt hpos.ne').mpr hn
    have hE : binaryExponent (n : K) = (n.log2 : Int) := by
      simp [binaryExponent, h1, floorLog2_eq]
    apply roundMagnitude_of_int _ ((n * 2 ^ (52 - n.log2) : ℕ) : Int)
    unfold ulp
    rw [hE]
    have hmax : max (n.log2 : Int) (-1022) - 52 = -((52 - n.log2 : ℕ) : Int) := by omega
    rw [hmax, zpow_neg, zpow_natCast, div_inv_eq_mul]
    push_cast
    ring

/-- Integers of magnitude below `2^53` are doubles. -/
theorem roundDouble_intCast {K : Type} [LinearOrderedField K] [FloorRing K] (z : Int) (hz : |z| < 2 ^ 53) : roundDouble (z : K) = z := by
  unfold roundDouble
  rcases le_or_lt 0 z with h0 | h0
  · have h1 : (0 : K) ≤ z := by exact_mod_cast h0
    rw [if_pos h1]
    have hn := roundMagnitude_natCast (K := K) z.toNat (by
      have := abs_of_nonneg h0
      omega)
    have hcast : ((z.toNat : ℕ) : K) = (z : K) := by
      have : ((z.toNat : ℕ) : Int) = z := Int.toNat_of_nonneg h0
      exact_mod_cast this
    rwa [hcast] at hn
  · have h1 : ¬ (0 : K) ≤ z := by
      have : (z : K) < 0 := by exact_mod_cast h0
      linarith
    rw [if_neg h1]
    have hn := roundMagnitude_natCast (K := K) (-z).toNat (by
      have := abs_of_neg h0
      omega)
    have hcast : (((-z).toNat : ℕ) : K) = -(z : K) := by
      have : (((-z).toNat : ℕ) : Int) = -z := Int.toNat_of_nonneg (by omega)
      exact_mod_cast this
    rw [hcast] at hn
    rw [hn, neg_neg]

/-- Stepping by `1` from `0` visits the natural numbers (all of them doubles below
`2^53`). -/
theorem loopValue_zero_one {K : Type} [LinearOrderedField K] [FloorRing K] :
    ∀ i : Nat, i < 2 ^ 53 → loopValue (0 : K) 1 i = i := by
  intro i
  induction i with
  | zero => intro _; simp [loopValue]
  | succ i ih =>
    intro hi
    have h : loopValue (0 : K) 1 (i + 1) = roundDouble (loopValue (0 : K) 1 i + 1) := rfl
    rw [h, ih (by omega)]
    have hc : ((i : K) + 1) = (((i + 1 : ℕ) : Int) : K) := by push_cast; ring
    rw [hc, roundDouble_intCast _ (by
      rw [abs_of_nonneg (by positivity)]
      exact_mod_cast hi)]
    push_cast
    ring

theorem loopValue_succ_start {K : Type} [LinearOrderedField K] [FloorRing K] (v step : K) :
    ∀ i : Nat, loopValue v step (i + 1) = loopValue (roundDouble (v + step)) step i := by
  intro i
  induction i with
  | zero => rfl
  | succ i ih =>
    have h : loopValue v step (i + 1 + 1) = roundDouble (loopValue v step (i + 1) + step) := rfl
    rw [h, ih]
    rfl

/-! ## Theorems: terrain mesh -/

theorem heightQueries_append {K : Type} (a b : List (Call K)) :
    heightQueries (a ++ b) = heightQueries a ++ heightQueries b := by
  simp [heightQueries, List.filterMap_append]

theorem heightQueries_flatten_map {K : Type} (g : Nat → List (Call K)) (l : List Nat) :
    heightQueries ((l.map g).flatten) = (l.map (fun i => heightQueries (g i))).flatten := by
  induction l with
  | nil => rfl
  | cons a l ih => simp [heightQueries_append, ih]

theorem flatten_map_singleton {α : Type} (f : Nat → α) (l : List Nat) :
    (l.map (fun j => [f j])).flatten = l.map f := by
  induction l with
  | nil => rfl
  | cons a l ih => simp [ih]

/-! ## Theorems: integer rendering and tile paths -/

theorem digitChar_isDigit (d : Nat) (h : d < 10) : (Nat.digitChar d).isDigit = true := by
  interval_cases d <;> decide

theorem toDigitsCore_isDigit (fuel : Nat) : ∀ (n : Nat) (ds : List Char),
    (∀ c ∈ ds, c.isDigit = true) → ∀ c ∈ Nat.toDigitsCore 10 fuel n ds, c.isDigit = true := by
  induction fuel with
  | zero => intro n ds h; simpa [Nat.toDigitsCore] using h
  | succ fuel ih =>
    intro n ds h
    have hd : ∀ c ∈ Nat.digitChar (n % 10) :: ds, c.isDigit = true := by
      intro c hc
      rcases List.mem_cons.mp hc with rfl | hc
      · exact digitChar_isDigit _ (Nat.mod_lt _ (by norm_num))
      · exact h c hc
    simp only [Nat.toDigitsCore]
    split_ifs with h0
    · exact hd
    · exact ih _ _ hd

/-- The decimal rendering of a natural number consists of digits. -/
theorem toString_nat_isDigit (n : Nat) : ∀ c ∈ (toString n).data, c.isDigit = true := by
  rw [toString_nat_data]
  exact toDigitsCore_isDigit _ _ _ (by simp)

theorem toString_int_data_ofNat (m : Nat) :
    (toString (Int.ofNat m)).data = (toString m).data := rfl

theorem toString_int_data_negSucc (m : Nat) :
    (toString (Int.negSucc m)).data = '-' :: (toString (m + 1)).data := rfl

/-- `std::to_string` on integers is injective. -/
theorem toString_int_injective (a b : Int) (h : toString a = toString b) : a = b := by
  have hd := congrArg String.data h
  cases a with
  | ofNat m =>
    cases b with
    | ofNat k =>
      rw [toString_int_data_ofNat, toString_int_data_ofNat] at hd
      rw [toString_nat_injective m k (String.ext hd)]
    | negSucc k =>
      rw [toString_int_data_ofNat, toString_int_data_negSucc] at hd
      have hmem : '-' ∈ (toString m).data := by rw [hd]; simp
      have := toString_nat_isDigit m _ hmem
      simp at this
  | negSucc m =>
    cases b with
    | ofNat k =>
      rw [toString_int_data_ofNat, toString_int_data_negSucc] at hd
      have hmem : '-' ∈ (toString k).data := by rw [← hd]; simp
      have := toString_nat_isDigit k _ hmem
      simp at this
    | negSucc k =>
      rw [toString_int_data_negSucc, toString_int_data_negSucc] at hd
      have hk := toString_nat_injective (m + 1) (k + 1) (String.ext (List.cons.inj hd).2)
      have : m = k := by omega
      rw [this]

theorem toString_nat_no_underscore (n : Nat) : '_' ∉ (toString n).data := by
  intro hmem
  have := toString_nat_isDigit n _ hmem
  simp at this

theorem toString_int_no_underscore (a : Int) : '_' ∉ (toString a).data := by
  cases a with
  | ofNat m => rw [toString_int_data_ofNat]; exact toString_nat_no_underscore m
  | negSucc m =>
    rw [toString_int_data_negSucc]
    simp only [List.mem_cons, not_or]
    exact ⟨by decide, toString_nat_no_underscore _⟩

/-- Two lists that agree after a separator absent from both heads agree in head and
tail. -/
theorem append_sep_inj {α : Type} (sep : α) : ∀ (a a2 b b2 : List α), sep ∉ a → sep ∉ a2 →
    a ++ sep :: b = a2 ++ sep :: b2 → a = a2 ∧ b = b2 := by
  intro a
  induction a with
  | nil =>
    intro a2 b b2 _ h2 h
    cases a2 with
    | nil => simpa using h
    | cons c a2 =>
      simp only [List.nil_append, List.cons_append, List.cons.injEq] at h
      exact absurd (by rw [← h.1]; simp) h2
  | cons c a ih =>
    intro a2 b b2 h1 h2 h
    cases a2 with
    | nil =>
      simp only [List.nil_append, List.cons_append, List.cons.injEq] at h
      exact absurd (by rw [h.1]; simp) h1
    | cons c2 a2 =>
      simp only [List.cons_append, List.cons.injEq] at h
      have := ih a2 b b2 (fun hm => h1 (List.mem_cons_of_mem _ hm))
        (fun hm => h2 (List.mem_cons_of_mem _ hm)) h.2
      exact ⟨by rw [h.1, this.1], this.2⟩

/-- The tile path determines the two integers it is built from. -/
theorem tile_path_inj (ix iy jx jy : Int)
    (h : "terrain/tile_" ++ toString ix ++ "_" ++ toString iy =
      "terrain/tile_" ++ toString jx ++ "_" ++ toString jy) : ix = jx ∧ iy = jy := by
  have hd := congrArg String.data h
  simp only [String.data_append, List.append_assoc] at hd
  have h2 := List.append_cancel_left hd
  simp only [List.singleton_append] at h2
  have h3 := append_sep_inj '_' _ _ _ _ (toString_int_no_underscore ix)
    (toString_int_no_underscore jx) h2
  exact ⟨toString_int_injective _ _ (String.ext h3.1),
    toString_int_injective _ _ (String.ext h3.2)⟩


/-! ## Theorems: calls that leave a path alone -/

theorem Scene.apply_untouched {K : Type} (s : Scene K) (c : Call K) (p : String)
    (h : ¬ c.touches p) :
    (s.apply c).objects p = s.objects p ∧ (s.apply c).transforms p = s.transforms p := by
  cases c with
  | set_object q sh m =>
    have hq : p ≠ q := fun e => h e.symm
    simp [Scene.apply, hq]
  | set_transform q t =>
    have hq : p ≠ q := fun e => h e.symm
    simp [Scene.apply, hq]
  | delete_object q =>
    have hq : pathUnder q p = false := by simpa [Call.touches] using h
    simp [Scene.apply, hq]
  | GetHeight x y => simp [Scene.apply]

/-- Calls that do not act on a path leave its object and transform as they were. -/
theorem Scene.run_untouched {K : Type} (p : String) : ∀ (cs : List (Call K)) (s : Scene K),
    (∀ c ∈ cs, ¬ c.touches p) →
    (s.run cs).objects p = s.objects p ∧ (s.run cs).transforms p = s.transforms p := by
  intro cs
  induction cs with
  | nil => intro s _; exact ⟨rfl, rfl⟩
  | cons c cs ih =>
    intro s h
    have h1 := Scene.apply_untouched s c p (h c (List.mem_cons_self _ _))
    have h2 := ih (s.apply c) (fun d hd => h d (List.mem_cons_of_mem _ hd))
    simp only [Scene.run, List.foldl_cons] at h2 ⊢
    exact ⟨h2.1.trans h1.1, h2.2.trans h1.2⟩

/-! ## Theorems: tile paths of the terrain mesh -/

theorem mem_grid_calls {K : Type} (g : Nat → Nat → List (Call K)) (n m : Nat) (c : Call K) :
    c ∈ ((List.range n).map (fun i => ((List.range m).map (fun j => g i j)).flatten)).flatten
      ↔ ∃ i j, i < n ∧ j < m ∧ c ∈ g i j := by
  simp only [List.mem_flatten, List.mem_map, List.mem_range]
  constructor
  · rintro ⟨l, ⟨i, hi, rfl⟩, hc⟩
    simp only [List.mem_flatten, List.mem_map, List.mem_range] at hc
    obtain ⟨l2, ⟨j, hj, rfl⟩, hc2⟩ := hc
    exact ⟨i, j, hi, hj, hc2⟩
  · rintro ⟨i, j, hi, hj, hc⟩
    refine ⟨_, ⟨i, hi, rfl⟩, ?_⟩
    simp only [List.mem_flatten, List.mem_map, List.mem_range]
    exact ⟨_, ⟨j, hj, rfl⟩, hc⟩

/-! ## Theorems: robot geometry -/

/-- C17: for every end-effector count `n`, `CreateRobotGeometry` issues
`1 + max(n, 0)` calls, all `set_object`: first `robot/body`, a box of height `0.1` that
is `0.2 × 0.1` for `n = 1`, `0.3 × 0.15` for `n = 2`, `0.5 × 0.25` for `n = 4` and
`0.4 × 0.2` for every other `n`, then `robot/foot_i`, a sphere of radius `0.03`, for
`i = 0, ..., n-1` in increasing order. -/
theorem CreateRobotGeometry_calls {K : Type} [DivisionRing K] (n : Int)
    (terrain : Option (K → K → K)) :
    (∃ length width : K,
      CreateRobotGeometry ⟨n, terrain⟩ =
        Call.set_object "robot/body" (Shape.Box length width 0.1) robot_material_ ::
          (List.range n.toNat).map (fun i =>
            Call.set_object ("robot/foot_" ++ toString i) (Shape.Sphere 0.03) foot_material_)
      ∧ (n = 1 → length = 0.2 ∧ width = 0.1)
      ∧ (n = 2 → length = 0.3 ∧ width = 0.15)
      ∧ (n = 4 → length = 0.5 ∧ width = 0.25)
      ∧ (n ≠ 1 → n ≠ 2 → n ≠ 4 → length = 0.4 ∧ width = 0.2)) ∧
    (CreateRobotGeometry (⟨n, terrain⟩ : MeshcatVisualizer K)).length = 1 + (max n 0).toNat := by
  constructor
  · refine ⟨_, _, rfl, ?_, ?_, ?_, ?_⟩
    · intro h; simp [h]
    · intro h; simp [h]
    · intro h; simp [h]
    · intro h1 h2 h4; simp [h1, h2, h4]
  · simp only [CreateRobotGeometry, List.length_cons, List.length_map, List.length_range]
    have : (max n 0).toNat = n.toNat := by
      rcases le_total n 0 with h | h
      · rw [max_eq_right h, Int.toNat_of_nonpos h]; rfl
      · rw [max_eq_left h]
    omega

theorem robot_body_ne_foot (a : String) : "robot/body" ≠ "robot/foot_" ++ a := by
  intro h
  have := congrArg String.data h
  simp [String.data_append] at this

/-- The foot spheres of `CreateRobotGeometry`, run on a scene. -/
theorem foot_spheres_run {K : Type} [DivisionRing K] (k : Nat) (s : Scene K) :
    (∀ i, i < k → (s.run ((List.range k).map (fun i =>
        Call.set_object ("robot/foot_" ++ toString i) (Shape.Sphere 0.03) foot_material_))).objects
        ("robot/foot_" ++ toString i) = some (Shape.Sphere 0.03, foot_material_)) ∧
    (∀ p, (∀ i, i < k → p ≠ "robot/foot_" ++ toString i) →
      (s.run ((List.range k).map (fun i =>
        Call.set_object ("robot/foot_" ++ toString i) (Shape.Sphere 0.03) foot_material_))).objects p
        = s.objects p) ∧
    (∀ p, (s.run ((List.range k).map (fun i =>
        Call.set_object ("robot/foot_" ++ toString i) (Shape.Sphere 0.03) foot_material_))).transforms p
        = s.transforms p) := by
  induction k with
  | zero =>
    refine ⟨fun i hi => by omega, fun p _ => rfl, fun p => rfl⟩
  | succ k ih =>
    obtain ⟨ih1, ih2, ih3⟩ := ih
    simp only [List.range_succ, List.map_append, List.map_cons, List.map_nil, Scene.run_append]
    refine ⟨?_, ?_, ?_⟩
    · intro i hi
      by_cases hik : i = k
      · subst hik
        simp [Scene.run, Scene.apply]
      · have hne := indexed_path_ne "robot/foot_" i k hik
        have := ih1 i (by omega)
        simp only [Scene.run, List.foldl_cons, List.foldl_nil, Scene.apply, if_neg hne] at this ⊢
        exact this
    · intro p hp
      have hk := hp k (by omega)
      have := ih2 p (fun i hi => hp i (by omega))
      simp only [Scene.run, List.foldl_cons, List.foldl_nil, Scene.apply, if_neg hk] at this ⊢
      exact this
    · intro p
      have := ih3 p
      simp only [Scene.run, List.foldl_cons, List.foldl_nil, Scene.apply] at this ⊢
      exact this

/-- What `CreateRobotGeometry` leaves in the scene. -/
theorem CreateRobotGeometry_run {K : Type} [DivisionRing K] (v : MeshcatVisualizer K) :
    ∃ body : Shape K × Material K,
      ∀ s : Scene K,
        (s.run (CreateRobotGeometry v)).objects "robot/body" = some body ∧
        (∀ i, i < v.n_ee_.toNat → (s.run (CreateRobotGeometry v)).objects
            ("robot/foot_" ++ toString i) = some (Shape.Sphere 0.03, foot_material_)) ∧
        (∀ p, p ≠ "robot/body" →
          (∀ i, i < v.n_ee_.toNat → p ≠ "robot/foot_" ++ toString i) →
          (s.run (CreateRobotGeometry v)).objects p = s.objects p) ∧
        (∀ p, (s.run (CreateRobotGeometry v)).transforms p = s.transforms p) := by
  obtain ⟨box, hbox⟩ : ∃ b : Shape K, CreateRobotGeometry v =
      Call.set_object "robot/body" b robot_material_ ::
        (List.range v.n_ee_.toNat).map (fun i =>
          Call.set_object ("robot/foot_" ++ toString i) (Shape.Sphere 0.03) foot_material_) :=
    ⟨_, rfl⟩
  refine ⟨(box, robot_material_), fun s => ?_⟩
  have hrun : s.run (CreateRobotGeometry v) =
      (s.apply (Call.set_object "robot/body" box robot_material_)).run
        ((List.range v.n_ee_.toNat).map (fun i =>
          Call.set_object ("robot/foot_" ++ toString i) (Shape.Sphere 0.03) foot_material_)) := by
    rw [hbox]; rfl
  rw [hrun]
  obtain ⟨h1, h2, h3⟩ := foot_spheres_run (K := K) v.n_ee_.toNat
    (s.apply (Call.set_object "robot/body" box robot_material_))
  refine ⟨?_, h1, ?_, ?_⟩
  · rw [h2 _ (fun i _ => robot_body_ne_foot _)]
    simp [Scene.apply]
  · intro p hp hfeet
    rw [h2 p hfeet]
    simp [Scene.apply, hp]
  · intro p
    rw [h3 p]
    simp [Scene.apply]

/-- C18 (counterexample): building the robot for two end-effectors and then for one, on
the empty scene, leaves the node `robot/foot_1`, which building for one end-effector
alone does not create. -/
theorem Initialize_twice_keeps_old_foot :
    (Scene.empty.run
      ((Initialize (⟨0, none⟩ : MeshcatVisualizer ℚ) 2).2 ++
        (Initialize (Initialize (⟨0, none⟩ : MeshcatVisualizer ℚ) 2).1 1).2)).exists_node
      "robot/foot_1" = true ∧
    (Scene.empty.run (Initialize (⟨0, none⟩ : MeshcatVisualizer ℚ) 1).2).exists_node
      "robot/foot_1" = false := by
  have h0 : "robot/foot_" ++ toString 0 = "robot/foot_0" := by decide
  have h1 : "robot/foot_" ++ toString 1 = "robot/foot_1" := by decide
  constructor
  · simp [Initialize, CreateRobotGeometry, List.range_succ, Scene.run, Scene.apply,
      Scene.exists_node, h0, h1]
  · simp [Initialize, CreateRobotGeometry, List.range_succ, Scene.run, Scene.apply,
      Scene.exists_node, Scene.empty, h0]

/-- C18 (amended): building the robot for `n` and then for `m` end-effectors on the
empty scene leaves every node that building for `m` alone creates, with the same
geometry and material; when `n ≤ m` it leaves exactly the scene of building for `m`
alone; and every foot node `robot/foot_i` with `m ≤ i < n` of the earlier
configuration is still there. -/
theorem Initialize_twice {K : Type} [DivisionRing K] (v : MeshcatVisualizer K) (n m : Int) :
    (∀ p, (Scene.empty.run (Initialize v m).2).objects p ≠ none →
      (Scene.empty.run ((Initialize v n).2 ++ (Initialize (Initialize v n).1 m).2)).objects p =
        (Scene.empty.run (Initialize v m).2).objects p) ∧
    (n ≤ m → ∀ p,
      (Scene.empty.run ((Initialize v n).2 ++ (Initialize (Initialize v n).1 m).2)).objects p =
        (Scene.empty.run (Initialize v m).2).objects p ∧
      (Scene.empty.run ((Initialize v n).2 ++ (Initialize (Initialize v n).1 m).2)).transforms p =
        (Scene.empty.run (Initialize v m).2).transforms p) ∧
    (∀ i : Nat, m ≤ i → (i : Int) < n →
      (Scene.empty.run ((Initialize v n).2 ++
        (Initialize (Initialize v n).1 m).2)).exists_node ("robot/foot_" ++ toString i) = true ∧
      (Scene.empty.run (Initialize v m).2).exists_node ("robot/foot_" ++ toString i) = false) := by
  simp only [Initialize, Scene.run_append]
  obtain ⟨bn, hn⟩ := CreateRobotGeometry_run (K := K) { v with n_ee_ := n }
  obtain ⟨bm, hm⟩ := CreateRobotGeometry_run (K := K)
    { ({ v with n_ee_ := n } : MeshcatVisualizer K) with n_ee_ := m }
  have hvm : ({ ({ v with n_ee_ := n } : MeshcatVisualizer K) with n_ee_ := m } :
      MeshcatVisualizer K) = { v with n_ee_ := m } := rfl
  rw [hvm] at hm
  simp only at hn hm
  -- the scene of building for `m`, started from any scene, away from `m`'s own paths
  have hcase : ∀ (s : Scene K) (p : String),
      (p = "robot/body" ∨ ∃ i, i < m.toNat ∧ p = "robot/foot_" ++ toString i) ∨
      (s.run (CreateRobotGeometry { v with n_ee_ := m })).objects p = s.objects p := by
    intro s p
    by_cases hb : p = "robot/body"
    · exact Or.inl (Or.inl hb)
    · by_cases hf : ∃ i, i < m.toNat ∧ p = "robot/foot_" ++ toString i
      · exact Or.inl (Or.inr hf)
      · right
        exact (hm s).2.2.1 p hb (fun i hi hp => hf ⟨i, hi, hp⟩)
  have hown : ∀ (s s2 : Scene K) (p : String),
      (p = "robot/body" ∨ ∃ i, i < m.toNat ∧ p = "robot/foot_" ++ toString i) →
      (s.run (CreateRobotGeometry { v with n_ee_ := m })).objects p =
        (s2.run (CreateRobotGeometry { v with n_ee_ := m })).objects p := by
    intro s s2 p hp
    rcases hp with rfl | ⟨i, hi, rfl⟩
    · rw [(hm s).1, (hm s2).1]
    · rw [(hm s).2.1 i hi, (hm s2).2.1 i hi]
  refine ⟨?_, ?_, ?_⟩
  · intro p hp
    rcases hcase Scene.empty p with h | h
    · exact hown _ _ p h
    · exact absurd h hp
  · intro hnm p
    refine ⟨?_, ?_⟩
    · rcases hcase Scene.empty p with h | h
      · exact hown _ _ p h
      · by_cases hb : p = "robot/body"
        · exact hown _ _ p (Or.inl hb)
        · by_cases hf : ∃ i, i < m.toNat ∧ p = "robot/foot_" ++ toString i
          · exact hown _ _ p (Or.inr hf)
          · have hfm : ∀ i, i < m.toNat → p ≠ "robot/foot_" ++ toString i :=
              fun i hi hp => hf ⟨i, hi, hp⟩
            have hfn : ∀ i, i < n.toNat → p ≠ "robot/foot_" ++ toString i :=
              fun i hi => hfm i (by omega)
            rw [(hm _).2.2.1 p hb hfm, (hm _).2.2.1 p hb hfm, (hn _).2.2.1 p hb hfn]
    · rw [(hm _).2.2.2 p, (hm _).2.2.2 p, (hn _).2.2.2 p]
  · intro i hmi hin
    have hb : "robot/foot_" ++ toString i ≠ "robot/body" := (robot_body_ne_foot _).symm
    have hfm : ∀ j, j < m.toNat → "robot/foot_" ++ toString i ≠ "robot/foot_" ++ toString j :=
      fun j hj => indexed_path_ne "robot/foot_" i j (by omega)
    simp only [Scene.exists_node]
    rw [(hm _).2.2.1 _ hb hfm, (hm _).2.2.1 _ hb hfm, (hn _).2.1 i (by omega)]
    exact ⟨rfl, rfl⟩

/-! ## Theorems: the per-frame robot update -/

/-- `UpdateRobotVisualization` always returns: the body transform, then the calls of
`footCalls` for `ee = 0, ..., min(n_ee_, size) - 1`. -/
theorem UpdateRobotVisualization_eq {K : Type} [LinearOrderedField K]
    (self : MeshcatVisualizer K) (sqrt : K → K) (euler : Vector3d K → Matrix3d K)
    (base_state : BaseState K) (ee_positions : List (Vector3d K)) (contact_states : List Bool) :
    UpdateRobotVisualization self sqrt euler base_state ee_positions contact_states =
      some (Call.set_transform "robot/body"
          (EigenToMeshcatTransform base_state.lin.p (euler base_state.ang.p)) ::
        ((List.range (min self.n_ee_ (ee_positions.length : Int)).toNat).map (fun i =>
          footCalls sqrt base_state.lin.p i (contact_states.getD i false)
            (ee_positions.getD i ⟨0, 0, 0⟩))).flatten) := by
  unfold UpdateRobotVisualization
  have hfeet := forRange_eq_some (K := K)
    (fun ee => do
      let foot_name := "robot/foot_" ++ toString ee
      let in_contact ←
        if ee < contact_states.length then contact_states[ee]? else pure false
      let material : Material K :=
        if in_contact then ⟨234, 67, 53, 0.9⟩ else ⟨52, 168, 83, 0.9⟩
      let position ← ee_positions[ee]?
      let foot_transform := EigenToMeshcatTransformDefault position
      let leg_vector := position.sub base_state.lin.p
      let leg_length := leg_vector.norm sqrt
      let leg_calls : List (Call K) :=
        if leg_length > 1e-6 then
          let leg_center := base_state.lin.p.add (Vector3d.smul 0.5 leg_vector)
          let z_axis := leg_vector.normalized sqrt
          let leg_rotation := FrameAboutAxis sqrt z_axis
          let leg_name := "robot/leg_" ++ toString ee
          let leg_material : Material K := ⟨100, 100, 100, 0.7⟩
          [Call.set_object leg_name (Shape.Cylinder 0.01 leg_length) leg_material,
           Call.set_transform leg_name (EigenToMeshcatTransform leg_center leg_rotation)]
        else []
      pure ([Call.set_object foot_name (Shape.Sphere 0.03) material,
             Call.set_transform foot_name foot_transform] ++ leg_calls))
    (fun i => footCalls sqrt base_state.lin.p i (contact_states.getD i false)
      (ee_positions.getD i ⟨0, 0, 0⟩))
    (min self.n_ee_ (ee_positions.length : Int)).toNat ?_
  · simp only [hfeet]
    rfl
  · intro i hi
    have hlen : i < ee_positions.length := by
      have h1 : ((min self.n_ee_ (ee_positions.length : Int)).toNat : Int) ≤ ee_positions.length := by
        rcases le_total (min self.n_ee_ (ee_positions.length : Int)) 0 with h | h
        · rw [Int.toNat_of_nonpos h]; simp
        · rw [Int.toNat_of_nonneg h]; exact min_le_right _ _
      omega
    have hpi : ee_positions[i]? = some (ee_positions.getD i ⟨0, 0, 0⟩) := by
      rw [List.getD_eq_getElem?_getD, List.getElem?_eq_getElem hlen]; rfl
    by_cases h : i < contact_states.length
    · have hc : contact_states[i]? = some (contact_states.getD i false) := by
        rw [List.getD_eq_getElem?_getD, List.getElem?_eq_getElem h]; rfl
      simp only [h, if_true, hc, hpi]
      rfl
    · have hc : contact_states.getD i false = false := by
        rw [List.getD_eq_getElem?_getD, List.getElem?_eq_none (by omega)]; rfl
      simp only [h, if_false, hc, hpi]
      rfl


theorem robot_foot_ne_leg (a b : String) : "robot/foot_" ++ a ≠ "robot/leg_" ++ b := by
  intro h
  have := congrArg String.data h
  simp [String.data_append] at this

/-! ## Theorems: static path mode -/

/-- A loop whose body never throws runs `m` iterations, at the values `loopValue v dt i`
for `i < m`, when those values pass the test, the next one fails it, and the fuel is at
least `m`. -/
theorem stepLoop_steps {K α : Type} [LinearOrderedField K] [FloorRing K] (body : K → Option α)
    (item : K → α) (hbody : ∀ v, body v = some (item v)) (hi dt : K) :
    ∀ (m fuel : Nat) (v : K), (∀ i : Nat, i < m → loopValue v dt i ≤ hi) →
      hi < loopValue v dt m → m ≤ fuel →
      stepLoop body hi dt fuel v =
        ⟨(List.range m).map (fun i : Nat => item (loopValue v dt i)), Status.returned⟩ := by
  intro m
  induction m with
  | zero =>
    intro fuel v _ hlt _
    have hv : ¬ v ≤ hi := not_le.mpr hlt
    cases fuel <;> simp [stepLoop, hv]
  | succ m ih =>
    intro fuel v hle hlt hfuel
    obtain ⟨fuel, rfl⟩ : ∃ k, fuel = k + 1 := ⟨fuel - 1, by omega⟩
    have hv : v ≤ hi := hle 0 (Nat.succ_pos m)
    have hrec := ih fuel (roundDouble (v + dt))
      (fun i him => by
        rw [← loopValue_succ_start]
        exact hle (i + 1) (by omega))
      (by rw [← loopValue_succ_start]; exact hlt) (by omega)
    simp only [stepLoop, if_pos hv, hbody, hrec]
    rw [List.range_succ_eq_map]
    simp only [List.map_cons, List.map_map]
    congr 2
    apply List.map_congr_left
    intro i _
    simp only [Function.comp, Nat.succ_eq_add_one, loopValue_succ_start]

theorem segment_center {K : Type} [LinearOrderedField K] (a b : Vector3d K) :
    a.add (Vector3d.smul 0.5 (b.sub a)) = Vector3d.smul (1 / 2) (a.add b) := by
  simp only [Vector3d.add, Vector3d.smul, Vector3d.sub]
  refine congr (congr (congrArg Vector3d.mk ?_) ?_) ?_ <;> norm_num <;> ring

/-- The segment loop over the samples `g 0, ..., g N` draws `staticPathSegment` between
`g k` and `g (k + 1)` under the name of index `k + 1`, for `k = 0, ..., N - 1`. -/
theorem trajectorySegments_map {K : Type} [LinearOrderedField K] (sqrt : K → K)
    (segment_name : Nat → String) (radius : K) (material : Material K)
    (g : Nat → Vector3d K) (N : Nat) :
    trajectorySegments sqrt segment_name radius material ((List.range (N + 1)).map g) =
      ((List.range N).map (fun k =>
        staticPathSegment sqrt (segment_name (k + 1)) radius material (g k) (g (k + 1)))).flatten := by
  unfold trajectorySegments
  simp only [List.length_map, List.length_range, Nat.add_sub_cancel]
  congr 1
  apply List.map_congr_left
  intro k hk
  have hkN : k < N := List.mem_range.mp hk
  have h1 : ((List.range (N + 1)).map g).getD k ⟨0, 0, 0⟩ = g k := by
    rw [List.getD_eq_getElem?_getD, List.getElem?_map, List.getElem?_range (by omega)]
    rfl
  have h2 : ((List.range (N + 1)).map g).getD (k + 1) ⟨0, 0, 0⟩ = g (k + 1) := by
    rw [List.getD_eq_getElem?_getD, List.getElem?_map, List.getElem?_range (by omega)]
    rfl
  simp only [Nat.add_sub_cancel, h1, h2, staticPathSegment, segment_center, BuildFrame]


/-! ## Theorems: playback -/

/-- Every item of a loop was produced by its body. -/
theorem stepLoop_items {K α : Type} [LinearOrderedField K] [FloorRing K] (body : K → Option α)
    (hi dt : K) :
    ∀ (fuel : Nat) (v : K), ∀ a ∈ (stepLoop body hi dt fuel v).items, ∃ t, body t = some a := by
  intro fuel
  induction fuel with
  | zero => intro v a ha; simp [stepLoop] at ha
  | succ fuel ih =>
    intro v a ha
    simp only [stepLoop] at ha
    split_ifs at ha with h1
    · cases hb : body v with
      | none => simp [hb] at ha
      | some b =>
        simp only [hb, List.mem_cons] at ha
        rcases ha with rfl | ha
        · exact ⟨v, hb⟩
        · exact ih _ a ha
    · simp at ha

/-- Every item of a repeated pass is an item of the pass. -/
theorem doWhile_items {α : Type} (pass : Progress α) (loop : Bool) :
    ∀ (fuel : Nat), ∀ a ∈ (doWhile pass loop fuel).items, a ∈ pass.items := by
  intro fuel
  induction fuel with
  | zero => intro a ha; simp [doWhile] at ha
  | succ fuel ih =>
    intro a ha
    simp only [doWhile] at ha
    split at ha
    · split_ifs at ha
      · rcases List.mem_append.mp ha with h | h
        · exact h
        · exact ih a h
      · exact ha
    · exact ha

/-- With `loop = false` and fuel left, `do ... while` is one pass. -/
theorem doWhile_once {α : Type} (pass : Progress α) (fuel : Nat) (h : 0 < fuel) :
    doWhile pass false fuel = pass := by
  obtain ⟨k, rfl⟩ : ∃ k, fuel = k + 1 := ⟨fuel - 1, by omega⟩
  simp only [doWhile]
  split <;> simp

theorem take_map_length {α β : Type} (l : List α) (f : α → β) (n : Nat) (h : n ≤ l.length) :
    ((l.take n).map f).length = n := by
  simp [List.length_take, h]

/-- With a spline for every end-effector and a delay that fits an `int`, the body of the
playback loop returns a frame for the time it is given. -/
theorem PlayFrame_some {K : Type} [LinearOrderedField K] [FloorRing K]
    (self : MeshcatVisualizer K) (sqrt : K → K) (euler : Vector3d K → Matrix3d K)
    (splines : SplineHolder K) (playback_speed dt : K) (hn : 0 ≤ self.n_ee_)
    (hm : self.n_ee_.toNat ≤ splines.ee_motion_.length)
    (hf : self.n_ee_.toNat ≤ splines.ee_force_.length)
    (hspeed : playback_speed ≠ 0) (ms : Int)
    (hms : static_cast_int (roundDouble (roundDouble (dt * 1000.0) / playback_speed)) = some ms)
    (t : K) :
    ∃ frame, PlayFrame self sqrt euler splines playback_speed dt t = some frame ∧
      frame.t = t ∧ frame.sleep_ms = ms := by
  have hcond : 0 ≤ self.n_ee_ ∧ self.n_ee_.toNat ≤ splines.ee_motion_.length ∧
      self.n_ee_.toNat ≤ splines.ee_force_.length := ⟨hn, hm, hf⟩
  obtain ⟨forces, hforces⟩ : ∃ c, UpdateForceVisualization self sqrt
      ((splines.ee_motion_.take self.n_ee_.toNat).map (fun spline => (spline t).p))
      ((splines.ee_force_.take self.n_ee_.toNat).map (fun spline => (spline t).p))
      (((splines.ee_force_.take self.n_ee_.toNat).map (fun spline => (spline t).p)).map
        (fun force => decide (force.norm sqrt > 1.0))) = some c :=
    ⟨_, UpdateForceVisualization_eq self sqrt self.n_ee_.toNat _ _ _
      (Int.toNat_of_nonneg hn).symm (take_map_length _ _ _ hm) (take_map_length _ _ _ hf)
      (by rw [List.length_map]; exact take_map_length _ _ _ hf)⟩
  simp only [PlayFrame, if_pos hcond, VisualizeState, UpdateRobotVisualization_eq, hforces,
    Option.bind_eq_bind, Option.some_bind, Option.pure_def, if_neg hspeed, hms]
  exact ⟨_, rfl, rfl, rfl⟩


/-- What a frame produced by the body of the playback loop holds. -/
theorem PlayFrame_frame {K : Type} [LinearOrderedField K] [FloorRing K]
    (self : MeshcatVisualizer K) (sqrt : K → K) (euler : Vector3d K → Matrix3d K)
    (splines : SplineHolder K) (playback_speed dt t : K) (frame : Frame K)
    (h : PlayFrame self sqrt euler splines playback_speed dt t = some frame) :
    frame.t = t ∧
    frame.base_state = ⟨splines.base_linear_ t, splines.base_angular_ t⟩ ∧
    frame.ee_positions =
      (splines.ee_motion_.take self.n_ee_.toNat).map (fun spline => (spline t).p) ∧
    frame.ee_forces =
      (splines.ee_force_.take self.n_ee_.toNat).map (fun spline => (spline t).p) ∧
    frame.contact_states = frame.ee_forces.map (fun force => decide (force.norm sqrt > 1.0)) ∧
    VisualizeState self sqrt euler frame.t frame.base_state frame.ee_positions frame.ee_forces
      frame.contact_states = some frame.calls ∧
    (playback_speed ≠ 0 ∧
      static_cast_int (roundDouble (roundDouble (dt * 1000.0) / playback_speed))
        = some frame.sleep_ms) ∧
    self.n_ee_.toNat ≤ splines.ee_motion_.length ∧
    self.n_ee_.toNat ≤ splines.ee_force_.length := by
  unfold PlayFrame at h
  by_cases hcond : 0 ≤ self.n_ee_ ∧ self.n_ee_.toNat ≤ splines.ee_motion_.length ∧
      self.n_ee_.toNat ≤ splines.ee_force_.length
  · rw [if_pos hcond] at h
    simp only at h
    split at h
    · exact absurd h (by simp)
    · rename_i calls hcalls
      by_cases hs : playback_speed = 0
      · rw [if_pos hs] at h
        exact absurd h (by simp)
      · rw [if_neg hs] at h
        split at h
        · exact absurd h (by simp)
        · rename_i ms hms
          simp only [Option.some.injEq] at h
          subst h
          exact ⟨rfl, rfl, rfl, rfl, rfl, hcalls, ⟨hs, hms⟩, hcond.2.1, hcond.2.2⟩
  · rw [if_neg hcond] at h
    exact absurd h (by simp)


/-- A playback with `loop = false`, splines for every end-effector, a delay that fits an
`int` and enough fuel is one pass over the `m` values of the loop variable that do not
exceed the total time. -/
theorem PlayTrajectory_pass {K : Type} [LinearOrderedField K] [FloorRing K]
    (self : MeshcatVisualizer K) (sqrt : K → K) (euler : Vector3d K → Matrix3d K)
    (fuel : Nat) (splines : SplineHolder K) (playback_speed dt : K) (hn : 0 ≤ self.n_ee_)
    (hm : self.n_ee_.toNat ≤ splines.ee_motion_.length)
    (hf : self.n_ee_.toNat ≤ splines.ee_force_.length)
    (hspeed : playback_speed ≠ 0) (ms : Int)
    (hms : static_cast_int (roundDouble (roundDouble (dt * 1000.0) / playback_speed)) = some ms)
    (m : Nat) (hle : ∀ i : Nat, i < m → loopValue 0 dt i ≤ splines.total_time)
    (hlt : splines.total_time < loopValue 0 dt m) (hfuel : m < fuel) :
    (PlayTrajectory self sqrt euler fuel splines playback_speed dt false).status
      = Status.returned ∧
    (PlayTrajectory self sqrt euler fuel splines playback_speed dt false).items.map Frame.t =
      (List.range m).map (fun k : Nat => loopValue 0 dt k) := by
  have hsome := PlayFrame_some self sqrt euler splines playback_speed dt hn hm hf hspeed ms hms
  have hloop := stepLoop_steps (K := K)
    (PlayFrame self sqrt euler splines playback_speed dt)
    (fun t => Classical.choose (hsome t)) (fun t => (Classical.choose_spec (hsome t)).1)
    splines.total_time dt m fuel 0 hle hlt (by omega)
  unfold PlayTrajectory
  simp only
  rw [doWhile_once _ fuel (by omega), hloop]
  refine ⟨rfl, ?_⟩
  simp only [List.map_map]
  apply List.map_congr_left
  intro k _
  exact (Classical.choose_spec (hsome (loopValue 0 dt k))).2.1


/-- C15: in playback mode every frame passes to the per-frame updater, for each
end-effector `i < n_ee`, the samples of the motion and force splines at the frame time
`t`, each array having length `n_ee`, and a contact flag that is true if and only if the
sampled force has magnitude strictly greater than `1.0`. -/
theorem PlayTrajectory_frame_arguments {K : Type} [LinearOrderedField K] [FloorRing K]
    (self : MeshcatVisualizer K) (sqrt : K → K) (euler : Vector3d K → Matrix3d K)
    (fuel : Nat) (splines : SplineHolder K) (playback_speed dt : K) (loop : Bool)
    (frame : Frame K)
    (hframe : frame ∈ (PlayTrajectory self sqrt euler fuel splines playback_speed dt loop).items) :
    VisualizeState self sqrt euler frame.t frame.base_state frame.ee_positions frame.ee_forces
      frame.contact_states = some frame.calls ∧
    frame.ee_positions.length = self.n_ee_.toNat ∧
    frame.ee_forces.length = self.n_ee_.toNat ∧
    frame.contact_states.length = self.n_ee_.toNat ∧
    (∀ i, i < self.n_ee_.toNat →
      ∃ motion force, splines.ee_motion_[i]? = some motion ∧ splines.ee_force_[i]? = some force ∧
        frame.ee_positions[i]? = some (motion frame.t).p ∧
        frame.ee_forces[i]? = some (force frame.t).p ∧
        (frame.contact_states[i]? = some true ↔ (force frame.t).p.norm sqrt > 1) ∧
        (frame.contact_states[i]? = some false ↔ (force frame.t).p.norm sqrt ≤ 1)) := by
  have hpass := doWhile_items _ loop fuel frame hframe
  obtain ⟨t, ht⟩ := stepLoop_items _ _ _ _ _ frame hpass
  obtain ⟨h1, -, hpos, hfor, hcon, hvis, -, hm, hf⟩ :=
    PlayFrame_frame self sqrt euler splines playback_speed dt t frame ht
  have hlp : frame.ee_positions.length = self.n_ee_.toNat := by
    rw [hpos]; exact take_map_length _ _ _ hm
  have hlf : frame.ee_forces.length = self.n_ee_.toNat := by
    rw [hfor]; exact take_map_length _ _ _ hf
  refine ⟨hvis, hlp, hlf, by rw [hcon, List.length_map, hlf], ?_⟩
  intro i hi
  have h10 : (1.0 : K) = 1 := by norm_num
  have him : i < splines.ee_motion_.length := by omega
  have hif : i < splines.ee_force_.length := by omega
  refine ⟨splines.ee_motion_[i], splines.ee_force_[i], List.getElem?_eq_getElem him,
    List.getElem?_eq_getElem hif, ?_, ?_, ?_, ?_⟩
  · rw [hpos, h1, List.getElem?_map, List.getElem?_take_of_lt hi, List.getElem?_eq_getElem him]
    rfl
  · rw [hfor, h1, List.getElem?_map, List.getElem?_take_of_lt hi, List.getElem?_eq_getElem hif]
    rfl
  · rw [hcon, hfor, h1, List.getElem?_map, List.getElem?_map, List.getElem?_take_of_lt hi,
      List.getElem?_eq_getElem hif]
    simp [h10]
  · rw [hcon, hfor, h1, List.getElem?_map, List.getElem?_map, List.getElem?_take_of_lt hi,
      List.getElem?_eq_getElem hif]
    simp [h10]


/-- Every item of the pass is an item of the repeated pass, once there is fuel. -/
theorem doWhile_mem {α : Type} (pass : Progress α) (loop : Bool) (fuel : Nat) (h : 0 < fuel)
    (a : α) (ha : a ∈ pass.items) : a ∈ (doWhile pass loop fuel).items := by
  obtain ⟨k, rfl⟩ : ∃ k, fuel = k + 1 := ⟨fuel - 1, by omega⟩
  simp only [doWhile]
  split
  · split_ifs
    · exact List.mem_append_left _ ha
    · exact ha
  · exact ha

/-- With a total time `T ≥ 0`, splines for every end-effector, a delay that fits an `int`
and some fuel, the playback has a frame: the one at `t = 0`. -/
theorem PlayTrajectory_has_frame {K : Type} [LinearOrderedField K] [FloorRing K]
    (self : MeshcatVisualizer K) (sqrt : K → K) (euler : Vector3d K → Matrix3d K)
    (fuel : Nat) (splines : SplineHolder K) (playback_speed dt : K) (loop : Bool)
    (hT : 0 ≤ splines.total_time) (hn : 0 ≤ self.n_ee_)
    (hm : self.n_ee_.toNat ≤ splines.ee_motion_.length)
    (hf : self.n_ee_.toNat ≤ splines.ee_force_.length)
    (hspeed : playback_speed ≠ 0) (ms : Int)
    (hms : static_cast_int (roundDouble (roundDouble (dt * 1000.0) / playback_speed)) = some ms)
    (hfuel : 0 < fuel) :
    ∃ frame, frame ∈ (PlayTrajectory self sqrt euler fuel splines playback_speed dt loop).items ∧
      frame.t = 0 ∧ frame.sleep_ms = ms := by
  obtain ⟨frame, hframe, ht, hsl⟩ := PlayFrame_some self sqrt euler splines playback_speed dt
    hn hm hf hspeed ms hms 0
  refine ⟨frame, ?_, ht, hsl⟩
  unfold PlayTrajectory
  apply doWhile_mem _ _ _ hfuel
  obtain ⟨k, rfl⟩ : ∃ k, fuel = k + 1 := ⟨fuel - 1, by omega⟩
  simp only [stepLoop, if_pos hT, hframe, List.mem_cons, true_or]


theorem norm_005_gt_one : Vector3d.norm Real.sqrt (⟨0, 0, 5⟩ : Vector3d ℝ) > 1 := by
  have h5 : Real.sqrt (5 * 5) = 5 := Real.sqrt_mul_self (by norm_num)
  simp only [Vector3d.norm, Vector3d.squaredNorm, Vector3d.dot, mul_zero, zero_add, h5]
  norm_num

theorem static_cast_int_thousand_ms :
    static_cast_int (roundDouble (roundDouble ((1 : ℝ) * 1000.0) / 1)) = some 1000 := by
  have h1 : (1 : ℝ) * 1000.0 = ((1000 : Int) : ℝ) := by norm_num
  have h2 : ((1000 : Int) : ℝ) / 1 = ((1000 : Int) : ℝ) := by norm_num
  rw [h1, roundDouble_intCast _ (by norm_num), h2, roundDouble_intCast _ (by norm_num)]
  have h0 : (0 : ℝ) ≤ ((1000 : Int) : ℝ) := by norm_num
  simp only [static_cast_int, if_pos h0, Int.floor_intCast]
  norm_num

theorem PlayTrajectory_frame_arguments_witness :
    ∃ frame, frame ∈ (PlayTrajectory (⟨1, none⟩ : MeshcatVisualizer ℝ) Real.sqrt
        (fun _ => Matrix3d.Identity) 1
        ⟨fun t => ⟨⟨t, 0, 1⟩⟩, fun _ => ⟨⟨0, 0, 0⟩⟩, 0, [fun t => ⟨⟨t, 0, 0⟩⟩],
          [fun _ => ⟨⟨0, 0, 5⟩⟩]⟩ 1 1 false).items ∧
      frame.contact_states[0]? = some true := by
  obtain ⟨frame, hframe, -, -⟩ := PlayTrajectory_has_frame (⟨1, none⟩ : MeshcatVisualizer ℝ)
    Real.sqrt (fun _ => Matrix3d.Identity) 1
    ⟨fun t => ⟨⟨t, 0, 1⟩⟩, fun _ => ⟨⟨0, 0, 0⟩⟩, 0, [fun t => ⟨⟨t, 0, 0⟩⟩],
      [fun _ => ⟨⟨0, 0, 5⟩⟩]⟩ 1 1 false (le_refl _) (by decide) (by simp) (by simp)
    one_ne_zero 1000 static_cast_int_thousand_ms (by norm_num)
  refine ⟨frame, hframe, ?_⟩
  obtain ⟨-, -, -, -, h⟩ := PlayTrajectory_frame_arguments _ _ _ _ _ _ _ _ frame hframe
  obtain ⟨motion, force, -, hforce, -, -, hc, -⟩ := h 0 (by decide)
  simp only [List.getElem?_cons_zero, Option.some.injEq] at hforce
  rw [hc, ← hforce]
  exact norm_005_gt_one

/-! ## Theorems: the per-frame update for arrays of any length -/

theorem forRange_eq_none {K : Type} (body : Nat → Option (List (Call K))) :
    ∀ n : Nat, (∃ i, i < n ∧ body i = none) → forRange n body = none := by
  intro n
  induction n with
  | zero => rintro ⟨i, hi, _⟩; omega
  | succ n ih =>
    rintro ⟨i, hi, hb⟩
    simp only [forRange]
    by_cases hin : i = n
    · subst hin
      rw [hb]
      cases forRange i body <;> rfl
    · rw [ih ⟨i, by omega, hb⟩]
      rfl

/-- One iteration of the loop of `UpdateForceVisualization`, for an index below the
length of the force array: it is undefined exactly when the arrow is to be drawn and the
position array is too short, and issues the calls of `forceArrowCalls` otherwise. -/
theorem UpdateForceVisualization_body {K : Type} [LinearOrderedField K]
    (sqrt : K → K) (ee_positions ee_forces : List (Vector3d K)) (contact_states : List Bool)
    (i : Nat) (hi : i < ee_forces.length) :
    (do
      let force_name := "forces/force_" ++ toString i
      let in_contact ←
        if i < contact_states.length then contact_states[i]? else pure false
      let pushing ←
        if in_contact && decide (i < ee_forces.length) then do
          let f ← ee_forces[i]?
          pure (decide (f.norm sqrt > 1e-3))
        else pure false
      if pushing then do
        let force ← ee_forces[i]?
        let force_magnitude := force.norm sqrt
        let force_direction := force.normalized sqrt
        let force_scale : K := 0.001
        let arrow_length := force_magnitude * force_scale
        if arrow_length > 1e-6 then do
          let arrow_start ← ee_positions[i]?
          let arrow_center := arrow_start.add (Vector3d.smul (0.5 * arrow_length) force_direction)
          let z_axis := force_direction
          let arrow_rotation := FrameAboutAxis sqrt z_axis
          pure [Call.set_object force_name (Shape.Cylinder 0.005 arrow_length) force_material_,
                Call.set_transform force_name
                  (EigenToMeshcatTransform arrow_center arrow_rotation)]
        else pure []
      else
        pure [Call.delete_object force_name] : Option (List (Call K))) =
    if contact_states.getD i false = true ∧ (ee_forces.getD i ⟨0, 0, 0⟩).norm sqrt > 1e-3 ∧
        ee_positions.length ≤ i then none
    else some (forceArrowCalls sqrt i (contact_states.getD i false)
      (ee_forces.getD i ⟨0, 0, 0⟩) (ee_positions.getD i ⟨0, 0, 0⟩)) := by
  have hfi : ee_forces[i]? = some (ee_forces.getD i ⟨0, 0, 0⟩) := by
    rw [List.getD_eq_getElem?_getD, List.getElem?_eq_getElem hi]; rfl
  by_cases hlc : i < contact_states.length
  · have hci : contact_states[i]? = some (contact_states.getD i false) := by
      rw [List.getD_eq_getElem?_getD, List.getElem?_eq_getElem hlc]; rfl
    rw [hfi]
    simp only [hlc, if_true, hci]
    generalize contact_states.getD i false = c
    generalize ee_forces.getD i ⟨0, 0, 0⟩ = f
    simp only [hi, forceArrowCalls]
    cases c
    · simp
    · by_cases hm : f.norm sqrt > 1e-3
      · have hlen := arrow_length_gt _ hm
        by_cases hp : i < ee_positions.length
        · have hpi : ee_positions[i]? = some (ee_positions.getD i ⟨0, 0, 0⟩) := by
            rw [List.getD_eq_getElem?_getD, List.getElem?_eq_getElem hp]; rfl
          have hnot : ¬ (true = true ∧ f.norm sqrt > 1e-3 ∧ ee_positions.length ≤ i) :=
            fun h => absurd h.2.2 (by omega)
          rw [if_neg hnot, hpi]
          generalize ee_positions.getD i ⟨0, 0, 0⟩ = q
          simp [hm, hlen, BuildFrame]
        · have hpi : ee_positions[i]? = none := List.getElem?_eq_none (by omega)
          have hle : ee_positions.length ≤ i := by omega
          rw [if_pos ⟨rfl, hm, hle⟩, hpi]
          simp [hm, hlen]
      · simp [hm]
  · have hcd : contact_states.getD i false = false := by
      rw [List.getD_eq_getElem?_getD, List.getElem?_eq_none (by omega)]; rfl
    rw [hcd]
    simp only [hlc, if_false, forceArrowCalls]
    simp


theorem lt_min_toNat (n : Int) (len i : Nat) (h : i < (min n (len : Int)).toNat) :
    i < len ∧ (i : Int) < n := by
  have h1 : (i : Int) < min n (len : Int) := by omega
  exact ⟨by exact_mod_cast lt_of_lt_of_le h1 (min_le_right _ _), lt_of_lt_of_le h1 (min_le_left _ _)⟩

/-- `UpdateForceVisualization` is defined when every arrow it draws has a position to
start from, and then issues the calls of `forceArrowCalls` for
`ee = 0, ..., min(n_ee_, forces.size()) - 1`. -/
theorem UpdateForceVisualization_defined {K : Type} [LinearOrderedField K]
    (self : MeshcatVisualizer K) (sqrt : K → K)
    (ee_positions ee_forces : List (Vector3d K)) (contact_states : List Bool)
    (hsafe : ∀ i, i < (min self.n_ee_ (ee_forces.length : Int)).toNat →
      contact_states.getD i false = true → (ee_forces.getD i ⟨0, 0, 0⟩).norm sqrt > 1e-3 →
      i < ee_positions.length) :
    UpdateForceVisualization self sqrt ee_positions ee_forces contact_states =
      some ((List.range (min self.n_ee_ (ee_forces.length : Int)).toNat).map (fun i =>
        forceArrowCalls sqrt i (contact_states.getD i false) (ee_forces.getD i ⟨0, 0, 0⟩)
          (ee_positions.getD i ⟨0, 0, 0⟩))).flatten := by
  unfold UpdateForceVisualization
  apply forRange_eq_some
  intro i hi
  refine (UpdateForceVisualization_body sqrt ee_positions ee_forces contact_states i
    (lt_min_toNat _ _ _ hi).1).trans (if_neg ?_)
  rintro ⟨h1, h2, h3⟩
  have := hsafe i hi h1 h2
  omega

/-- `UpdateForceVisualization` is undefined when an arrow is to be drawn for an index
at or beyond the length of the position array. -/
theorem UpdateForceVisualization_undefined {K : Type} [LinearOrderedField K]
    (self : MeshcatVisualizer K) (sqrt : K → K)
    (ee_positions ee_forces : List (Vector3d K)) (contact_states : List Bool) (i : Nat)
    (hi : i < (min self.n_ee_ (ee_forces.length : Int)).toNat)
    (hc : contact_states.getD i false = true)
    (hf : (ee_forces.getD i ⟨0, 0, 0⟩).norm sqrt > 1e-3) (hp : ee_positions.length ≤ i) :
    UpdateForceVisualization self sqrt ee_positions ee_forces contact_states = none := by
  unfold UpdateForceVisualization
  apply forRange_eq_none
  exact ⟨i, hi, (UpdateForceVisualization_body sqrt ee_positions ee_forces contact_states i
    (lt_min_toNat _ _ _ hi).1).trans (if_pos ⟨hc, hf, hp⟩)⟩

/-- The calls of a defined run of `UpdateForceVisualization`. -/
theorem UpdateForceVisualization_of_some {K : Type} [LinearOrderedField K]
    (self : MeshcatVisualizer K) (sqrt : K → K)
    (ee_positions ee_forces : List (Vector3d K)) (contact_states : List Bool)
    (calls : List (Call K))
    (h : UpdateForceVisualization self sqrt ee_positions ee_forces contact_states = some calls) :
    calls = ((List.range (min self.n_ee_ (ee_forces.length : Int)).toNat).map (fun i =>
        forceArrowCalls sqrt i (contact_states.getD i false) (ee_forces.getD i ⟨0, 0, 0⟩)
          (ee_positions.getD i ⟨0, 0, 0⟩))).flatten := by
  by_cases hsafe : ∀ i, i < (min self.n_ee_ (ee_forces.length : Int)).toNat →
      contact_states.getD i false = true → (ee_forces.getD i ⟨0, 0, 0⟩).norm sqrt > 1e-3 →
      i < ee_positions.length
  · rw [UpdateForceVisualization_defined self sqrt _ _ _ hsafe] at h
    exact (Option.some.inj h).symm
  · push_neg at hsafe
    obtain ⟨i, hi, hc, hf, hp⟩ := hsafe
    rw [UpdateForceVisualization_undefined self sqrt _ _ _ i hi hc hf hp] at h
    exact absurd h (by simp)

/-- The calls of a defined run of `VisualizeState`: the body transform, the foot and leg
calls, then the force calls. -/
theorem VisualizeState_of_some {K : Type} [LinearOrderedField K]
    (self : MeshcatVisualizer K) (sqrt : K → K) (euler : Vector3d K → Matrix3d K) (t : K)
    (base_state : BaseState K) (ee_positions ee_forces : List (Vector3d K))
    (contact_states : List Bool) (calls : List (Call K))
    (h : VisualizeState self sqrt euler t base_state ee_positions ee_forces contact_states
      = some calls) :
    calls = (Call.set_transform "robot/body"
          (EigenToMeshcatTransform base_state.lin.p (euler base_state.ang.p)) ::
        ((List.range (min self.n_ee_ (ee_positions.length : Int)).toNat).map (fun i =>
          footCalls sqrt base_state.lin.p i (contact_states.getD i false)
            (ee_positions.getD i ⟨0, 0, 0⟩))).flatten) ++
      ((List.range (min self.n_ee_ (ee_forces.length : Int)).toNat).map (fun i =>
        forceArrowCalls sqrt i (contact_states.getD i false) (ee_forces.getD i ⟨0, 0, 0⟩)
          (ee_positions.getD i ⟨0, 0, 0⟩))).flatten := by
  unfold VisualizeState at h
  rw [UpdateRobotVisualization_eq] at h
  cases hf : UpdateForceVisualization self sqrt ee_positions ee_forces contact_states with
  | none => rw [hf] at h; exact absurd h (by simp)
  | some forces =>
    rw [hf] at h
    have := UpdateForceVisualization_of_some self sqrt _ _ _ forces hf
    rw [← this]
    simpa using h.symm

/-- `VisualizeState` is defined when the position array covers the force loop. -/
theorem VisualizeState_defined {K : Type} [LinearOrderedField K]
    (self : MeshcatVisualizer K) (sqrt : K → K) (euler : Vector3d K → Matrix3d K) (t : K)
    (base_state : BaseState K) (ee_positions ee_forces : List (Vector3d K))
    (contact_states : List Bool)
    (hlen : (min self.n_ee_ (ee_forces.length : Int)).toNat ≤ ee_positions.length) :
    ∃ calls, VisualizeState self sqrt euler t base_state ee_positions ee_forces contact_states
      = some calls := by
  unfold VisualizeState
  rw [UpdateRobotVisualization_eq, UpdateForceVisualization_defined self sqrt _ _ _
    (fun i hi _ _ => by omega)]
  exact ⟨_, rfl⟩

/-! ## Theorems: which nodes a frame acts on -/

theorem mem_flatten_map_range {α : Type} (g : Nat → List α) (m : Nat) (c : α) :
    c ∈ ((List.range m).map g).flatten ↔ ∃ j, j < m ∧ c ∈ g j := by
  simp only [List.mem_flatten, List.mem_map, List.mem_range]
  constructor
  · rintro ⟨l, ⟨j, hj, rfl⟩, hc⟩
    exact ⟨j, hj, hc⟩
  · rintro ⟨j, hj, hc⟩
    exact ⟨_, ⟨j, hj, rfl⟩, hc⟩

/-- A call of the foot loop acts on the foot node of its end-effector, or on its leg
node when the leg is longer than the threshold. -/
theorem footCalls_touches {K : Type} [LinearOrderedField K] (sqrt : K → K) (base : Vector3d K)
    (j : Nat) (flag : Bool) (q : Vector3d K) (c : Call K) (p : String)
    (hc : c ∈ footCalls sqrt base j flag q) (ht : c.touches p) :
    p = "robot/foot_" ++ toString j ∨
      (p = "robot/leg_" ++ toString j ∧ (q.sub base).norm sqrt > 1e-6) := by
  by_cases hleg : (q.sub base).norm sqrt > 1e-6
  · simp only [footCalls, if_pos hleg, List.cons_append, List.nil_append, List.mem_cons,
      List.mem_singleton, List.not_mem_nil, or_false] at hc
    rcases hc with rfl | rfl | rfl | rfl
    · exact Or.inl ht.symm
    · exact Or.inl ht.symm
    · exact Or.inr ⟨ht.symm, hleg⟩
    · exact Or.inr ⟨ht.symm, hleg⟩
  · simp only [footCalls, if_neg hleg, List.append_nil, List.mem_cons, List.mem_singleton,
      List.not_mem_nil, or_false] at hc
    rcases hc with rfl | rfl
    · exact Or.inl ht.symm
    · exact Or.inl ht.symm

/-- A call of the force loop acts on the force node of its end-effector or below it. -/
theorem forceArrowCalls_touches {K : Type} [LinearOrderedField K] (sqrt : K → K)
    (j : Nat) (flag : Bool) (f q : Vector3d K) (c : Call K) (p : String)
    (hc : c ∈ forceArrowCalls sqrt j flag f q) (ht : c.touches p) :
    pathUnder ("forces/force_" ++ toString j) p = true := by
  unfold forceArrowCalls at hc
  split_ifs at hc with hcond
  · simp only [List.mem_cons, List.mem_singleton, List.not_mem_nil, or_false] at hc
    rcases hc with rfl | rfl
    · have : "forces/force_" ++ toString j = p := ht
      rw [← this]; exact pathUnder_self _
    · have : "forces/force_" ++ toString j = p := ht
      rw [← this]; exact pathUnder_self _
  · simp only [List.mem_singleton] at hc
    subst hc
    exact ht

theorem forces_not_over_robot (a b : String) :
    pathUnder ("forces/" ++ a) ("robot/" ++ b) = false := by
  simp [pathUnder, String.ext_iff, String.data_append]

theorem robot_body_ne_leg (a : String) : "robot/body" ≠ "robot/leg_" ++ a := by
  intro h
  have := congrArg String.data h
  simp [String.data_append] at this

theorem force_path_eq (j : Nat) :
    "forces/force_" ++ toString j = "forces/" ++ ("force_" ++ toString j) := by
  apply String.ext
  simp [String.data_append]

theorem robot_foot_path_eq (j : Nat) :
    "robot/foot_" ++ toString j = "robot/" ++ ("foot_" ++ toString j) := by
  apply String.ext
  simp [String.data_append]

theorem robot_leg_path_eq (j : Nat) :
    "robot/leg_" ++ toString j = "robot/" ++ ("leg_" ++ toString j) := by
  apply String.ext
  simp [String.data_append]


/-- The paths a call of a defined run of `VisualizeState` can act on. -/
theorem VisualizeState_touches {K : Type} [LinearOrderedField K]
    (self : MeshcatVisualizer K) (sqrt : K → K) (euler : Vector3d K → Matrix3d K) (t : K)
    (base_state : BaseState K) (ee_positions ee_forces : List (Vector3d K))
    (contact_states : List Bool) (calls : List (Call K))
    (h : VisualizeState self sqrt euler t base_state ee_positions ee_forces contact_states
      = some calls) (c : Call K) (hc : c ∈ calls) (p : String) (ht : c.touches p) :
    p = "robot/body" ∨
    (∃ j, j < (min self.n_ee_ (ee_positions.length : Int)).toNat ∧
      (p = "robot/foot_" ++ toString j ∨
        (p = "robot/leg_" ++ toString j ∧
          ((ee_positions.getD j ⟨0, 0, 0⟩).sub base_state.lin.p).norm sqrt > 1e-6))) ∨
    (∃ j, j < (min self.n_ee_ (ee_forces.length : Int)).toNat ∧
      pathUnder ("forces/force_" ++ toString j) p = true) := by
  rw [VisualizeState_of_some self sqrt euler t base_state _ _ _ calls h] at hc
  simp only [List.cons_append, List.mem_cons, List.mem_append, mem_flatten_map_range] at hc
  rcases hc with rfl | ⟨j, hj, hcj⟩ | ⟨j, hj, hcj⟩
  · exact Or.inl ht.symm
  · exact Or.inr (Or.inl ⟨j, hj, footCalls_touches sqrt _ j _ _ c p hcj ht⟩)
  · exact Or.inr (Or.inr ⟨j, hj, forceArrowCalls_touches sqrt j _ _ _ c p hcj ht⟩)

/-- C21: for every sample and every end-effector `i` with
`|positions[i] - body position| ≤ 1e-6`, `VisualizeState` (which returns whenever the
position array covers the force loop) issues no `set_object`, `set_transform` or
`delete_object` acting on `robot/leg_i`: the object and the transform of the leg node
are what they were before the call. -/
theorem VisualizeState_leg_untouched {K : Type} [LinearOrderedField K]
    (self : MeshcatVisualizer K) (sqrt : K → K) (euler : Vector3d K → Matrix3d K) (t : K)
    (base_state : BaseState K) (ee_positions ee_forces : List (Vector3d K))
    (contact_states : List Bool) (i : Nat) (q : Vector3d K)
    (hq : ee_positions[i]? = some q)
    (hnear : (q.sub base_state.lin.p).norm sqrt ≤ 1e-6) :
    ((min self.n_ee_ (ee_forces.length : Int)).toNat ≤ ee_positions.length →
      ∃ calls, VisualizeState self sqrt euler t base_state ee_positions ee_forces
        contact_states = some calls) ∧
    ∀ calls, VisualizeState self sqrt euler t base_state ee_positions ee_forces
        contact_states = some calls →
      (∀ c ∈ calls, ¬ c.touches ("robot/leg_" ++ toString i)) ∧
      ∀ scene : Scene K,
        (scene.run calls).objects ("robot/leg_" ++ toString i)
          = scene.objects ("robot/leg_" ++ toString i) ∧
        (scene.run calls).transforms ("robot/leg_" ++ toString i)
          = scene.transforms ("robot/leg_" ++ toString i) := by
  refine ⟨VisualizeState_defined self sqrt euler t base_state _ _ _, ?_⟩
  intro calls h
  have hqd : ee_positions.getD i ⟨0, 0, 0⟩ = q := by
    rw [List.getD_eq_getElem?_getD, hq]; rfl
  have hno : ∀ c ∈ calls, ¬ c.touches ("robot/leg_" ++ toString i) := by
    intro c hc ht
    rcases VisualizeState_touches self sqrt euler t base_state _ _ _ calls h c hc _ ht with
      hb | ⟨j, _, hf | ⟨hl, hlen⟩⟩ | ⟨j, _, hu⟩
    · exact robot_body_ne_leg _ hb.symm
    · exact robot_foot_ne_leg _ _ hf.symm
    · by_cases hji : j = i
      · subst hji
        rw [hqd] at hlen
        exact absurd hlen (not_lt.mpr hnear)
      · exact indexed_path_ne "robot/leg_" i j (fun e => hji e.symm) hl
    · rw [force_path_eq, robot_leg_path_eq, forces_not_over_robot] at hu
      exact absurd hu (by simp)
  exact ⟨hno, fun scene => Scene.run_untouched _ calls scene hno⟩

theorem VisualizeState_leg_untouched_witness :
    ∃ calls, VisualizeState (⟨1, none⟩ : MeshcatVisualizer ℝ) Real.sqrt
        (fun _ => Matrix3d.Identity) 0 ⟨⟨⟨0, 0, 1⟩⟩, ⟨⟨0, 0, 0⟩⟩⟩ [⟨0, 0, 1⟩] [⟨0, 0, 5⟩] [true]
        = some calls ∧
      ∀ c ∈ calls, ¬ c.touches ("robot/leg_" ++ toString 0) := by
  have h := VisualizeState_leg_untouched (⟨1, none⟩ : MeshcatVisualizer ℝ) Real.sqrt
    (fun _ => Matrix3d.Identity) 0 ⟨⟨⟨0, 0, 1⟩⟩, ⟨⟨0, 0, 0⟩⟩⟩ [⟨0, 0, 1⟩] [⟨0, 0, 5⟩] [true]
    0 ⟨0, 0, 1⟩ rfl
    (by norm_num [Vector3d.norm, Vector3d.squaredNorm, Vector3d.dot, Vector3d.sub])
  obtain ⟨calls, hcalls⟩ := h.1 (by decide)
  exact ⟨calls, hcalls, (h.2 calls hcalls).1⟩


theorem robot_body_ne_forces (a : String) : "robot/body" ≠ "forces/" ++ a := by
  intro h
  have := congrArg String.data h
  simp [String.data_append] at this

theorem robot_ne_forces (a b : String) : "robot/" ++ a ≠ "forces/" ++ b := by
  intro h
  have := congrArg String.data h
  simp [String.data_append] at this

/-- C22 (counterexample): with one end-effector, one position, one force and an empty
contact array, index `0` is at the length of the contact array, yet `VisualizeState`
re-upserts `robot/foot_0` (in the swing colour) and deletes `forces/force_0`. -/
theorem VisualizeState_missing_contact :
    ∃ calls, VisualizeState (⟨1, none⟩ : MeshcatVisualizer ℝ) Real.sqrt
        (fun _ => Matrix3d.Identity) 0 ⟨⟨⟨0, 0, 1⟩⟩, ⟨⟨0, 0, 0⟩⟩⟩ [⟨0, 0, 0⟩] [⟨0, 0, 5⟩] []
        = some calls ∧
      ([] : List Bool).length ≤ 0 ∧
      Call.set_object "robot/foot_0" (Shape.Sphere 0.03) ⟨52, 168, 83, 0.9⟩ ∈ calls ∧
      Call.delete_object "forces/force_0" ∈ calls := by
  obtain ⟨calls, hcalls⟩ := VisualizeState_defined (⟨1, none⟩ : MeshcatVisualizer ℝ) Real.sqrt
    (fun _ => Matrix3d.Identity) 0 ⟨⟨⟨0, 0, 1⟩⟩, ⟨⟨0, 0, 0⟩⟩⟩ [⟨0, 0, 0⟩] [⟨0, 0, 5⟩] []
    (by decide)
  refine ⟨calls, hcalls, le_refl _, ?_, ?_⟩
  · rw [VisualizeState_of_some _ _ _ _ _ _ _ _ calls hcalls]
    have h1 : (min (1 : Int) (([(⟨0, 0, 0⟩ : Vector3d ℝ)].length : Nat) : Int)).toNat = 1 := by
      decide
    have h0 : "robot/foot_" ++ toString 0 = "robot/foot_0" := by decide
    rw [h1]
    simp [List.range_succ, footCalls, h0]
  · rw [VisualizeState_of_some _ _ _ _ _ _ _ _ calls hcalls]
    have h1 : (min (1 : Int) (([(⟨0, 0, 5⟩ : Vector3d ℝ)].length : Nat) : Int)).toNat = 1 := by
      decide
    have h0 : "forces/force_" ++ toString 0 = "forces/force_0" := by decide
    rw [h1]
    simp [List.range_succ, forceArrowCalls, h0]

/-- C22 (amended): on array-length mismatch the foot and leg loop of `VisualizeState` is
bounded by `min(n_ee, len(positions))` and the force loop by `min(n_ee, len(forces))`:
no call acts on `robot/foot_i` or `robot/leg_i` for an index `i` at or beyond the first
bound, none acts on `forces/force_i` for an index at or beyond the second, and those
nodes keep their state; a missing contact flag counts as "not in contact", so below the
bounds the foot is re-upserted in the swing colour and the force node is deleted. The
function returns whenever the position array covers the force loop. -/
theorem VisualizeState_length_mismatch {K : Type} [LinearOrderedField K]
    (self : MeshcatVisualizer K) (sqrt : K → K) (euler : Vector3d K → Matrix3d K) (t : K)
    (base_state : BaseState K) (ee_positions ee_forces : List (Vector3d K))
    (contact_states : List Bool) :
    ((min self.n_ee_ (ee_forces.length : Int)).toNat ≤ ee_positions.length →
      ∃ calls, VisualizeState self sqrt euler t base_state ee_positions ee_forces
        contact_states = some calls) ∧
    ∀ calls, VisualizeState self sqrt euler t base_state ee_positions ee_forces
        contact_states = some calls →
      (∀ i, (min self.n_ee_ (ee_positions.length : Int)).toNat ≤ i →
        (∀ c ∈ calls, ¬ c.touches ("robot/foot_" ++ toString i) ∧
          ¬ c.touches ("robot/leg_" ++ toString i)) ∧
        ∀ scene : Scene K,
          (scene.run calls).objects ("robot/foot_" ++ toString i)
            = scene.objects ("robot/foot_" ++ toString i) ∧
          (scene.run calls).transforms ("robot/foot_" ++ toString i)
            = scene.transforms ("robot/foot_" ++ toString i) ∧
          (scene.run calls).objects ("robot/leg_" ++ toString i)
            = scene.objects ("robot/leg_" ++ toString i) ∧
          (scene.run calls).transforms ("robot/leg_" ++ toString i)
            = scene.transforms ("robot/leg_" ++ toString i)) ∧
      (∀ i, (min self.n_ee_ (ee_forces.length : Int)).toNat ≤ i →
        (∀ c ∈ calls, ¬ c.touches ("forces/force_" ++ toString i)) ∧
        ∀ scene : Scene K,
          (scene.run calls).objects ("forces/force_" ++ toString i)
            = scene.objects ("forces/force_" ++ toString i) ∧
          (scene.run calls).transforms ("forces/force_" ++ toString i)
            = scene.transforms ("forces/force_" ++ toString i)) ∧
      (∀ i, i < (min self.n_ee_ (ee_positions.length : Int)).toNat →
        contact_states.length ≤ i →
        Call.set_object ("robot/foot_" ++ toString i) (Shape.Sphere 0.03) ⟨52, 168, 83, 0.9⟩
          ∈ calls) ∧
      (∀ i, i < (min self.n_ee_ (ee_forces.length : Int)).toNat →
        contact_states.length ≤ i →
        Call.delete_object ("forces/force_" ++ toString i) ∈ calls) := by
  refine ⟨VisualizeState_defined self sqrt euler t base_state _ _ _, ?_⟩
  intro calls h
  have htouch := VisualizeState_touches self sqrt euler t base_state _ _ _ calls h
  have hfoot : ∀ i, (min self.n_ee_ (ee_positions.length : Int)).toNat ≤ i →
      ∀ c ∈ calls, ¬ c.touches ("robot/foot_" ++ toString i) := by
    intro i hi c hc ht
    rcases htouch c hc _ ht with hb | ⟨j, hj, hf | ⟨hl, _⟩⟩ | ⟨j, _, hu⟩
    · exact robot_body_ne_foot _ hb.symm
    · exact indexed_path_ne "robot/foot_" i j (by omega) hf
    · exact robot_foot_ne_leg _ _ hl
    · rw [force_path_eq, robot_foot_path_eq, forces_not_over_robot] at hu
      exact absurd hu (by simp)
  have hlegs : ∀ i, (min self.n_ee_ (ee_positions.length : Int)).toNat ≤ i →
      ∀ c ∈ calls, ¬ c.touches ("robot/leg_" ++ toString i) := by
    intro i hi c hc ht
    rcases htouch c hc _ ht with hb | ⟨j, hj, hf | ⟨hl, _⟩⟩ | ⟨j, _, hu⟩
    · exact robot_body_ne_leg _ hb.symm
    · exact robot_foot_ne_leg _ _ hf.symm
    · exact indexed_path_ne "robot/leg_" i j (by omega) hl
    · rw [force_path_eq, robot_leg_path_eq, forces_not_over_robot] at hu
      exact absurd hu (by simp)
  have hforce : ∀ i, (min self.n_ee_ (ee_forces.length : Int)).toNat ≤ i →
      ∀ c ∈ calls, ¬ c.touches ("forces/force_" ++ toString i) := by
    intro i hi c hc ht
    rcases htouch c hc _ ht with hb | ⟨j, hj, hf | ⟨hl, _⟩⟩ | ⟨j, hj, hu⟩
    · rw [force_path_eq] at hb
      exact robot_body_ne_forces _ hb.symm
    · rw [force_path_eq, robot_foot_path_eq] at hf
      exact robot_ne_forces _ _ hf.symm
    · rw [force_path_eq, robot_leg_path_eq] at hl
      exact robot_ne_forces _ _ hl.symm
    · rw [indexed_path_not_under "forces/force_" i j (by omega)] at hu
      exact absurd hu (by simp)
  have hcalls := VisualizeState_of_some self sqrt euler t base_state _ _ _ calls h
  refine ⟨?_, ?_, ?_, ?_⟩
  · intro i hi
    refine ⟨fun c hc => ⟨hfoot i hi c hc, hlegs i hi c hc⟩, fun scene => ?_⟩
    have h1 := Scene.run_untouched _ calls scene (hfoot i hi)
    have h2 := Scene.run_untouched _ calls scene (hlegs i hi)
    exact ⟨h1.1, h1.2, h2.1, h2.2⟩
  · intro i hi
    exact ⟨hforce i hi, fun scene => Scene.run_untouched _ calls scene (hforce i hi)⟩
  · intro i hi hlen
    have hcd : contact_states.getD i false = false := by
      rw [List.getD_eq_getElem?_getD, List.getElem?_eq_none hlen]; rfl
    rw [hcalls]
    apply List.mem_append_left
    apply List.mem_cons_of_mem
    rw [mem_flatten_map_range]
    refine ⟨i, hi, ?_⟩
    rw [hcd]
    simp [footCalls]
  · intro i hi hlen
    have hcd : contact_states.getD i false = false := by
      rw [List.getD_eq_getElem?_getD, List.getElem?_eq_none hlen]; rfl
    rw [hcalls]
    apply List.mem_append_right
    rw [mem_flatten_map_range]
    refine ⟨i, hi, ?_⟩
    rw [hcd]
    simp [forceArrowCalls]

/-! ## Theorems: running a frame twice, and reads beyond the arrays -/

theorem Scene.apply_fixes {K : Type} (c : Call K) :
    ∃ (fo : String → Option (Option (Shape K × Material K)))
      (ft : String → Option (Option (List K))),
      ∀ s : Scene K, ∀ q,
        (s.apply c).objects q = (fo q).getD (s.objects q) ∧
        (s.apply c).transforms q = (ft q).getD (s.transforms q) := by
  cases c with
  | set_object p shape material =>
    refine ⟨fun q => if q = p then some (some (shape, material)) else none, fun _ => none, ?_⟩
    intro s q
    by_cases h : q = p <;> simp [Scene.apply, h]
  | set_transform p t =>
    refine ⟨fun _ => none, fun q => if q = p then some (some t) else none, ?_⟩
    intro s q
    by_cases h : q = p <;> simp [Scene.apply, h]
  | delete_object p =>
    refine ⟨fun q => if pathUnder p q then some none else none,
      fun q => if pathUnder p q then some none else none, ?_⟩
    intro s q
    by_cases h : pathUnder p q = true <;> simp [Scene.apply, h]
  | GetHeight x y =>
    exact ⟨fun _ => none, fun _ => none, fun s q => by simp [Scene.apply]⟩

theorem Scene.run_fixes {K : Type} (calls : List (Call K)) :
    ∃ (fo : String → Option (Option (Shape K × Material K)))
      (ft : String → Option (Option (List K))),
      ∀ s : Scene K, ∀ q,
        (s.run calls).objects q = (fo q).getD (s.objects q) ∧
        (s.run calls).transforms q = (ft q).getD (s.transforms q) := by
  induction calls with
  | nil => exact ⟨fun _ => none, fun _ => none, fun s q => by simp [Scene.run]⟩
  | cons c cs ih =>
    obtain ⟨fo, ft, h⟩ := ih
    obtain ⟨go, gt, g⟩ := Scene.apply_fixes c
    refine ⟨fun q => (fo q).orElse fun _ => go q, fun q => (ft q).orElse fun _ => gt q, ?_⟩
    intro s q
    have hrun : s.run (c :: cs) = (s.apply c).run cs := rfl
    rw [hrun, (h (s.apply c) q).1, (h (s.apply c) q).2, (g s q).1, (g s q).2]
    constructor
    · cases hq : fo q <;> simp [hq]
    · cases hq : ft q <;> simp [hq]

theorem Scene.ext_fields {K : Type} (a b : Scene K)
    (h : ∀ q, a.objects q = b.objects q ∧ a.transforms q = b.transforms q) : a = b := by
  cases a; cases b
  simp only [Scene.mk.injEq]
  exact ⟨funext fun q => (h q).1, funext fun q => (h q).2⟩

theorem Scene.run_twice {K : Type} (calls : List (Call K)) (s : Scene K) :
    (s.run calls).run calls = s.run calls := by
  obtain ⟨fo, ft, h⟩ := Scene.run_fixes calls
  apply Scene.ext_fields
  intro q
  rw [(h (s.run calls) q).1, (h (s.run calls) q).2, (h s q).1, (h s q).2]
  constructor
  · cases fo q <;> simp
  · cases ft q <;> simp

/-- C24: the per-frame update is idempotent on the scene.  `VisualizeState` returns
whenever the position array covers the force loop, and whenever it returns, running its
calls on any scene twice (same arguments, hence the same calls) leaves the same scene as
running them once. -/
theorem VisualizeState_idempotent {K : Type} [LinearOrderedField K]
    (self : MeshcatVisualizer K) (sqrt : K → K) (euler : Vector3d K → Matrix3d K) (t : K)
    (base_state : BaseState K) (ee_positions ee_forces : List (Vector3d K))
    (contact_states : List Bool) :
    ((min self.n_ee_ (ee_forces.length : Int)).toNat ≤ ee_positions.length →
      ∃ calls, VisualizeState self sqrt euler t base_state ee_positions ee_forces
        contact_states = some calls) ∧
    ∀ (scene : Scene K) (calls : List (Call K)),
      VisualizeState self sqrt euler t base_state ee_positions ee_forces
          contact_states = some calls →
        (scene.run calls).run calls = scene.run calls ∧
        scene.run (calls ++ calls) = scene.run calls :=
  ⟨VisualizeState_defined self sqrt euler t base_state _ _ _,
    fun scene calls _ => ⟨Scene.run_twice calls scene, by
      rw [Scene.run_append]; exact Scene.run_twice calls scene⟩⟩

/-- C25 (failing input): one end-effector in contact with a 5 N force and an empty
position array.  The force loop runs for index 0 (bounded by `n_ee_` and the force array
only) and reads `ee_positions[0]` out of range, so `VisualizeState` has no defined
result. -/
theorem VisualizeState_reads_position_out_of_range :
    ([] : List (Vector3d ℝ)).length ≤ 0 ∧
    VisualizeState (⟨1, none⟩ : MeshcatVisualizer ℝ) Real.sqrt (fun _ => Matrix3d.Identity) 0
      ⟨⟨⟨0, 0, 1⟩⟩, ⟨⟨0, 0, 0⟩⟩⟩ [] [⟨0, 0, 5⟩] [true] = none := by
  refine ⟨le_refl _, ?_⟩
  unfold VisualizeState
  rw [UpdateRobotVisualization_eq, UpdateForceVisualization_undefined _ _ _ _ _ 0]
  · rfl
  · decide
  · rfl
  · exact norm_005_gt
  · exact le_refl _

/-! ## Theorems: clearing the scene -/

theorem trajectory_not_under (a : String) :
    pathUnder "robot" ("trajectory/" ++ a) = false ∧
    pathUnder "forces" ("trajectory/" ++ a) = false ∧
    pathUnder "terrain" ("trajectory/" ++ a) = false := by
  simp [pathUnder, String.ext_iff, String.data_append]

/-- `Clear` removes every node under `robot/`, `forces/` and `terrain/` and leaves every
node under `trajectory/` as it was. -/
theorem Clear_run {K : Type} (scene : Scene K) (a : String) :
    (scene.run Clear).objects ("robot/" ++ a) = none ∧
    (scene.run Clear).objects ("forces/" ++ a) = none ∧
    (scene.run Clear).objects ("terrain/" ++ a) = none ∧
    (scene.run Clear).objects ("trajectory/" ++ a) = scene.objects ("trajectory/" ++ a) ∧
    (scene.run Clear).transforms ("trajectory/" ++ a)
      = scene.transforms ("trajectory/" ++ a) := by
  have h1 : pathUnder "robot" ("robot/" ++ a) = true := by
    simp [pathUnder, String.data_append]
  have h2 : pathUnder "forces" ("forces/" ++ a) = true := by
    simp [pathUnder, String.data_append]
  have h3 : pathUnder "terrain" ("terrain/" ++ a) = true := by
    simp [pathUnder, String.data_append]
  obtain ⟨h4, h5, h6⟩ := trajectory_not_under a
  simp [Scene.run, Clear, Scene.apply, h1, h2, h3, h4, h5, h6]

/-- The static path of a base that rises from `(0, 0, 0)` to `(0, 0, 1)`, sampled at
`t = 0` and `t = 1`, draws one segment `trajectory/base_segment_1`. -/
theorem VisualizeTrajectory_rise :
    ∃ shape material,
      Call.set_object "trajectory/base_segment_1" shape material ∈
        (VisualizeTrajectory (⟨0, none⟩ : MeshcatVisualizer ℝ) Real.sqrt 2
          ⟨fun t => ⟨⟨0, 0, t⟩⟩, fun _ => ⟨⟨0, 0, 0⟩⟩, 1, [], []⟩ 1 1).items ∧
      ∀ c ∈ (VisualizeTrajectory (⟨0, none⟩ : MeshcatVisualizer ℝ) Real.sqrt 2
          ⟨fun t => ⟨⟨0, 0, t⟩⟩, fun _ => ⟨⟨0, 0, 0⟩⟩, 1, [], []⟩ 1 1).items,
        c = Call.set_object "trajectory/base_segment_1" shape material ∨
        ∃ T, c = Call.set_transform "trajectory/base_segment_1" T := by
  have htimes := stepLoop_steps (K := ℝ) (fun t => if (0 : Int).toNat ≤
      ([] : List (ℝ → State ℝ)).length then some t else none)
    (fun t => t) (fun v => by simp) 1 1 2 2 0
    (fun i hi => by
      rw [loopValue_zero_one i (by omega)]
      have : (i : ℝ) ≤ ((1 : ℕ) : ℝ) := by exact_mod_cast (by omega : i ≤ 1)
      simpa using this)
    (by rw [loopValue_zero_one 2 (by norm_num)]; norm_num) (le_refl _)
  have hv0 : loopValue (0 : ℝ) 1 0 = 0 := rfl
  have hv1 : loopValue (0 : ℝ) 1 (0 + 1) = 1 := by
    rw [loopValue_zero_one (0 + 1) (by norm_num)]
    norm_num
  have hneg : ¬ ((1 : ℝ) < 0) := by norm_num
  have hname : "trajectory/base_segment_" ++ toString (0 + 1) = "trajectory/base_segment_1" := by
    decide
  have hrange : List.range 1 = [0] := rfl
  have hsub : (⟨0, 0, 1⟩ : Vector3d ℝ).sub ⟨0, 0, 0⟩ = ⟨0, 0, 1⟩ := by
    simp [Vector3d.sub]
  have hnorm : Vector3d.norm Real.sqrt (⟨0, 0, 1⟩ : Vector3d ℝ) = 1 := by
    simp [Vector3d.norm, Vector3d.squaredNorm, Vector3d.dot]
  have h1 : (1 : ℝ) > 1e-6 := by norm_num
  have hitems : (VisualizeTrajectory (⟨0, none⟩ : MeshcatVisualizer ℝ) Real.sqrt 2
      ⟨fun t => ⟨⟨0, 0, t⟩⟩, fun _ => ⟨⟨0, 0, 0⟩⟩, 1, [], []⟩ 1 1).items =
      staticPathSegment Real.sqrt "trajectory/base_segment_1" 0.005 ⟨66, 133, 244, 0.5⟩
        ⟨0, 0, 0⟩ ⟨0, 0, 1⟩ := by
    simp only [VisualizeTrajectory, if_neg hneg, lt_self_iff_false, if_false, htimes,
      List.map_map, Function.comp_def]
    simp only [Int.toNat_zero, List.range_zero, List.map_nil, List.flatten_nil,
      List.append_nil]
    rw [trajectorySegments_map]
    simp [hrange, hname, hv0, hv1]
  rw [hitems]
  simp only [staticPathSegment, hsub, hnorm, if_pos h1]
  refine ⟨_, _, List.mem_cons_self _ _, ?_⟩
  intro c hc
  simp only [List.mem_cons, List.mem_singleton, List.mem_nil_iff, or_false] at hc
  rcases hc with rfl | rfl
  · exact Or.inl rfl
  · exact Or.inr ⟨_, rfl⟩

/-- C23 (evaluation at the failing input): `Clear` deletes `robot`, `forces` and
`terrain` only.  After the static path of a rising base has been drawn on the empty
scene, the node `trajectory/base_segment_1` exists, and it still exists after `Clear`;
in general `Clear` leaves every node under `trajectory/` as it was. -/
theorem Clear_keeps_trajectory :
    (Scene.empty.run (VisualizeTrajectory (⟨0, none⟩ : MeshcatVisualizer ℝ) Real.sqrt 2
        ⟨fun t => ⟨⟨0, 0, t⟩⟩, fun _ => ⟨⟨0, 0, 0⟩⟩, 1, [], []⟩ 1 1).items).exists_node
      "trajectory/base_segment_1" = true ∧
    ((Scene.empty.run (VisualizeTrajectory (⟨0, none⟩ : MeshcatVisualizer ℝ) Real.sqrt 2
        ⟨fun t => ⟨⟨0, 0, t⟩⟩, fun _ => ⟨⟨0, 0, 0⟩⟩, 1, [], []⟩ 1 1).items).run
      Clear).exists_node "trajectory/base_segment_1" = true ∧
    ∀ (scene : Scene ℝ) (a : String),
      (scene.run Clear).exists_node ("trajectory/" ++ a)
        = scene.exists_node ("trajectory/" ++ a) := by
  have hall : ∀ (scene : Scene ℝ) (a : String),
      (scene.run Clear).exists_node ("trajectory/" ++ a)
        = scene.exists_node ("trajectory/" ++ a) := by
    intro scene a
    simp only [Scene.exists_node, (Clear_run scene a).2.2.2.1]
  have hpath : "trajectory/base_segment_1" = "trajectory/" ++ "base_segment_1" := by decide
  obtain ⟨shape, material, hmem, honly⟩ := VisualizeTrajectory_rise
  have hex : (Scene.empty.run (VisualizeTrajectory (⟨0, none⟩ : MeshcatVisualizer ℝ) Real.sqrt 2
        ⟨fun t => ⟨⟨0, 0, t⟩⟩, fun _ => ⟨⟨0, 0, 0⟩⟩, 1, [], []⟩ 1 1).items).exists_node
      "trajectory/base_segment_1" = true := by
    generalize (VisualizeTrajectory (⟨0, none⟩ : MeshcatVisualizer ℝ) Real.sqrt 2
        ⟨fun t => ⟨⟨0, 0, t⟩⟩, fun _ => ⟨⟨0, 0, 0⟩⟩, 1, [], []⟩ 1 1).items = calls
      at hmem honly
    have hkeep : ∀ (calls : List (Call ℝ)) (scene : Scene ℝ),
        (∀ c ∈ calls, c = Call.set_object "trajectory/base_segment_1" shape material ∨
          ∃ T, c = Call.set_transform "trajectory/base_segment_1" T) →
        (scene.exists_node "trajectory/base_segment_1" = true ∨
          Call.set_object "trajectory/base_segment_1" shape material ∈ calls) →
        (scene.run calls).exists_node "trajectory/base_segment_1" = true := by
      intro calls
      induction calls with
      | nil =>
        intro scene _ h
        rcases h with h | h
        · exact h
        · simp at h
      | cons c cs ih =>
        intro scene hall hor
        have hrun : scene.run (c :: cs) = (scene.apply c).run cs := rfl
        rw [hrun]
        apply ih _ (fun d hd => hall d (List.mem_cons_of_mem _ hd))
        rcases hall c (List.mem_cons_self _ _) with rfl | ⟨T, rfl⟩
        · left
          simp [Scene.apply, Scene.exists_node]
        · rcases hor with h | h
          · left
            simpa [Scene.apply, Scene.exists_node] using h
          · right
            simpa using h
    exact hkeep calls _ honly (Or.inr hmem)
  refine ⟨hex, ?_, hall⟩
  rw [hpath, hall, ← hpath]
  exact hex

/-! ## Theorems: the frame never normalises a zero vector -/

/-- C26: the frame construction never normalises a zero vector.  For every non-zero
forward vector, with `z = forward/|forward|` (a unit vector) and the reference axis
chosen by the 0.9 rule, the cross product `z × reference` has squared length above
`0.19`: it is `1 - z_x² > 0.19` when the reference is X and `1 - z_y² ≥ 0.81` when the
reference is Y; so both normalisations of `BuildFrame` take the dividing branch and
divide by a length that is not zero. -/
theorem BuildFrame_no_zero_normalize (forward : Vector3d ℝ) (hv : forward ≠ ⟨0, 0, 0⟩) :
    0 < forward.squaredNorm ∧ forward.norm Real.sqrt ≠ 0 ∧
    (forward.normalized Real.sqrt).squaredNorm = 1 ∧
    0.19 < ((forward.normalized Real.sqrt).cross
      (referenceAxis (forward.normalized Real.sqrt))).squaredNorm ∧
    (referenceAxis (forward.normalized Real.sqrt) = Vector3d.UnitX →
      ((forward.normalized Real.sqrt).cross
        (referenceAxis (forward.normalized Real.sqrt))).squaredNorm
        = 1 - (forward.normalized Real.sqrt).x ^ 2) ∧
    (referenceAxis (forward.normalized Real.sqrt) = Vector3d.UnitY →
      ((forward.normalized Real.sqrt).cross
        (referenceAxis (forward.normalized Real.sqrt))).squaredNorm
        = 1 - (forward.normalized Real.sqrt).y ^ 2 ∧
      0.81 ≤ 1 - (forward.normalized Real.sqrt).y ^ 2) ∧
    ((forward.normalized Real.sqrt).cross
      (referenceAxis (forward.normalized Real.sqrt))).norm Real.sqrt ≠ 0 ∧
    (BuildFrame Real.sqrt forward).col1 =
      Vector3d.smul (1 / ((forward.normalized Real.sqrt).cross
          (referenceAxis (forward.normalized Real.sqrt))).norm Real.sqrt)
        ((forward.normalized Real.sqrt).cross
          (referenceAxis (forward.normalized Real.sqrt))) := by
  have hpos := Vector3d.squaredNorm_pos forward hv
  have hz := BuildFrame_axis_unit forward hv
  have hcross := cross_referenceAxis_squaredNorm _ hz
  have hcpos : 0 < ((forward.normalized Real.sqrt).cross
      (referenceAxis (forward.normalized Real.sqrt))).squaredNorm :=
    lt_trans (by norm_num) hcross
  refine ⟨hpos, (Real.sqrt_pos.mpr hpos).ne', hz, hcross, ?_, ?_,
    (Real.sqrt_pos.mpr hcpos).ne', ?_⟩
  · intro hx
    rw [hx]
    generalize forward.normalized Real.sqrt = z at hz
    obtain ⟨a, b, c⟩ := z
    simp only [Vector3d.squaredNorm, Vector3d.dot] at hz
    simp only [Vector3d.squaredNorm, Vector3d.dot, Vector3d.cross, Vector3d.UnitX]
    linear_combination hz
  · intro hy
    have hge : ¬ |(forward.normalized Real.sqrt).dot Vector3d.UnitX| < 0.9 := by
      intro hlt
      have hx : referenceAxis (forward.normalized Real.sqrt) = Vector3d.UnitX := by
        simp only [referenceAxis, if_pos hlt]
      rw [hx] at hy
      have := congrArg Vector3d.x hy
      simp [Vector3d.UnitX, Vector3d.UnitY] at this
    rw [hy]
    generalize forward.normalized Real.sqrt = z at hz hge
    obtain ⟨a, b, c⟩ := z
    simp only [Vector3d.squaredNorm, Vector3d.dot] at hz
    simp only [Vector3d.dot, Vector3d.UnitX, mul_one, mul_zero, add_zero, not_lt] at hge
    simp only [Vector3d.squaredNorm, Vector3d.dot, Vector3d.cross, Vector3d.UnitY]
    constructor
    · linear_combination hz
    · have h1 := le_abs.mp hge
      norm_num at h1 ⊢
      rcases h1 with h1 | h1 <;> nlinarith [mul_self_nonneg c]
  · simp only [BuildFrame, FrameAboutAxis]
    exact Vector3d.normalized_of_pos _ hcpos

theorem BuildFrame_no_zero_normalize_witness :
    (⟨0, 0, 5⟩ : Vector3d ℝ) ≠ ⟨0, 0, 0⟩ ∧
    0.19 < (((⟨0, 0, 5⟩ : Vector3d ℝ).normalized Real.sqrt).cross
      (referenceAxis ((⟨0, 0, 5⟩ : Vector3d ℝ).normalized Real.sqrt))).squaredNorm ∧
    (((⟨0, 0, 5⟩ : Vector3d ℝ).normalized Real.sqrt).cross
      (referenceAxis ((⟨0, 0, 5⟩ : Vector3d ℝ).normalized Real.sqrt))).norm Real.sqrt ≠ 0 :=
  have h : (⟨0, 0, 5⟩ : Vector3d ℝ) ≠ ⟨0, 0, 0⟩ := by
    intro h
    have := congrArg Vector3d.z h
    norm_num at this
  ⟨h, (BuildFrame_no_zero_normalize ⟨0, 0, 5⟩ h).2.2.2.1,
    (BuildFrame_no_zero_normalize ⟨0, 0, 5⟩ h).2.2.2.2.2.2.1⟩

/-! ## Theorems: the inner arrow-length test -/

theorem forRange_congr {K : Type} (f g : Nat → Option (List (Call K))) :
    ∀ n : Nat, (∀ i, i < n → f i = g i) → forRange n f = forRange n g := by
  intro n
  induction n with
  | zero => intro _; rfl
  | succ n ih =>
    intro h
    simp only [forRange]
    rw [ih (fun i hi => h i (Nat.lt_succ_of_lt hi)), h n (Nat.lt_succ_self n)]

/-- One iteration of the loop written without the inner test does what the iteration of
the source does. -/
theorem UpdateForceVisualizationNoGuard_body {K : Type} [LinearOrderedField K]
    (sqrt : K → K) (ee_positions ee_forces : List (Vector3d K)) (contact_states : List Bool)
    (i : Nat) (hi : i < ee_forces.length) :
    (do
      let force_name := "forces/force_" ++ toString i
      let in_contact ←
        if i < contact_states.length then contact_states[i]? else pure false
      let pushing ←
        if in_contact && decide (i < ee_forces.length) then do
          let f ← ee_forces[i]?
          pure (decide (f.norm sqrt > 1e-3))
        else pure false
      if pushing then do
        let force ← ee_forces[i]?
        let force_magnitude := force.norm sqrt
        let force_direction := force.normalized sqrt
        let force_scale : K := 0.001
        let arrow_length := force_magnitude * force_scale
        let arrow_start ← ee_positions[i]?
        let arrow_center := arrow_start.add (Vector3d.smul (0.5 * arrow_length) force_direction)
        let z_axis := force_direction
        let arrow_rotation := FrameAboutAxis sqrt z_axis
        pure [Call.set_object force_name (Shape.Cylinder 0.005 arrow_length) force_material_,
              Call.set_transform force_name
                (EigenToMeshcatTransform arrow_center arrow_rotation)]
      else
        pure [Call.delete_object force_name] : Option (List (Call K))) =
    if contact_states.getD i false = true ∧ (ee_forces.getD i ⟨0, 0, 0⟩).norm sqrt > 1e-3 ∧
        ee_positions.length ≤ i then none
    else some (forceArrowCalls sqrt i (contact_states.getD i false)
      (ee_forces.getD i ⟨0, 0, 0⟩) (ee_positions.getD i ⟨0, 0, 0⟩)) := by
  have hfi : ee_forces[i]? = some (ee_forces.getD i ⟨0, 0, 0⟩) := by
    rw [List.getD_eq_getElem?_getD, List.getElem?_eq_getElem hi]; rfl
  by_cases hlc : i < contact_states.length
  · have hci : contact_states[i]? = some (contact_states.getD i false) := by
      rw [List.getD_eq_getElem?_getD, List.getElem?_eq_getElem hlc]; rfl
    rw [hfi]
    simp only [hlc, if_true, hci]
    generalize contact_states.getD i false = c
    generalize ee_forces.getD i ⟨0, 0, 0⟩ = f
    simp only [hi, forceArrowCalls]
    cases c
    · simp
    · by_cases hm : f.norm sqrt > 1e-3
      · by_cases hp : i < ee_positions.length
        · have hpi : ee_positions[i]? = some (ee_positions.getD i ⟨0, 0, 0⟩) := by
            rw [List.getD_eq_getElem?_getD, List.getElem?_eq_getElem hp]; rfl
          have hnot : ¬ (true = true ∧ f.norm sqrt > 1e-3 ∧ ee_positions.length ≤ i) :=
            fun h => absurd h.2.2 (by omega)
          rw [if_neg hnot, hpi]
          generalize ee_positions.getD i ⟨0, 0, 0⟩ = q
          simp [hm, BuildFrame]
        · have hpi : ee_positions[i]? = none := List.getElem?_eq_none (by omega)
          have hle : ee_positions.length ≤ i := by omega
          rw [if_pos ⟨rfl, hm, hle⟩, hpi]
          simp [hm]
      · simp [hm]
  · have hcd : contact_states.getD i false = false := by
      rw [List.getD_eq_getElem?_getD, List.getElem?_eq_none (by omega)]; rfl
    rw [hcd]
    simp only [hlc, if_false, forceArrowCalls]
    simp

/-- C27: the inner arrow-length guard of `UpdateForceVisualization` is redundant over
exact arithmetic.  For every force `f` with `|f| > 1e-3` the arrow length `|f| · 0.001`
exceeds `1e-6`; for all arguments the function has the same result (the same scene
calls in the same order, or the same undefined read) as the version written without the
`arrow_length > 1e-6` test; and whenever it returns, every end-effector below the loop
bound that is in contact with `|f| > 1e-3` gets its arrow upserted. -/
theorem UpdateForceVisualization_guard_redundant {K : Type} [LinearOrderedField K]
    (self : MeshcatVisualizer K) (sqrt : K → K)
    (ee_positions ee_forces : List (Vector3d K)) (contact_states : List Bool) :
    (∀ f : Vector3d K, f.norm sqrt > 1e-3 → f.norm sqrt * 0.001 > 1e-6) ∧
    UpdateForceVisualization self sqrt ee_positions ee_forces contact_states =
      UpdateForceVisualizationNoGuard self sqrt ee_positions ee_forces contact_states ∧
    ∀ calls, UpdateForceVisualization self sqrt ee_positions ee_forces contact_states
        = some calls →
      ∀ i, i < (min self.n_ee_ (ee_forces.length : Int)).toNat →
        contact_states.getD i false = true →
        (ee_forces.getD i ⟨0, 0, 0⟩).norm sqrt > 1e-3 →
        Call.set_object ("forces/force_" ++ toString i)
          (Shape.Cylinder 0.005 ((ee_forces.getD i ⟨0, 0, 0⟩).norm sqrt * 0.001))
          force_material_ ∈ calls := by
  refine ⟨fun f hf => arrow_length_gt _ hf, ?_, ?_⟩
  · unfold UpdateForceVisualization UpdateForceVisualizationNoGuard
    apply forRange_congr
    intro i hi
    have hlt := (lt_min_toNat _ _ _ hi).1
    exact (UpdateForceVisualization_body sqrt ee_positions ee_forces contact_states i hlt).trans
      (UpdateForceVisualizationNoGuard_body sqrt ee_positions ee_forces contact_states i hlt).symm
  · intro calls h i hi hc hf
    rw [UpdateForceVisualization_of_some self sqrt _ _ _ calls h, mem_flatten_map_range]
    refine ⟨i, hi, ?_⟩
    rw [hc]
    generalize ee_forces.getD i ⟨0, 0, 0⟩ = f at hf
    simp only [forceArrowCalls, true_and, if_pos hf]
    exact List.mem_cons_self _ _

/-! ## Theorems: the size of a grid -/

/-- A counting loop whose body returns at every value it visits runs `m` iterations, at
the values `loopValue v step i` for `i < m`, when those values pass the test, the next
one fails it, and the fuel is at least `m`. -/
theorem forLoop_steps {K : Type} [LinearOrderedField K] [FloorRing K] (body : K → Run K)
    (calls : K → List (Call K)) (hi step : K) :
    ∀ (m fuel : Nat) (v : K),
      (∀ i : Nat, i < m →
        body (loopValue v step i) = ⟨calls (loopValue v step i), Status.returned⟩) →
      (∀ i : Nat, i < m → loopValue v step i ≤ hi) →
      hi < loopValue v step m → m ≤ fuel →
      forLoop body hi step fuel v =
        ⟨((List.range m).map (fun i : Nat => calls (loopValue v step i))).flatten,
          Status.returned⟩ := by
  intro m
  induction m with
  | zero =>
    intro fuel v _ _ hlt _
    have hv : ¬ v ≤ hi := not_le.mpr hlt
    cases fuel <;> simp [forLoop, hv]
  | succ m ih =>
    intro fuel v hbody hle hlt hfuel
    obtain ⟨fuel, rfl⟩ : ∃ k, fuel = k + 1 := ⟨fuel - 1, by omega⟩
    have hv : v ≤ hi := hle 0 (Nat.succ_pos m)
    have hb : body v = ⟨calls v, Status.returned⟩ := hbody 0 (Nat.succ_pos m)
    have hrec := ih fuel (roundDouble (v + step))
      (fun i him => by
        rw [← loopValue_succ_start]
        exact hbody (i + 1) (by omega))
      (fun i him => by
        rw [← loopValue_succ_start]
        exact hle (i + 1) (by omega))
      (by rw [← loopValue_succ_start]; exact hlt) (by omega)
    simp only [forLoop, if_pos hv, hb, hrec]
    rw [List.range_succ_eq_map]
    simp only [List.map_cons, List.map_map, List.flatten_cons]
    congr 3
    apply List.map_congr_left
    intro i _
    simp only [Function.comp, Nat.succ_eq_add_one, loopValue_succ_start]

/-- The body of the inner loop of `CreateTerrainMesh` is `terrainTile`. -/
theorem CreateTerrainMesh_unfold {K : Type} [LinearOrderedField K] [FloorRing K]
    (self : MeshcatVisualizer K) (terrain : K → K → K) (hterrain : self.terrain_ = some terrain)
    (fuel : Nat) (x_range y_range : K × K) (r : K) :
    CreateTerrainMesh self fuel x_range y_range r =
      forLoop (fun x => forLoop (fun y => terrainTile terrain r x y) y_range.2 r fuel y_range.1)
        x_range.2 r fuel x_range.1 := by
  unfold CreateTerrainMesh
  rw [hterrain]
  simp only
  congr 1
  funext x
  congr 1
  funext y
  unfold terrainTile terrain_name
  split_ifs with hh
  · cases static_cast_int (roundDouble (x * 100)) <;>
      cases static_cast_int (roundDouble (y * 100)) <;> rfl
  · rfl

theorem terrainTile_returned {K : Type} [LinearOrderedField K] [FloorRing K]
    (terrain : K → K → K) (r x y : K)
    (h : (terrainTile terrain r x y).status = Status.returned) :
    terrainTile terrain r x y = ⟨(terrainTile terrain r x y).calls, Status.returned⟩ := by
  rw [← h]

/-- With a terrain, `m` values of `x` and `n` values of `y` within the ranges, casts that
are defined at the tiles to draw and enough fuel, `CreateTerrainMesh` returns after
running its loop body at the grid of these values, x-major. -/
theorem CreateTerrainMesh_eq {K : Type} [LinearOrderedField K] [FloorRing K]
    (self : MeshcatVisualizer K) (terrain : K → K → K) (hterrain : self.terrain_ = some terrain)
    (x0 x1 y0 y1 r : K) (m n fuel : Nat)
    (hxm : ∀ i : Nat, i < m → loopValue x0 r i ≤ x1) (hxe : x1 < loopValue x0 r m)
    (hyn : ∀ j : Nat, j < n → loopValue y0 r j ≤ y1) (hye : y1 < loopValue y0 r n)
    (hdef : ∀ i : Nat, i < m → ∀ j : Nat, j < n →
      (terrainTile terrain r (loopValue x0 r i) (loopValue y0 r j)).status = Status.returned)
    (hfm : m ≤ fuel) (hfn : n ≤ fuel) :
    CreateTerrainMesh self fuel (x0, x1) (y0, y1) r =
      ⟨((List.range m).map (fun i : Nat =>
          ((List.range n).map (fun j : Nat =>
            (terrainTile terrain r (loopValue x0 r i) (loopValue y0 r j)).calls)).flatten)).flatten,
        Status.returned⟩ := by
  rw [CreateTerrainMesh_unfold self terrain hterrain]
  exact forLoop_steps _
    (fun x => ((List.range n).map (fun j : Nat =>
      (terrainTile terrain r x (loopValue y0 r j)).calls)).flatten) x1 r m fuel x0
    (fun i hi => forLoop_steps _ (fun y => (terrainTile terrain r (loopValue x0 r i) y).calls)
      y1 r n fuel y0 (fun j hj => terrainTile_returned terrain r _ _ (hdef i hi j hj))
      hyn hye hfn)
    hxm hxe hfm

theorem heightQueries_terrainTile {K : Type} [LinearOrderedField K] [FloorRing K]
    (terrain : K → K → K) (r x y : K) :
    heightQueries (terrainTile terrain r x y).calls = [(x, y)] := by
  unfold terrainTile heightQueries
  split_ifs
  · cases terrain_name x y <;> simp
  · simp

/-- C9 (counterexample): over the default ranges of `SetTerrain`, `x` in `[-1, 3]` and
`y` in `[-1, 1]` at resolution `0.1` (the double nearest to it), `CreateTerrainMesh`
returns after `840` height queries, `40` values of `x` by `21` values of `y`; the grid of
the claim has `(⌊4/r⌋ + 1)·(⌊2/r⌋ + 1)` points, which is `800` for the double `r` and
`861` for the decimal `0.1`. -/
theorem CreateTerrainMesh_queries_off_grid :
    (0 : ℚ) < roundDouble (1 / 10) ∧
    (CreateTerrainMesh (⟨0, some (fun _ _ => 0)⟩ : MeshcatVisualizer ℚ) 50
      (-1, 3) (-1, 1) (roundDouble (1 / 10))).status = Status.returned ∧
    (heightQueries (CreateTerrainMesh (⟨0, some (fun _ _ => 0)⟩ : MeshcatVisualizer ℚ) 50
      (-1, 3) (-1, 1) (roundDouble (1 / 10))).calls).length = 840 ∧
    (⌊((3 : ℚ) - (-1)) / roundDouble (1 / 10)⌋₊ + 1) *
      (⌊((1 : ℚ) - (-1)) / roundDouble (1 / 10)⌋₊ + 1) = 800 ∧
    (⌊((3 : ℚ) - (-1)) / (1 / 10)⌋₊ + 1) * (⌊((1 : ℚ) - (-1)) / (1 / 10)⌋₊ + 1) = 861 := by
  refine ⟨?_, ?_, ?_, ?_, ?_⟩ <;> decide!

/-- C9 (amended): with a terrain set, `CreateTerrainMesh` queries the height exactly at
the points `(x_i, y_j)`, each once, x-major, where `x_0 = x0` and `x_(i+1)` is the double
sum `x_i + r` (likewise `y_j`), for the `m` values `x_i` up to the first one above `x1`
and the `n` values `y_j` up to the first one above `y1` (casts defined at the tiles to
draw, enough fuel); over `[0,1] × [0,1]` at resolution `0.5` these are the nine points of
`{0, 0.5, 1} × {0, 0.5, 1}`. -/
theorem CreateTerrainMesh_queries {K : Type} [LinearOrderedField K] [FloorRing K]
    (self : MeshcatVisualizer K) (terrain : K → K → K) (hterrain : self.terrain_ = some terrain)
    (x0 x1 y0 y1 r : K) (m n fuel : Nat)
    (hxm : ∀ i : Nat, i < m → loopValue x0 r i ≤ x1) (hxe : x1 < loopValue x0 r m)
    (hyn : ∀ j : Nat, j < n → loopValue y0 r j ≤ y1) (hye : y1 < loopValue y0 r n)
    (hdef : ∀ i : Nat, i < m → ∀ j : Nat, j < n →
      (terrainTile terrain r (loopValue x0 r i) (loopValue y0 r j)).status = Status.returned)
    (hfm : m ≤ fuel) (hfn : n ≤ fuel) :
    (CreateTerrainMesh self fuel (x0, x1) (y0, y1) r).status = Status.returned ∧
    heightQueries (CreateTerrainMesh self fuel (x0, x1) (y0, y1) r).calls =
      ((List.range m).map (fun i : Nat =>
        (List.range n).map (fun j : Nat => (loopValue x0 r i, loopValue y0 r j)))).flatten ∧
    (loopValue x0 r 0 = x0 ∧ ∀ i, loopValue x0 r (i + 1) = roundDouble (loopValue x0 r i + r)) ∧
    heightQueries (CreateTerrainMesh (⟨0, some (fun _ _ => 0)⟩ : MeshcatVisualizer ℚ) 3
        (0, 1) (0, 1) 0.5).calls =
      [(0, 0), (0, 0.5), (0, 1), (0.5, 0), (0.5, 0.5), (0.5, 1), (1, 0), (1, 0.5), (1, 1)] := by
  refine ⟨?_, ?_, ⟨rfl, fun _ => rfl⟩, by decide!⟩
  · rw [CreateTerrainMesh_eq self terrain hterrain x0 x1 y0 y1 r m n fuel hxm hxe hyn hye hdef
      hfm hfn]
  · rw [CreateTerrainMesh_eq self terrain hterrain x0 x1 y0 y1 r m n fuel hxm hxe hyn hye hdef
      hfm hfn]
    simp only [heightQueries_flatten_map, heightQueries_terrainTile, flatten_map_singleton]

theorem CreateTerrainMesh_queries_witness :
    (CreateTerrainMesh (⟨1, some (fun x y => x + y)⟩ : MeshcatVisualizer ℚ) 3
      (0, 1) (0, 1) (1 / 2)).status = Status.returned ∧
    heightQueries (CreateTerrainMesh (⟨1, some (fun x y => x + y)⟩ : MeshcatVisualizer ℚ) 3
      (0, 1) (0, 1) (1 / 2)).calls =
      ((List.range 3).map (fun i : Nat =>
        (List.range 3).map (fun j : Nat =>
          (loopValue (0 : ℚ) (1 / 2) i, loopValue (0 : ℚ) (1 / 2) j)))).flatten :=
  have h := CreateTerrainMesh_queries (⟨1, some (fun x y => x + y)⟩ : MeshcatVisualizer ℚ)
    (fun x y => x + y) rfl 0 1 0 1 (1 / 2) 3 3 3 (by decide!) (by decide!) (by decide!)
    (by decide!) (by decide!) (le_refl _) (le_refl _)
  ⟨h.1, h.2.1⟩

/-- C10 (evaluation at the failing input): for the tile at the grid point `(1, 2)` with
height `1` the transform passed to `set_transform` is
`[1,0,0,1, 0,1,0,2, 0,0,1,1/2, 0,0,0,1]`: the centre `(1, 2, 1/2)` sits at indices 3, 7
and 11, and the translation entries 12, 13, 14 of the column-major matrix are `0`, so
the box is placed at the origin, not at `(x, y, h/2)`. -/
theorem CreateTerrainMesh_tile_transform :
    CreateTerrainMesh (⟨0, some (fun _ _ => 1)⟩ : MeshcatVisualizer ℚ) 2
        (1, 1) (2, 2) (1 / 2) =
      ⟨[Call.GetHeight 1 2,
        Call.set_object "terrain/tile_100_200" (Shape.Box (1 / 2) (1 / 2) 1) terrain_material_,
        Call.set_transform "terrain/tile_100_200"
          [1, 0, 0, 1, 0, 1, 0, 2, 0, 0, 1, 1 / 2, 0, 0, 0, 1]], Status.returned⟩ ∧
    ([1, 0, 0, 1, 0, 1, 0, 2, 0, 0, 1, 1 / 2, 0, 0, 0, 1] : List ℚ)[12]? = some 0 ∧
    ([1, 0, 0, 1, 0, 1, 0, 2, 0, 0, 1, 1 / 2, 0, 0, 0, 1] : List ℚ)[13]? = some 0 ∧
    ([1, 0, 0, 1, 0, 1, 0, 2, 0, 0, 1, 1 / 2, 0, 0, 0, 1] : List ℚ)[14]? = some 0 := by
  refine ⟨?_, ?_, ?_, ?_⟩ <;> decide!

theorem static_cast_int_some {K : Type} [LinearOrderedField K] [FloorRing K] (v : K) (t : Int)
    (h : static_cast_int v = some t) :
    t = (if 0 ≤ v then ⌊v⌋ else ⌈v⌉) ∧ -2147483648 ≤ t ∧ t ≤ 2147483647 := by
  unfold static_cast_int at h
  by_cases hr : -2147483648 ≤ (if 0 ≤ v then ⌊v⌋ else ⌈v⌉) ∧
      (if 0 ≤ v then ⌊v⌋ else ⌈v⌉) ≤ 2147483647
  · rw [if_pos hr] at h
    simp only [Option.some.injEq] at h
    rw [← h]
    exact ⟨rfl, hr.1, hr.2⟩
  · rw [if_neg hr] at h
    exact absurd h (by simp)

/-- The cast truncates toward zero. -/
theorem static_cast_int_trunc {K : Type} [LinearOrderedField K] [FloorRing K] (v : K) (t : Int)
    (h : static_cast_int v = some t) : |(t : K)| ≤ |v| ∧ |v - t| < 1 := by
  obtain ⟨ht, -, -⟩ := static_cast_int_some v t h
  subst ht
  split_ifs with h0
  · have h1 := Int.floor_le v
    have h2 := Int.lt_floor_add_one v
    have h3 : (0 : K) ≤ (⌊v⌋ : K) := by exact_mod_cast Int.floor_nonneg.mpr h0
    rw [abs_of_nonneg h3, abs_of_nonneg h0, abs_of_nonneg (by linarith)]
    exact ⟨h1, by linarith⟩
  · have hv : v < 0 := not_le.mp h0
    have h1 := Int.le_ceil v
    have h2 := Int.ceil_lt_add_one v
    have h3 : (⌈v⌉ : K) ≤ 0 := by exact_mod_cast Int.ceil_le.mpr (by exact_mod_cast hv.le)
    rw [abs_of_nonpos h3, abs_of_neg hv, abs_of_nonpos (by linarith)]
    exact ⟨by linarith, by linarith⟩

theorem static_cast_int_le {K : Type} [LinearOrderedField K] [FloorRing K] (v : K) (t n : Int)
    (h : static_cast_int v = some t) (hv : v ≤ n) : t ≤ n := by
  obtain ⟨ht, -, -⟩ := static_cast_int_some v t h
  subst ht
  split_ifs with h0
  · have := Int.floor_le v
    have h2 : (⌊v⌋ : K) ≤ n := le_trans this hv
    exact_mod_cast h2
  · exact Int.ceil_le.mpr hv

theorem static_cast_int_ge {K : Type} [LinearOrderedField K] [FloorRing K] (v : K) (t n : Int)
    (h : static_cast_int v = some t) (hv : (n : K) ≤ v) : n ≤ t := by
  obtain ⟨ht, -, -⟩ := static_cast_int_some v t h
  subst ht
  split_ifs with h0
  · exact Int.le_floor.mpr hv
  · have := Int.le_ceil v
    have h2 : (n : K) ≤ (⌈v⌉ : K) := le_trans hv this
    exact_mod_cast h2

theorem terrain_name_some {K : Type} [LinearOrderedField K] [FloorRing K] (x y : K) (p : String)
    (h : terrain_name x y = some p) :
    ∃ ix iy : Int, static_cast_int (roundDouble (x * 100)) = some ix ∧
      static_cast_int (roundDouble (y * 100)) = some iy ∧
      p = "terrain/tile_" ++ toString ix ++ "_" ++ toString iy := by
  unfold terrain_name at h
  cases hx : static_cast_int (roundDouble (x * 100)) with
  | none => simp [hx] at h
  | some ix =>
    cases hy : static_cast_int (roundDouble (y * 100)) with
    | none => simp [hx, hy] at h
    | some iy =>
      simp only [hx, hy, Option.some.injEq] at h
      exact ⟨ix, iy, rfl, rfl, h.symm⟩

/-- A tile that is drawn and whose body returned has a name. -/
theorem terrainTile_name {K : Type} [LinearOrderedField K] [FloorRing K]
    (terrain : K → K → K) (r x y : K) (hh : |terrain x y| > 1e-6)
    (h : (terrainTile terrain r x y).status = Status.returned) :
    ∃ p, terrain_name x y = some p ∧
      (terrainTile terrain r x y).calls =
        [Call.GetHeight x y,
         Call.set_object p (Shape.Box r r |terrain x y|) terrain_material_,
         Call.set_transform p (EigenToMeshcatTransformDefault ⟨x, y, terrain x y / 2.0⟩)] := by
  unfold terrainTile at h ⊢
  rw [if_pos hh] at h ⊢
  cases hn : terrain_name x y with
  | none => simp [hn] at h
  | some p => exact ⟨p, rfl, rfl⟩

/-- C11 (counterexample): at the grid point `(0.29, 0.007)` (the doubles nearest to
these) the tile is stored at `terrain/tile_28_0`, while rounding `x·100` and `y·100` to
the nearest integer gives `29` and `1`. -/
theorem CreateTerrainMesh_tile_name_not_rounded :
    (CreateTerrainMesh (⟨0, some (fun _ _ => 1)⟩ : MeshcatVisualizer ℚ) 1
        (roundDouble (29 / 100), roundDouble (29 / 100))
        (roundDouble (7 / 1000), roundDouble (7 / 1000)) 1).calls =
      [Call.GetHeight (roundDouble (29 / 100)) (roundDouble (7 / 1000)),
       Call.set_object "terrain/tile_28_0" (Shape.Box 1 1 1) terrain_material_,
       Call.set_transform "terrain/tile_28_0"
         (EigenToMeshcatTransformDefault
           ⟨roundDouble (29 / 100), roundDouble (7 / 1000), 1 / 2⟩)] ∧
    round (roundDouble (29 / 100 : ℚ) * 100) = 29 ∧
    round (roundDouble (7 / 1000 : ℚ) * 100) = 1 := by
  refine ⟨?_, ?_, ?_⟩ <;> decide!

/-- C11 (amended): with a terrain set, for the visited grid (`m` values of `x`, `n`
values of `y`, casts defined, enough fuel), every grid point `(x, y)` whose height passes
the threshold gets its box at the path `terrain/tile_<ix>_<iy>` with
`ix = static_cast<int>(x * 100)` and `iy = static_cast<int>(y * 100)`, where the
products are double products, and every `set_object` of the run is one of these.  The
cast truncates toward zero into the range of `int`: the result `t` of casting `v` has
`|t| ≤ |v|` and `|v - t| < 1`; for `x = 0.29` it gives `28`. -/
theorem CreateTerrainMesh_tile_path {K : Type} [LinearOrderedField K] [FloorRing K]
    (self : MeshcatVisualizer K) (terrain : K → K → K) (hterrain : self.terrain_ = some terrain)
    (x0 x1 y0 y1 r : K) (m n fuel : Nat)
    (hxm : ∀ i : Nat, i < m → loopValue x0 r i ≤ x1) (hxe : x1 < loopValue x0 r m)
    (hyn : ∀ j : Nat, j < n → loopValue y0 r j ≤ y1) (hye : y1 < loopValue y0 r n)
    (hdef : ∀ i : Nat, i < m → ∀ j : Nat, j < n →
      (terrainTile terrain r (loopValue x0 r i) (loopValue y0 r j)).status = Status.returned)
    (hfm : m ≤ fuel) (hfn : n ≤ fuel) :
    (∀ i j : Nat, i < m → j < n →
      |terrain (loopValue x0 r i) (loopValue y0 r j)| > 1e-6 →
      ∃ ix iy : Int,
        static_cast_int (roundDouble (loopValue x0 r i * 100)) = some ix ∧
        static_cast_int (roundDouble (loopValue y0 r j * 100)) = some iy ∧
        Call.set_object ("terrain/tile_" ++ toString ix ++ "_" ++ toString iy)
          (Shape.Box r r |terrain (loopValue x0 r i) (loopValue y0 r j)|) terrain_material_
          ∈ (CreateTerrainMesh self fuel (x0, x1) (y0, y1) r).calls) ∧
    (∀ path shape material,
      Call.set_object path shape material
        ∈ (CreateTerrainMesh self fuel (x0, x1) (y0, y1) r).calls →
      ∃ (i j : Nat) (ix iy : Int), i < m ∧ j < n ∧
        |terrain (loopValue x0 r i) (loopValue y0 r j)| > 1e-6 ∧
        static_cast_int (roundDouble (loopValue x0 r i * 100)) = some ix ∧
        static_cast_int (roundDouble (loopValue y0 r j * 100)) = some iy ∧
        path = "terrain/tile_" ++ toString ix ++ "_" ++ toString iy) ∧
    (∀ (v : K) (t : Int), static_cast_int v = some t →
      |(t : K)| ≤ |v| ∧ |v - t| < 1 ∧ -2147483648 ≤ t ∧ t ≤ 2147483647) ∧
    static_cast_int (roundDouble (roundDouble (29 / 100 : ℚ) * 100)) = some 28 := by
  rw [CreateTerrainMesh_eq self terrain hterrain x0 x1 y0 y1 r m n fuel hxm hxe hyn hye hdef
    hfm hfn]
  simp only
  refine ⟨?_, ?_, ?_, by decide!⟩
  · intro i j hi hj hh
    obtain ⟨p, hp, hcalls⟩ := terrainTile_name terrain r _ _ hh (hdef i hi j hj)
    obtain ⟨ix, iy, hix, hiy, rfl⟩ := terrain_name_some _ _ p hp
    refine ⟨ix, iy, hix, hiy, ?_⟩
    rw [mem_grid_calls (fun i j =>
      (terrainTile terrain r (loopValue x0 r i) (loopValue y0 r j)).calls)]
    refine ⟨i, j, hi, hj, ?_⟩
    simp only [hcalls]
    simp
  · intro path shape material hmem
    rw [mem_grid_calls (fun i j =>
      (terrainTile terrain r (loopValue x0 r i) (loopValue y0 r j)).calls)] at hmem
    obtain ⟨i, j, hi, hj, hc⟩ := hmem
    by_cases hh : |terrain (loopValue x0 r i) (loopValue y0 r j)| > 1e-6
    · obtain ⟨p, hp, hcalls⟩ := terrainTile_name terrain r _ _ hh (hdef i hi j hj)
      obtain ⟨ix, iy, hix, hiy, rfl⟩ := terrain_name_some _ _ p hp
      rw [hcalls] at hc
      simp at hc
      exact ⟨i, j, ix, iy, hi, hj, hh, hix, hiy, hc.1⟩
    · simp [terrainTile, hh] at hc
  · intro v t ht
    obtain ⟨h1, h2⟩ := static_cast_int_trunc v t ht
    obtain ⟨-, h3, h4⟩ := static_cast_int_some v t ht
    exact ⟨h1, h2, h3, h4⟩

theorem CreateTerrainMesh_tile_path_witness :
    ∃ ix iy : Int,
      static_cast_int (roundDouble (loopValue (0 : ℚ) (1 / 2) 1 * 100)) = some ix ∧
      static_cast_int (roundDouble (loopValue (0 : ℚ) (1 / 2) 1 * 100)) = some iy ∧
      Call.set_object ("terrain/tile_" ++ toString ix ++ "_" ++ toString iy)
        (Shape.Box (1 / 2) (1 / 2)
          |(fun x y : ℚ => x + y) (loopValue (0 : ℚ) (1 / 2) 1) (loopValue (0 : ℚ) (1 / 2) 1)|)
        terrain_material_
        ∈ (CreateTerrainMesh (⟨1, some (fun x y => x + y)⟩ : MeshcatVisualizer ℚ) 3
            (0, 1) (0, 1) (1 / 2)).calls :=
  (CreateTerrainMesh_tile_path (⟨1, some (fun x y => x + y)⟩ : MeshcatVisualizer ℚ)
    (fun x y => x + y) rfl 0 1 0 1 (1 / 2) 3 3 3 (by decide!) (by decide!) (by decide!)
    (by decide!) (by decide!) (le_refl _) (le_refl _)).1 1 1 (by decide) (by decide)
    (by decide!)


/-- The double product of a coordinate whose cast is defined lies within the integers
below `2^53`. -/
theorem cast_defined_bounds {K : Type} [LinearOrderedField K] [FloorRing K] (v : K) (t : Int)
    (h : static_cast_int (roundDouble v) = some t) :
    -2147483649 < v ∧ v < 2147483648 := by
  obtain ⟨-, hlo, hhi⟩ := static_cast_int_some _ t h
  constructor
  · by_contra hv
    have hv2 : v ≤ ((-2147483649 : Int) : K) := by
      push_cast
      exact not_lt.mp hv
    have h1 := roundDouble_mono hv2
    rw [roundDouble_intCast _ (by norm_num)] at h1
    have := static_cast_int_le _ t _ h h1
    omega
  · by_contra hv
    have hv2 : ((2147483648 : Int) : K) ≤ v := by
      push_cast
      exact not_lt.mp hv
    have h1 := roundDouble_mono hv2
    rw [roundDouble_intCast _ (by norm_num)] at h1
    have := static_cast_int_ge _ t _ h h1
    omega

/-- Two values that are two apart are cast, after rounding to double, to different
integers. -/
theorem cast_lt_of_add_two_le {K : Type} [LinearOrderedField K] [FloorRing K] (a b : K)
    (s t : Int) (hs : static_cast_int (roundDouble a) = some s)
    (ht : static_cast_int (roundDouble b) = some t) (hab : a + 2 ≤ b) : s < t := by
  obtain ⟨halo, hahi⟩ := cast_defined_bounds a s hs
  have hc1 : a ≤ (⌈a⌉ : K) := Int.le_ceil a
  have hc2 : (⌈a⌉ : K) < a + 1 := Int.ceil_lt_add_one a
  have hlo : -2147483649 ≤ ⌈a⌉ := by
    have : ((-2147483649 : Int) : K) < (⌈a⌉ : K) := by
      push_cast
      linarith
    have := Int.cast_lt.mp this
    omega
  have hhi : ⌈a⌉ ≤ 2147483648 := by
    have : (⌈a⌉ : K) < ((2147483649 : Int) : K) := by
      push_cast
      linarith
    have := Int.cast_lt.mp this
    omega
  have h1 := roundDouble_mono hc1
  rw [roundDouble_intCast _ (by rw [abs_lt]; constructor <;> omega)] at h1
  have hb : ((⌈a⌉ + 1 : Int) : K) ≤ b := by
    push_cast
    linarith
  have h2 := roundDouble_mono hb
  rw [roundDouble_intCast _ (by rw [abs_lt]; constructor <;> omega)] at h2
  have h3 := static_cast_int_le _ s _ hs h1
  have h4 := static_cast_int_ge _ t _ ht h2
  omega

/-- Grid points `0.02` apart in `x` or in `y` get different tile paths. -/
theorem terrain_name_ne_of_apart {K : Type} [LinearOrderedField K] [FloorRing K]
    (x y x2 y2 : K) (p p2 : String) (hp : terrain_name x y = some p)
    (hp2 : terrain_name x2 y2 = some p2) (h : x + 0.02 ≤ x2 ∨ y + 0.02 ≤ y2) : p ≠ p2 := by
  obtain ⟨ix, iy, hix, hiy, rfl⟩ := terrain_name_some x y p hp
  obtain ⟨jx, jy, hjx, hjy, rfl⟩ := terrain_name_some x2 y2 p2 hp2
  intro heq
  obtain ⟨h1, h2⟩ := tile_path_inj _ _ _ _ heq
  rcases h with h | h
  · have := cast_lt_of_add_two_le (x * 100) (x2 * 100) ix jx hix hjx (by
      norm_num at h ⊢
      linarith)
    omega
  · have := cast_lt_of_add_two_le (y * 100) (y2 * 100) iy jy hiy hjy (by
      norm_num at h ⊢
      linarith)
    omega

/-- Two tile paths agree exactly when the two pairs of cast coordinates agree. -/
theorem terrain_name_eq_iff {K : Type} [LinearOrderedField K] [FloorRing K]
    (x y x2 y2 : K) (p p2 : String) (hp : terrain_name x y = some p)
    (hp2 : terrain_name x2 y2 = some p2) :
    p = p2 ↔
      static_cast_int (roundDouble (x * 100)) = static_cast_int (roundDouble (x2 * 100)) ∧
      static_cast_int (roundDouble (y * 100)) = static_cast_int (roundDouble (y2 * 100)) := by
  obtain ⟨ix, iy, hix, hiy, rfl⟩ := terrain_name_some x y p hp
  obtain ⟨jx, jy, hjx, hjy, rfl⟩ := terrain_name_some x2 y2 p2 hp2
  rw [hix, hiy, hjx, hjy]
  constructor
  · intro heq
    obtain ⟨h1, h2⟩ := tile_path_inj _ _ _ _ heq
    rw [h1, h2]
    exact ⟨rfl, rfl⟩
  · rintro ⟨h1, h2⟩
    simp only [Option.some.injEq] at h1 h2
    rw [h1, h2]

theorem terrainTile_untouched {K : Type} [LinearOrderedField K] [FloorRing K]
    (terrain : K → K → K) (r x y : K) (p : String) (h : terrain_name x y ≠ some p) :
    ∀ c ∈ (terrainTile terrain r x y).calls, ¬ c.touches p := by
  intro c hc
  unfold terrainTile at hc
  split_ifs at hc with hh
  · cases hn : terrain_name x y with
    | none =>
      simp only [hn, List.mem_singleton] at hc
      subst hc
      simp [Call.touches]
    | some q =>
      have hq : q ≠ p := fun e => h (by rw [hn, e])
      simp only [hn, List.mem_cons, List.mem_singleton, List.not_mem_nil, or_false] at hc
      rcases hc with rfl | rfl | rfl
      · simp [Call.touches]
      · exact hq
      · exact hq
  · simp only [List.mem_singleton] at hc
    subst hc
    simp [Call.touches]

/-- Blocks of calls indexed by `0, ..., n-1`, run in order: an observation that block
`i` fixes to `v` and the other blocks below `n` leave alone ends up as `v`. -/
theorem Scene.run_blocks_below {K α : Type} (g : Nat → List (Call K))
    (proj : Scene K → α) (v : α) (i : Nat)
    (hself : ∀ s : Scene K, proj (s.run (g i)) = v) :
    ∀ (n : Nat), i < n →
      (∀ j, j < n → j ≠ i → ∀ s : Scene K, proj (s.run (g j)) = proj s) →
      ∀ s : Scene K, proj (s.run ((List.range n).map g).flatten) = v := by
  intro n
  induction n with
  | zero => intro hi; omega
  | succ n ih =>
    intro hi hother s
    rw [List.range_succ, List.map_append, List.flatten_append, Scene.run_append]
    simp only [List.map_cons, List.map_nil, List.flatten_cons, List.flatten_nil,
      List.append_nil]
    by_cases hin : i = n
    · subst hin; exact hself _
    · rw [hother n (Nat.lt_succ_self n) (fun e => hin e.symm)]
      exact ih (by omega) (fun j hj hji => hother j (Nat.lt_succ_of_lt hj) hji) s

/-- C12 (counterexample): at resolution `0.001` (the double nearest to it) over
`[0, 0.001] × [0, 0]` the two distinct grid points `(0, 0)` and `(0.001, 0)` are both
stored at `terrain/tile_0_0`; the second tile overwrites the first.  At resolution `0.01`
from `x0 = 0` the eleventh and the twelfth value of `x` (the sums `0.0999…` and
`0.1099…`) are both named `terrain/tile_10_0`. -/
theorem CreateTerrainMesh_tile_collision :
    CreateTerrainMesh (⟨0, some (fun _ _ => 1)⟩ : MeshcatVisualizer ℚ) 2
        (0, roundDouble (1 / 1000)) (0, 0) (roundDouble (1 / 1000)) =
      ⟨[Call.GetHeight 0 0,
        Call.set_object "terrain/tile_0_0"
          (Shape.Box (roundDouble (1 / 1000)) (roundDouble (1 / 1000)) 1) terrain_material_,
        Call.set_transform "terrain/tile_0_0" (EigenToMeshcatTransformDefault ⟨0, 0, 1 / 2⟩),
        Call.GetHeight (roundDouble (1 / 1000)) 0,
        Call.set_object "terrain/tile_0_0"
          (Shape.Box (roundDouble (1 / 1000)) (roundDouble (1 / 1000)) 1) terrain_material_,
        Call.set_transform "terrain/tile_0_0"
          (EigenToMeshcatTransformDefault ⟨roundDouble (1 / 1000), 0, 1 / 2⟩)],
        Status.returned⟩ ∧
    ((0 : ℚ), (0 : ℚ)) ≠ (roundDouble (1 / 1000), 0) ∧
    (Scene.empty.run (CreateTerrainMesh (⟨0, some (fun _ _ => 1)⟩ : MeshcatVisualizer ℚ) 2
        (0, roundDouble (1 / 1000)) (0, 0) (roundDouble (1 / 1000))).calls).transforms
        "terrain/tile_0_0" =
      some (EigenToMeshcatTransformDefault ⟨roundDouble (1 / 1000), 0, 1 / 2⟩) ∧
    loopValue (0 : ℚ) (roundDouble (1 / 100)) 10 ≠ loopValue (0 : ℚ) (roundDouble (1 / 100)) 11 ∧
    terrain_name (loopValue (0 : ℚ) (roundDouble (1 / 100)) 10) 0 = some "terrain/tile_10_0" ∧
    terrain_name (loopValue (0 : ℚ) (roundDouble (1 / 100)) 11) 0 = some "terrain/tile_10_0" := by
  refine ⟨?_, ?_, ?_, ?_, ?_, ?_⟩ <;> decide!

/-- C12 (amended): tile paths tell grid points apart only through the two cast
coordinates.  Two grid points get the same path exactly when
`static_cast<int>(x * 100)` and `static_cast<int>(y * 100)` agree for both (double
products); points whose `x` or `y` coordinates differ by at least `0.02` always get
different paths; and after `CreateTerrainMesh` (terrain set, `m` values of `x` and `n`
values of `y` visited, casts defined, enough fuel) a drawn tile whose path no other
visited grid point shares still holds its own box and transform. -/
theorem CreateTerrainMesh_tiles_distinct {K : Type} [LinearOrderedField K] [FloorRing K]
    (self : MeshcatVisualizer K) (terrain : K → K → K) (hterrain : self.terrain_ = some terrain)
    (x0 x1 y0 y1 r : K) (m n fuel : Nat)
    (hxm : ∀ i : Nat, i < m → loopValue x0 r i ≤ x1) (hxe : x1 < loopValue x0 r m)
    (hyn : ∀ j : Nat, j < n → loopValue y0 r j ≤ y1) (hye : y1 < loopValue y0 r n)
    (hdef : ∀ i : Nat, i < m → ∀ j : Nat, j < n →
      (terrainTile terrain r (loopValue x0 r i) (loopValue y0 r j)).status = Status.returned)
    (hfm : m ≤ fuel) (hfn : n ≤ fuel) :
    (∀ (x y x2 y2 : K) (p p2 : String), terrain_name x y = some p →
      terrain_name x2 y2 = some p2 →
      (p = p2 ↔
        static_cast_int (roundDouble (x * 100)) = static_cast_int (roundDouble (x2 * 100)) ∧
        static_cast_int (roundDouble (y * 100)) = static_cast_int (roundDouble (y2 * 100)))) ∧
    (∀ (x y x2 y2 : K) (p p2 : String), terrain_name x y = some p →
      terrain_name x2 y2 = some p2 → (x + 0.02 ≤ x2 ∨ y + 0.02 ≤ y2) → p ≠ p2) ∧
    (∀ (scene : Scene K) (i j : Nat) (p : String), i < m → j < n →
      |terrain (loopValue x0 r i) (loopValue y0 r j)| > 1e-6 →
      terrain_name (loopValue x0 r i) (loopValue y0 r j) = some p →
      (∀ i2 : Nat, i2 < m → ∀ j2 : Nat, j2 < n → (i2, j2) ≠ (i, j) →
        terrain_name (loopValue x0 r i2) (loopValue y0 r j2) ≠ some p) →
      (scene.run (CreateTerrainMesh self fuel (x0, x1) (y0, y1) r).calls).objects p =
        some (Shape.Box r r |terrain (loopValue x0 r i) (loopValue y0 r j)|,
          terrain_material_) ∧
      (scene.run (CreateTerrainMesh self fuel (x0, x1) (y0, y1) r).calls).transforms p =
        some (EigenToMeshcatTransform
          ⟨loopValue x0 r i, loopValue y0 r j,
            terrain (loopValue x0 r i) (loopValue y0 r j) / 2⟩ Matrix3d.Identity)) := by
  refine ⟨terrain_name_eq_iff, terrain_name_ne_of_apart, ?_⟩
  intro scene i j p hi hj hh hp hother
  rw [CreateTerrainMesh_eq self terrain hterrain x0 x1 y0 y1 r m n fuel hxm hxe hyn hye hdef
    hfm hfn]
  simp only
  obtain ⟨q, hq, hcalls⟩ := terrainTile_name terrain r _ _ hh (hdef i hi j hj)
  have hqp : q = p := by
    rw [hp] at hq
    exact (Option.some.inj hq).symm
  subst hqp
  have hrow := Scene.run_blocks_below (K := K)
    (fun i2 : Nat => ((List.range n).map (fun j2 : Nat =>
      (terrainTile terrain r (loopValue x0 r i2) (loopValue y0 r j2)).calls)).flatten)
    (fun s => (s.objects q, s.transforms q))
    (some (Shape.Box r r |terrain (loopValue x0 r i) (loopValue y0 r j)|, terrain_material_),
      some (EigenToMeshcatTransform
        ⟨loopValue x0 r i, loopValue y0 r j,
          terrain (loopValue x0 r i) (loopValue y0 r j) / 2⟩ Matrix3d.Identity))
    i ?_ m hi ?_ scene
  · exact ⟨congrArg Prod.fst hrow, congrArg Prod.snd hrow⟩
  · intro s
    refine Scene.run_blocks_below (K := K)
      (fun j2 : Nat => (terrainTile terrain r (loopValue x0 r i) (loopValue y0 r j2)).calls)
      (fun s => (s.objects q, s.transforms q)) _ j ?_ n hj ?_ s
    · intro s2
      simp only [hcalls, Scene.run, List.foldl_cons, List.foldl_nil, Scene.apply, if_true,
        EigenToMeshcatTransformDefault]
      norm_num
    · intro j2 hj2 hne s2
      have hu := Scene.run_untouched (K := K) q
        (terrainTile terrain r (loopValue x0 r i) (loopValue y0 r j2)).calls s2
        (terrainTile_untouched terrain r _ _ _ (hother i hi j2 hj2 (by simp [hne])))
      simp only [hu.1, hu.2]
  · intro i2 hi2 hne s
    have hu := Scene.run_untouched (K := K) q
      (((List.range n).map (fun j2 : Nat =>
        (terrainTile terrain r (loopValue x0 r i2) (loopValue y0 r j2)).calls)).flatten) s ?_
    · simp only [hu.1, hu.2]
    · intro c hc
      simp only [List.mem_flatten, List.mem_map, List.mem_range] at hc
      obtain ⟨l, ⟨j2, hj2, rfl⟩, hc2⟩ := hc
      exact terrainTile_untouched terrain r _ _ _
        (hother i2 hi2 j2 hj2 (by simp [hne])) c hc2

theorem CreateTerrainMesh_tiles_distinct_witness :
    (Scene.empty.run (CreateTerrainMesh (⟨1, some (fun x y => x + y)⟩ : MeshcatVisualizer ℚ) 3
        (0, 1) (0, 1) (1 / 2)).calls).objects "terrain/tile_50_50" =
      some (Shape.Box (1 / 2) (1 / 2)
        |(fun x y : ℚ => x + y) (loopValue (0 : ℚ) (1 / 2) 1) (loopValue (0 : ℚ) (1 / 2) 1)|,
        terrain_material_) :=
  ((CreateTerrainMesh_tiles_distinct (⟨1, some (fun x y => x + y)⟩ : MeshcatVisualizer ℚ)
    (fun x y => x + y) rfl 0 1 0 1 (1 / 2) 3 3 3 (by decide!) (by decide!) (by decide!)
    (by decide!) (by decide!) (le_refl _) (le_refl _)).2.2 Scene.empty 1 1 "terrain/tile_50_50"
    (by decide) (by decide) (by decide!) (by decide!) (by decide!)).1

/-! ## Theorems: frame times and pacing in double arithmetic -/

/-- C14 (counterexample): for `T = 2.0` and `dt = 0.02` (the double nearest to it), with
`loop = false`, `PlayTrajectory` returns after `100` frames, not `101`: the loop
variable after 100 double additions is above `2.0`.  For `T = 1.0` and `dt = 0.1` it
plays `11` frames, while `⌊T/dt⌋ + 1` is `10` for the double `dt`. -/
theorem PlayTrajectory_frame_count_rounded :
    (0 : ℚ) < roundDouble (2 / 100) ∧
    (PlayTrajectory (⟨0, none⟩ : MeshcatVisualizer ℚ) (fun x => x) (fun _ => Matrix3d.Identity)
      200 ⟨fun _ => ⟨⟨0, 0, 0⟩⟩, fun _ => ⟨⟨0, 0, 0⟩⟩, 2, [], []⟩ 1 (roundDouble (2 / 100))
      false).status = Status.returned ∧
    (PlayTrajectory (⟨0, none⟩ : MeshcatVisualizer ℚ) (fun x => x) (fun _ => Matrix3d.Identity)
      200 ⟨fun _ => ⟨⟨0, 0, 0⟩⟩, fun _ => ⟨⟨0, 0, 0⟩⟩, 2, [], []⟩ 1 (roundDouble (2 / 100))
      false).items.length = 100 ∧
    (2 : ℚ) < loopValue 0 (roundDouble (2 / 100)) 100 ∧
    (PlayTrajectory (⟨0, none⟩ : MeshcatVisualizer ℚ) (fun x => x) (fun _ => Matrix3d.Identity)
      200 ⟨fun _ => ⟨⟨0, 0, 0⟩⟩, fun _ => ⟨⟨0, 0, 0⟩⟩, 1, [], []⟩ 1 (roundDouble (1 / 10))
      false).items.length = 11 ∧
    ⌊(1 : ℚ) / roundDouble (1 / 10)⌋₊ + 1 = 10 := by
  refine ⟨?_, ?_, ?_, ?_, ?_, ?_⟩ <;> decide!

/-- C14 (amended): with `loop = false` (a spline for every end-effector, a delay that
fits an `int`, enough fuel), `PlayTrajectory` runs the per-frame updater once for each
value of the loop variable `t`, which starts at `0` and is advanced by the double
addition `t += dt`, for the `m` values up to the first one above the total time `T`, in
that order, and then returns after that single pass.  For `T = 2.0` and `dt = 0.02`
that is `100` frames. -/
theorem PlayTrajectory_frame_count {K : Type} [LinearOrderedField K] [FloorRing K]
    (self : MeshcatVisualizer K) (sqrt : K → K) (euler : Vector3d K → Matrix3d K)
    (fuel : Nat) (splines : SplineHolder K) (playback_speed dt : K) (hn : 0 ≤ self.n_ee_)
    (hm : self.n_ee_.toNat ≤ splines.ee_motion_.length)
    (hf : self.n_ee_.toNat ≤ splines.ee_force_.length)
    (hspeed : playback_speed ≠ 0) (ms : Int)
    (hms : static_cast_int (roundDouble (roundDouble (dt * 1000.0) / playback_speed)) = some ms)
    (m : Nat) (hle : ∀ i : Nat, i < m → loopValue 0 dt i ≤ splines.total_time)
    (hlt : splines.total_time < loopValue 0 dt m) (hfuel : m < fuel) :
    (PlayTrajectory self sqrt euler fuel splines playback_speed dt false).status
      = Status.returned ∧
    (PlayTrajectory self sqrt euler fuel splines playback_speed dt false).items.map Frame.t =
      (List.range m).map (fun k : Nat => loopValue 0 dt k) ∧
    (PlayTrajectory self sqrt euler fuel splines playback_speed dt false).items.length = m ∧
    (loopValue (0 : K) dt 0 = 0 ∧
      ∀ k, loopValue (0 : K) dt (k + 1) = roundDouble (loopValue 0 dt k + dt)) ∧
    (PlayTrajectory (⟨0, none⟩ : MeshcatVisualizer ℚ) (fun x => x) (fun _ => Matrix3d.Identity)
      101 ⟨fun _ => ⟨⟨0, 0, 0⟩⟩, fun _ => ⟨⟨0, 0, 0⟩⟩, 2.0, [], []⟩ 1.0 (roundDouble 0.02)
      false).items.length = 100 := by
  obtain ⟨hst, htimes⟩ := PlayTrajectory_pass self sqrt euler fuel splines playback_speed dt
    hn hm hf hspeed ms hms m hle hlt hfuel
  refine ⟨hst, htimes, ?_, ⟨rfl, fun _ => rfl⟩, by decide!⟩
  have := congrArg List.length htimes
  simpa using this

theorem PlayTrajectory_frame_count_witness :
    (PlayTrajectory (⟨0, none⟩ : MeshcatVisualizer ℚ) (fun x => x) (fun _ => Matrix3d.Identity)
      6 ⟨fun t => ⟨⟨t, 0, 1⟩⟩, fun _ => ⟨⟨0, 0, 0⟩⟩, 2, [], []⟩ 1 (1 / 2) false).status
      = Status.returned ∧
    (PlayTrajectory (⟨0, none⟩ : MeshcatVisualizer ℚ) (fun x => x) (fun _ => Matrix3d.Identity)
      6 ⟨fun t => ⟨⟨t, 0, 1⟩⟩, fun _ => ⟨⟨0, 0, 0⟩⟩, 2, [], []⟩ 1 (1 / 2) false).items.map
      Frame.t = (List.range 5).map (fun k : Nat => loopValue (0 : ℚ) (1 / 2) k) :=
  have h := PlayTrajectory_frame_count (⟨0, none⟩ : MeshcatVisualizer ℚ) (fun x => x)
    (fun _ => Matrix3d.Identity) 6 ⟨fun t => ⟨⟨t, 0, 1⟩⟩, fun _ => ⟨⟨0, 0, 0⟩⟩, 2, [], []⟩ 1
    (1 / 2) (le_refl _) (by decide) (by decide) one_ne_zero 500 (by decide!) 5 (by decide!)
    (by decide!) (by decide)
  ⟨h.1, h.2.1⟩

/-- The delay every frame requests is the cast of the double quotient
`dt * 1000.0 / playback_speed`. -/
theorem PlayTrajectory_sleep {K : Type} [LinearOrderedField K] [FloorRing K]
    (self : MeshcatVisualizer K) (sqrt : K → K) (euler : Vector3d K → Matrix3d K)
    (fuel : Nat) (splines : SplineHolder K) (playback_speed dt : K) (loop : Bool)
    (frame : Frame K)
    (hframe : frame ∈ (PlayTrajectory self sqrt euler fuel splines playback_speed dt loop).items) :
    playback_speed ≠ 0 ∧
    static_cast_int (roundDouble (roundDouble (dt * 1000) / playback_speed))
      = some frame.sleep_ms := by
  have hpass := doWhile_items _ loop fuel frame hframe
  obtain ⟨t, ht⟩ := stepLoop_items _ _ _ _ _ frame hpass
  have h := (PlayFrame_frame self sqrt euler splines playback_speed dt t frame ht).2.2.2.2.2.2.1
  have h10 : (1000.0 : K) = 1000 := by norm_num
  rw [h10] at h
  exact h

/-- C16 (counterexample): for `dt = 0.0005` at speed `1` the delay requested after the
frame is `0` milliseconds, while `dt × 1000 / playback_speed` is not `0`. -/
theorem PlayTrajectory_sleep_truncated :
    (∃ frame, frame ∈ (PlayTrajectory (⟨0, none⟩ : MeshcatVisualizer ℚ) (fun x => x)
        (fun _ => Matrix3d.Identity) 1
        ⟨fun _ => ⟨⟨0, 0, 0⟩⟩, fun _ => ⟨⟨0, 0, 0⟩⟩, 0, [], []⟩ 1 (roundDouble (1 / 2000))
        false).items) ∧
    (∀ frame, frame ∈ (PlayTrajectory (⟨0, none⟩ : MeshcatVisualizer ℚ) (fun x => x)
        (fun _ => Matrix3d.Identity) 1
        ⟨fun _ => ⟨⟨0, 0, 0⟩⟩, fun _ => ⟨⟨0, 0, 0⟩⟩, 0, [], []⟩ 1 (roundDouble (1 / 2000))
        false).items → frame.sleep_ms = 0) ∧
    roundDouble (1 / 2000 : ℚ) * 1000 / 1 ≠ 0 := by
  have hms : static_cast_int (roundDouble (roundDouble (roundDouble (1 / 2000 : ℚ) * 1000.0) / 1))
      = some 0 := by decide!
  refine ⟨?_, ?_, by decide!⟩
  · obtain ⟨frame, hframe, -, -⟩ := PlayTrajectory_has_frame (⟨0, none⟩ : MeshcatVisualizer ℚ)
      (fun x => x) (fun _ => Matrix3d.Identity) 1
      ⟨fun _ => ⟨⟨0, 0, 0⟩⟩, fun _ => ⟨⟨0, 0, 0⟩⟩, 0, [], []⟩ 1 (roundDouble (1 / 2000)) false
      (le_refl _) (le_refl _) (by simp) (by simp) one_ne_zero 0 hms (by norm_num)
    exact ⟨frame, hframe⟩
  · intro frame hframe
    have h := (PlayTrajectory_sleep _ _ _ _ _ _ _ _ frame hframe).2
    have h10 : (1000.0 : ℚ) = 1000 := by norm_num
    rw [h10] at hms
    rw [hms] at h
    exact (Option.some.inj h).symm

/-- C16 (amended): the pacing delay requested after each frame is
`static_cast<int>(dt * 1000.0 / playback_speed)`: the double product `dt * 1000`
divided in double arithmetic by `playback_speed` and truncated toward zero to a whole
number of milliseconds within the range of `int` (a frame is played only when the speed
is not zero and the quotient fits).  It is `20` for `dt = 0.02` and `50` for `dt = 0.05`
at speed `1.0`, `15` for `dt = 0.15` at speed `10`, and `1000` for `dt = 1.001` at speed
`1.0`. -/
theorem PlayTrajectory_pacing {K : Type} [LinearOrderedField K] [FloorRing K]
    (self : MeshcatVisualizer K) (sqrt : K → K) (euler : Vector3d K → Matrix3d K)
    (fuel : Nat) (splines : SplineHolder K) (playback_speed dt : K) (loop : Bool)
    (frame : Frame K)
    (hframe : frame ∈ (PlayTrajectory self sqrt euler fuel splines playback_speed dt loop).items) :
    playback_speed ≠ 0 ∧
    static_cast_int (roundDouble (roundDouble (dt * 1000) / playback_speed))
      = some frame.sleep_ms ∧
    |(frame.sleep_ms : K)| ≤ |roundDouble (roundDouble (dt * 1000) / playback_speed)| ∧
    |roundDouble (roundDouble (dt * 1000) / playback_speed) - frame.sleep_ms| < 1 ∧
    -2147483648 ≤ frame.sleep_ms ∧ frame.sleep_ms ≤ 2147483647 ∧
    static_cast_int (roundDouble (roundDouble (roundDouble (0.02 : ℚ) * 1000) / 1.0)) = some 20 ∧
    static_cast_int (roundDouble (roundDouble (roundDouble (0.05 : ℚ) * 1000) / 1.0)) = some 50 ∧
    static_cast_int (roundDouble (roundDouble (roundDouble (0.15 : ℚ) * 1000) / 10)) = some 15 ∧
    static_cast_int (roundDouble (roundDouble (roundDouble (1.001 : ℚ) * 1000) / 1.0))
      = some 1000 := by
  obtain ⟨hs, hc⟩ := PlayTrajectory_sleep self sqrt euler fuel splines playback_speed dt loop
    frame hframe
  obtain ⟨h1, h2⟩ := static_cast_int_trunc _ _ hc
  obtain ⟨-, h3, h4⟩ := static_cast_int_some _ _ hc
  exact ⟨hs, hc, h1, h2, h3, h4, by decide!, by decide!, by decide!, by decide!⟩

theorem PlayTrajectory_pacing_witness :
    ∃ frame, frame ∈ (PlayTrajectory (⟨0, none⟩ : MeshcatVisualizer ℚ) (fun x => x)
        (fun _ => Matrix3d.Identity) 1
        ⟨fun _ => ⟨⟨0, 0, 0⟩⟩, fun _ => ⟨⟨0, 0, 0⟩⟩, 0, [], []⟩ 1.0 (roundDouble 0.02)
        false).items ∧
      static_cast_int (roundDouble (roundDouble (roundDouble (0.02 : ℚ) * 1000) / 1.0))
        = some frame.sleep_ms ∧ frame.sleep_ms = 20 := by
  obtain ⟨frame, hframe, -, hms⟩ := PlayTrajectory_has_frame (⟨0, none⟩ : MeshcatVisualizer ℚ)
    (fun x => x) (fun _ => Matrix3d.Identity) 1
    ⟨fun _ => ⟨⟨0, 0, 0⟩⟩, fun _ => ⟨⟨0, 0, 0⟩⟩, 0, [], []⟩ 1.0 (roundDouble 0.02) false
    (le_refl _) (le_refl _) (by simp) (by simp) (by norm_num) 20 (by decide!) (by norm_num)
  exact ⟨frame, hframe, (PlayTrajectory_pacing _ _ _ _ _ _ _ _ frame hframe).2.1, hms⟩

/-! ## Theorems: where the drawn shapes are placed -/

theorem BuildFrame_at_005 :
    BuildFrame Real.sqrt (⟨0, 0, 5⟩ : Vector3d ℝ) = ⟨⟨1, 0, 0⟩, ⟨0, 1, 0⟩, ⟨0, 0, 1⟩⟩ := by
  have h5 : Real.sqrt (5 * 5) = 5 := Real.sqrt_mul_self (by norm_num)
  have hn : (⟨0, 0, 5⟩ : Vector3d ℝ).normalized Real.sqrt = ⟨0, 0, 1⟩ := by
    simp [Vector3d.normalized, Vector3d.squaredNorm, Vector3d.dot, h5]
  have hr : referenceAxis (⟨0, 0, 1⟩ : Vector3d ℝ) = ⟨1, 0, 0⟩ := by
    simp only [referenceAxis, Vector3d.dot, Vector3d.UnitX, Vector3d.UnitY]
    norm_num
  have hy : (⟨0, 1, 0⟩ : Vector3d ℝ).normalized Real.sqrt = ⟨0, 1, 0⟩ := by
    simp [Vector3d.normalized, Vector3d.squaredNorm, Vector3d.dot]
  simp only [BuildFrame, FrameAboutAxis, hn, hr]
  simp only [Vector3d.cross, mul_zero, mul_one, sub_zero, sub_self, zero_mul, hy]

theorem BuildFrame_at_down :
    BuildFrame Real.sqrt (⟨0, 0, -4⟩ : Vector3d ℝ) = ⟨⟨1, 0, 0⟩, ⟨0, -1, 0⟩, ⟨0, 0, -1⟩⟩ := by
  have h4 : Real.sqrt (-4 * -4) = 4 := by
    have : (-4 : ℝ) * -4 = 4 * 4 := by norm_num
    rw [this]
    exact Real.sqrt_mul_self (by norm_num)
  have hn : (⟨0, 0, -4⟩ : Vector3d ℝ).normalized Real.sqrt = ⟨0, 0, -1⟩ := by
    simp only [Vector3d.normalized, Vector3d.squaredNorm, Vector3d.dot, mul_zero, zero_add, h4]
    norm_num
  have hr : referenceAxis (⟨0, 0, -1⟩ : Vector3d ℝ) = ⟨1, 0, 0⟩ := by
    simp only [referenceAxis, Vector3d.dot, Vector3d.UnitX, Vector3d.UnitY]
    norm_num
  have hy : (⟨0, -1, 0⟩ : Vector3d ℝ).normalized Real.sqrt = ⟨0, -1, 0⟩ := by
    simp [Vector3d.normalized, Vector3d.squaredNorm, Vector3d.dot]
  simp only [BuildFrame, FrameAboutAxis, hn, hr]
  have hc : (⟨0, 0, -1⟩ : Vector3d ℝ).cross ⟨1, 0, 0⟩ = ⟨0, -1, 0⟩ := by
    simp [Vector3d.cross]
  rw [hc, hy]
  simp [Vector3d.cross]

/-- C8 (evaluation at the failing input): for the foot position `(1, 2, 3)` and the
force `(0, 0, 5)` in contact, the arrow is the cylinder of radius `0.005` and length
`0.005`, and the transform passed to `set_transform` is
`[1,0,0,1, 0,1,0,2, 0,0,1,3.0025, 0,0,0,1]`: the centre `(1, 2, 3.0025)` sits at indices
3, 7 and 11, and the translation entries 12, 13, 14 of the column-major matrix are `0`,
so the arrow is placed at the origin, not at the foot. -/
theorem UpdateForceVisualization_arrow_transform :
    UpdateForceVisualization (⟨1, none⟩ : MeshcatVisualizer ℝ) Real.sqrt
        [⟨1, 2, 3⟩] [⟨0, 0, 5⟩] [true] =
      some [Call.set_object "forces/force_0" (Shape.Cylinder 0.005 0.005) force_material_,
        Call.set_transform "forces/force_0"
          [1, 0, 0, 1, 0, 1, 0, 2, 0, 0, 1, 3.0025, 0, 0, 0, 1]] ∧
    ([1, 0, 0, 1, 0, 1, 0, 2, 0, 0, 1, 3.0025, 0, 0, 0, 1] : List ℝ)[12]? = some 0 ∧
    ([1, 0, 0, 1, 0, 1, 0, 2, 0, 0, 1, 3.0025, 0, 0, 0, 1] : List ℝ)[13]? = some 0 ∧
    ([1, 0, 0, 1, 0, 1, 0, 2, 0, 0, 1, 3.0025, 0, 0, 0, 1] : List ℝ)[14]? = some 0 := by
  refine ⟨?_, rfl, rfl, rfl⟩
  rw [UpdateForceVisualization_eq (⟨1, none⟩ : MeshcatVisualizer ℝ) Real.sqrt 1
    [⟨1, 2, 3⟩] [⟨0, 0, 5⟩] [true] rfl rfl rfl rfl]
  have h5 : Real.sqrt (5 * 5) = 5 := Real.sqrt_mul_self (by norm_num)
  have hnorm : Vector3d.norm Real.sqrt (⟨0, 0, 5⟩ : Vector3d ℝ) = 5 := by
    simp [Vector3d.norm, Vector3d.squaredNorm, Vector3d.dot, h5]
  have hn : (⟨0, 0, 5⟩ : Vector3d ℝ).normalized Real.sqrt = ⟨0, 0, 1⟩ := by
    simp [Vector3d.normalized, Vector3d.squaredNorm, Vector3d.dot, h5]
  have hrange : List.range 1 = [0] := rfl
  have hname : "forces/force_" ++ toString 0 = "forces/force_0" := by decide
  have hgt : (5 : ℝ) > 1e-3 := by norm_num
  simp only [hrange, List.map_cons, List.map_nil, List.flatten_cons, List.flatten_nil,
    List.append_nil, List.getD_cons_zero, forceArrowCalls, hnorm, hn, hname, true_and,
    if_pos hgt, BuildFrame_at_005, EigenToMeshcatTransform_entries, Vector3d.add,
    Vector3d.smul]
  norm_num

/-- C19 (evaluation at the failing input): for the foot position `(1, 2, 3)` (the body
at the same place, so no leg is drawn) the transform set on `robot/foot_0` is
`[1,0,0,1, 0,1,0,2, 0,0,1,3, 0,0,0,1]`: the position sits at indices 3, 7 and 11, and
the translation entries 12, 13, 14 of the column-major matrix are `0`, so the foot is
placed at the origin, not at `positions[0]`. -/
theorem UpdateRobotVisualization_foot_transform :
    UpdateRobotVisualization (⟨1, none⟩ : MeshcatVisualizer ℝ) Real.sqrt
        (fun _ => Matrix3d.Identity) ⟨⟨⟨1, 2, 3⟩⟩, ⟨⟨0, 0, 0⟩⟩⟩ [⟨1, 2, 3⟩] [true] =
      some [Call.set_transform "robot/body"
          [1, 0, 0, 1, 0, 1, 0, 2, 0, 0, 1, 3, 0, 0, 0, 1],
        Call.set_object "robot/foot_0" (Shape.Sphere 0.03) ⟨234, 67, 53, 0.9⟩,
        Call.set_transform "robot/foot_0"
          [1, 0, 0, 1, 0, 1, 0, 2, 0, 0, 1, 3, 0, 0, 0, 1]] ∧
    ([1, 0, 0, 1, 0, 1, 0, 2, 0, 0, 1, 3, 0, 0, 0, 1] : List ℝ)[12]? = some 0 ∧
    ([1, 0, 0, 1, 0, 1, 0, 2, 0, 0, 1, 3, 0, 0, 0, 1] : List ℝ)[13]? = some 0 ∧
    ([1, 0, 0, 1, 0, 1, 0, 2, 0, 0, 1, 3, 0, 0, 0, 1] : List ℝ)[14]? = some 0 := by
  refine ⟨?_, rfl, rfl, rfl⟩
  rw [UpdateRobotVisualization_eq]
  have hmin : (min (1 : Int) (([(⟨1, 2, 3⟩ : Vector3d ℝ)].length : Nat) : Int)).toNat = 1 := by
    decide
  have hrange : List.range 1 = [0] := rfl
  have hname : "robot/foot_" ++ toString 0 = "robot/foot_0" := by decide
  have hsub : (⟨1, 2, 3⟩ : Vector3d ℝ).sub ⟨1, 2, 3⟩ = ⟨0, 0, 0⟩ := by
    simp [Vector3d.sub]
  have hnorm : Vector3d.norm Real.sqrt (⟨0, 0, 0⟩ : Vector3d ℝ) = 0 := by
    simp [Vector3d.norm, Vector3d.squaredNorm, Vector3d.dot]
  have hle : ¬ ((0 : ℝ) > 1e-6) := by norm_num
  simp only [hmin, hrange, List.map_cons, List.map_nil, List.flatten_cons, List.flatten_nil,
    List.append_nil, List.getD_cons_zero, footCalls, hname, hsub, hnorm, if_neg hle,
    if_true, EigenToMeshcatTransform_entries, Matrix3d.Identity, List.cons_append,
    List.nil_append]

/-- C20 (evaluation at the failing input): for the body position `(1, 2, 5)` and the foot
position `(1, 2, 1)` the leg is the cylinder of radius `0.01` and length `4`, and the
transform set on `robot/leg_0` is `[1,0,0,1, 0,-1,0,2, 0,0,-1,3, 0,0,0,1]`: the midpoint
`(1, 2, 3)` sits at indices 3, 7 and 11, and the translation entries 12, 13, 14 of the
column-major matrix are `0`, so the leg is placed at the origin, not at the midpoint. -/
theorem UpdateRobotVisualization_leg_transform :
    UpdateRobotVisualization (⟨1, none⟩ : MeshcatVisualizer ℝ) Real.sqrt
        (fun _ => Matrix3d.Identity) ⟨⟨⟨1, 2, 5⟩⟩, ⟨⟨0, 0, 0⟩⟩⟩ [⟨1, 2, 1⟩] [true] =
      some [Call.set_transform "robot/body"
          [1, 0, 0, 1, 0, 1, 0, 2, 0, 0, 1, 5, 0, 0, 0, 1],
        Call.set_object "robot/foot_0" (Shape.Sphere 0.03) ⟨234, 67, 53, 0.9⟩,
        Call.set_transform "robot/foot_0"
          [1, 0, 0, 1, 0, 1, 0, 2, 0, 0, 1, 1, 0, 0, 0, 1],
        Call.set_object "robot/leg_0" (Shape.Cylinder 0.01 4) ⟨100, 100, 100, 0.7⟩,
        Call.set_transform "robot/leg_0"
          [1, 0, 0, 1, 0, -1, 0, 2, 0, 0, -1, 3, 0, 0, 0, 1]] ∧
    ([1, 0, 0, 1, 0, -1, 0, 2, 0, 0, -1, 3, 0, 0, 0, 1] : List ℝ)[12]? = some 0 ∧
    ([1, 0, 0, 1, 0, -1, 0, 2, 0, 0, -1, 3, 0, 0, 0, 1] : List ℝ)[13]? = some 0 ∧
    ([1, 0, 0, 1, 0, -1, 0, 2, 0, 0, -1, 3, 0, 0, 0, 1] : List ℝ)[14]? = some 0 := by
  refine ⟨?_, rfl, rfl, rfl⟩
  rw [UpdateRobotVisualization_eq]
  have hmin : (min (1 : Int) (([(⟨1, 2, 1⟩ : Vector3d ℝ)].length : Nat) : Int)).toNat = 1 := by
    decide
  have hrange : List.range 1 = [0] := rfl
  have hname : "robot/foot_" ++ toString 0 = "robot/foot_0" := by decide
  have hname2 : "robot/leg_" ++ toString 0 = "robot/leg_0" := by decide
  have hsub : (⟨1, 2, 1⟩ : Vector3d ℝ).sub ⟨1, 2, 5⟩ = ⟨0, 0, -4⟩ := by
    simp only [Vector3d.sub]
    norm_num
  have h4 : Real.sqrt (-4 * -4) = 4 := by
    have : (-4 : ℝ) * -4 = 4 * 4 := by norm_num
    rw [this]
    exact Real.sqrt_mul_self (by norm_num)
  have hnorm : Vector3d.norm Real.sqrt (⟨0, 0, -4⟩ : Vector3d ℝ) = 4 := by
    simp [Vector3d.norm, Vector3d.squaredNorm, Vector3d.dot, h4]
  have hgt : (4 : ℝ) > 1e-6 := by norm_num
  simp only [hmin, hrange, List.map_cons, List.map_nil, List.flatten_cons, List.flatten_nil,
    List.append_nil, List.getD_cons_zero, footCalls, hname, hname2, hsub, hnorm, if_pos hgt,
    if_true, EigenToMeshcatTransform_entries, Matrix3d.Identity, List.cons_append,
    List.nil_append, BuildFrame_at_down, Vector3d.add, Vector3d.smul]
  norm_num

/-- C13 (evaluation at the failing input): static path mode with the default
`total_duration = -1` over a base track from `(0, 0, 0)` at `t = 0` to `(1, 0, 0)` at
`t = 1` (`dt = 1`, total time `1`) draws one segment of length `1` at
`trajectory/base_segment_1`, and the transform passed to `set_transform` is
`[0,1,0,1/2, 0,0,1,0, 1,0,0,0, 0,0,0,1]`: the midpoint `(0.5, 0, 0)` sits at indices 3, 7
and 11, and the translation entries 12, 13, 14 of the column-major matrix are `0`, so
the segment is placed at the origin, not at the midpoint. -/
theorem VisualizeTrajectory_segment_transform :
    (VisualizeTrajectory (⟨0, none⟩ : MeshcatVisualizer ℝ) Real.sqrt 2
        ⟨fun t => ⟨⟨t, 0, 0⟩⟩, fun _ => ⟨⟨0, 0, 0⟩⟩, 1, [], []⟩ 1 (-1)).status
      = Status.returned ∧
    (VisualizeTrajectory (⟨0, none⟩ : MeshcatVisualizer ℝ) Real.sqrt 2
        ⟨fun t => ⟨⟨t, 0, 0⟩⟩, fun _ => ⟨⟨0, 0, 0⟩⟩, 1, [], []⟩ 1 (-1)).items =
      [Call.set_object "trajectory/base_segment_1" (Shape.Cylinder 0.005 1)
         ⟨66, 133, 244, 0.5⟩,
       Call.set_transform "trajectory/base_segment_1"
         [0, 1, 0, 1 / 2, 0, 0, 1, 0, 1, 0, 0, 0, 0, 0, 0, 1]] ∧
    ([0, 1, 0, 1 / 2, 0, 0, 1, 0, 1, 0, 0, 0, 0, 0, 0, 1] : List ℝ)[12]? = some 0 ∧
    ([0, 1, 0, 1 / 2, 0, 0, 1, 0, 1, 0, 0, 0, 0, 0, 0, 1] : List ℝ)[13]? = some 0 ∧
    ([0, 1, 0, 1 / 2, 0, 0, 1, 0, 1, 0, 0, 0, 0, 0, 0, 1] : List ℝ)[14]? = some 0 := by
  have htimes := stepLoop_steps (K := ℝ) (fun t => if (0 : Int).toNat ≤
      ([] : List (ℝ → State ℝ)).length then some t else none)
    (fun t => t) (fun v => by simp) 1 1 2 2 0
    (fun i hi => by
      rw [loopValue_zero_one i (by omega)]
      have : (i : ℝ) ≤ ((1 : ℕ) : ℝ) := by exact_mod_cast (by omega : i ≤ 1)
      simpa using this)
    (by rw [loopValue_zero_one 2 (by norm_num)]; norm_num) (le_refl _)
  have hv0 : loopValue (0 : ℝ) 1 0 = 0 := rfl
  have hv1 : loopValue (0 : ℝ) 1 (0 + 1) = 1 := by
    rw [loopValue_zero_one (0 + 1) (by norm_num)]
    norm_num
  have hneg : ((-1 : ℝ) < 0) := by norm_num
  have hname : "trajectory/base_segment_" ++ toString (0 + 1) = "trajectory/base_segment_1" := by
    decide
  have hrange : List.range 1 = [0] := rfl
  have hsub : (⟨1, 0, 0⟩ : Vector3d ℝ).sub ⟨0, 0, 0⟩ = ⟨1, 0, 0⟩ := by
    simp [Vector3d.sub]
  have hnorm : Vector3d.norm Real.sqrt (⟨1, 0, 0⟩ : Vector3d ℝ) = 1 := by
    simp [Vector3d.norm, Vector3d.squaredNorm, Vector3d.dot]
  have h1 : (1 : ℝ) > 1e-6 := by norm_num
  have hrun : VisualizeTrajectory (⟨0, none⟩ : MeshcatVisualizer ℝ) Real.sqrt 2
      ⟨fun t => ⟨⟨t, 0, 0⟩⟩, fun _ => ⟨⟨0, 0, 0⟩⟩, 1, [], []⟩ 1 (-1) =
      ⟨staticPathSegment Real.sqrt "trajectory/base_segment_1" 0.005 ⟨66, 133, 244, 0.5⟩
        ⟨0, 0, 0⟩ ⟨1, 0, 0⟩, Status.returned⟩ := by
    simp only [VisualizeTrajectory, if_pos hneg, lt_self_iff_false, if_false, htimes,
      List.map_map, Function.comp_def]
    simp only [Int.toNat_zero, List.range_zero, List.map_nil, List.flatten_nil,
      List.append_nil]
    rw [trajectorySegments_map]
    simp [hrange, hname, hv0, hv1]
  rw [hrun]
  refine ⟨rfl, ?_, rfl, rfl, rfl⟩
  simp only [staticPathSegment, hsub, hnorm, if_pos h1, BuildFrame_at_unitX,
    EigenToMeshcatTransform_entries, Vector3d.add, Vector3d.smul]
  norm_num

end towr
